import Mathlib

/-!
# Retro Replay cartridge (`src/vice/src/c64/cart/retroreplay.c`)

A shallow embedding of the register decode logic, the window handlers, the
lifecycle functions and the image codec of the Retro Replay cartridge emulation,
followed by the properties proved about them.

Conventions of the embedding:

* C integers are `Nat`; a `BYTE` result is reduced modulo 256 where the C
  expression is wider than a byte.
* A C truth test `if (x)` is `x ≠ 0`.
* The module's static and global variables are the fields of `RR`; every C
  function becomes a function from `RR` to `RR` (and a result, when it has one).
* Calls that leave the module (`cartridge_config_changed`, `flash040core_reset`,
  `flash040core_store`, `tfe_clockport_changed`) append an `Event` to the
  chronological log `RR.events`.
* Byte buffers and file contents are functions from the index to the byte; a file
  carries its length besides.
-/

namespace RetroReplay

/-- The part of the external memory-map state (`c64cartmem.c`) this module reads:
the ROM-low and ROM-high bank selectors and the export-RAM flag. -/
structure MemMap where
  roml_bank : Nat
  romh_bank : Nat
  export_ram : Nat
deriving DecidableEq

/-- What the module takes from headers and modules that are not part of the
sources: the `CMODE_*` constants of `c64cartmem.h`, the `HAVE_TFE` compile-time
switch with the two `tfe.c` flags it guards, and the reaction of the external
memory controller to `cartridge_config_changed` (how it recomputes the bank
selectors and the export-RAM flag from the three arguments). All are parameters. -/
structure Ext where
  CMODE_READ : Nat
  CMODE_WRITE : Nat
  CMODE_RELEASE_FREEZE : Nat
  CMODE_EXPORT_RAM : Nat
  CMODE_BANK_SHIFT : Nat
  HAVE_TFE : Bool
  tfe_enabled : Nat
  tfe_as_rr_net : Nat
  config_map : Nat → Nat → Nat → MemMap → MemMap

/-- Calls that leave the module, in the order they are made. -/
inductive Event where
  | config_changed (mode_phi1 mode_phi2 wflag : Nat)
  | flash_reset
  | flash_store (addr value : Nat)
  | clockport_changed
deriving DecidableEq

/-- The module state: the static and global variables of `retroreplay.c`
(lines 82-105), the `io_source_valid` flags of the two I/O devices, the external
memory map, the 32K RAM overlay `export_ram0` and the event log. -/
structure RR where
  rr_active : Nat
  rr_clockport_enabled : Nat
  rr_bank : Nat
  write_once : Nat
  allow_bank : Nat
  no_freeze : Nat
  reu_mapping : Nat
  rr_hw_flashjumper : Nat
  rr_hw_bankjumper : Nat
  rr_bios_write : Nat
  rom_offset : Nat
  io1_source_valid : Nat
  io2_source_valid : Nat
  mem : MemMap
  export_ram0 : Nat → Nat
  events : List Event

/-- Array store `a[i] = v`. -/
def poke (a : Nat → Nat) (i v : Nat) : Nat → Nat :=
  fun j => if j = i then v else a j

/-- Modelled from the spec: `cartridge_config_changed(mode_phi1, mode_phi2, wflag)` is
not among the sources; it is the map-change notification consumed by the external
memory controller. The call is logged with the arguments as the caller computed
them, and the external memory map reacts through the parameter `Ext.config_map`. -/
def cartridge_config_changed (X : Ext) (mode_phi1 mode_phi2 wflag : Nat) (s : RR) : RR :=
  { s with
    mem := X.config_map mode_phi1 mode_phi2 wflag s.mem
    events := s.events ++ [Event.config_changed mode_phi1 mode_phi2 wflag] }

/-- Modelled from the spec: `cartridge_romhbank_set` is not among the sources; it
applies the bank to the ROM-high bank selector. -/
def cartridge_romhbank_set (bank : Nat) (s : RR) : RR :=
  { s with mem := { s.mem with romh_bank := bank } }

/-- Modelled from the spec: `cartridge_romlbank_set` is not among the sources; it
applies the bank to the ROM-low bank selector. -/
def cartridge_romlbank_set (bank : Nat) (s : RR) : RR :=
  { s with mem := { s.mem with roml_bank := bank } }

/-- Modelled from the spec: `flash040core_reset(flashrom_state)` is not among the
sources; the reset of the flash device is logged. -/
def flash040core_reset (s : RR) : RR :=
  { s with events := s.events ++ [Event.flash_reset] }

/-- Modelled from the spec: `flash040core_store(flashrom_state, addr, value)` is not
among the sources; the store handed to the flash device is logged. -/
def flash040core_store (addr value : Nat) (s : RR) : RR :=
  { s with events := s.events ++ [Event.flash_store addr value] }

/-- Modelled from the spec: `tfe_clockport_changed()` is not among the sources; the
clockport notification is logged. -/
def tfe_clockport_changed (s : RR) : RR :=
  { s with events := s.events ++ [Event.clockport_changed] }

/-- The clockport pass-through test of the `default:` branches (lines 176-180 and
309-313), compiled in only under `HAVE_TFE`. -/
def clockport_passthrough (X : Ext) (s : RR) (addr : Nat) : Bool :=
  X.HAVE_TFE && decide (s.rr_clockport_enabled ≠ 0) && decide (X.tfe_enabled ≠ 0)
    && decide (X.tfe_as_rr_net ≠ 0) && decide ((addr &&& 0xff) < 0x10)

/-- Embeds `retroreplay_io1_read` (lines 152-205). The flash device's read function is the
parameter `flash040core_read`; the result is the byte returned and the state with
`io_source_valid` updated. -/
def retroreplay_io1_read (X : Ext) (flash040core_read : Nat → Nat) (s : RR) (addr : Nat) :
    Nat × RR :=
  let s := { s with io1_source_valid := 0 }
  if s.rr_active ≠ 0 then
    if (addr &&& 0xff) = 0 ∨ (addr &&& 0xff) = 1 then
      ((((s.mem.roml_bank &&& 3) <<< 3) ||| ((s.mem.roml_bank &&& 4) <<< 5)
          ||| ((s.mem.roml_bank &&& 8) <<< 2) ||| s.allow_bank ||| s.reu_mapping
          ||| s.rr_hw_flashjumper) % 256,
        { s with io1_source_valid := 1 })
    else if clockport_passthrough X s addr then
      (0, s)
    else if s.reu_mapping ≠ 0 then
      let s := { s with io1_source_valid := 1 }
      let rom := flash040core_read
        (s.rom_offset + ((addr ||| 0xde00) &&& 0x1fff) + (s.mem.roml_bank <<< 13))
      if s.mem.export_ram ≠ 0 then
        if s.allow_bank ≠ 0 then
          if (s.mem.roml_bank &&& 3) = 0 then (s.export_ram0 (0x1e00 + (addr &&& 0xff)), s)
          else if (s.mem.roml_bank &&& 3) = 1 then (s.export_ram0 (0x3e00 + (addr &&& 0xff)), s)
          else if (s.mem.roml_bank &&& 3) = 2 then (s.export_ram0 (0x5e00 + (addr &&& 0xff)), s)
          else if (s.mem.roml_bank &&& 3) = 3 then (s.export_ram0 (0x7e00 + (addr &&& 0xff)), s)
          else (rom, s)
        else (s.export_ram0 (0x1e00 + (addr &&& 0xff)), s)
      else (rom, s)
    else (0, s)
  else (0, s)

/-- Embeds `retroreplay_io1_store` (lines 207-338). -/
def retroreplay_io1_store (X : Ext) (s : RR) (addr value : Nat) : RR :=
  let mode := X.CMODE_WRITE
  if s.rr_active ≠ 0 then
    if (addr &&& 0xff) = 0 then
      let s := { s with rr_bank := ((value >>> 3) &&& 3) ||| ((value >>> 5) &&& 4) }
      let mode := if value &&& 0x40 ≠ 0 then mode ||| X.CMODE_RELEASE_FREEZE else mode
      let mode := if value &&& 0x20 ≠ 0 then mode ||| X.CMODE_EXPORT_RAM else mode
      let value :=
        if s.rr_hw_flashjumper ≠ 0 then
          if (value &&& 3) = 3 then 0
          else if (value &&& 3) = 1 then 0
          else value
        else value
      let s := cartridge_config_changed X 0
        ((value &&& 3) ||| (s.rr_bank <<< X.CMODE_BANK_SHIFT)) mode s
      if value &&& 4 ≠ 0 then { s with rr_active := 0 } else s
    else if (addr &&& 0xff) = 1 then
      if s.rr_hw_flashjumper ≠ 0 then
        let s :=
          if s.rr_hw_bankjumper ≠ 0 then
            { s with rr_bank := ((value >>> 3) &&& 3) ||| ((value >>> 5) &&& 4)
                        ||| (((value >>> 2) &&& 8) ^^^ 8) }
          else
            { s with rr_bank := ((value >>> 3) &&& 3) ||| ((value >>> 5) &&& 4) }
        let s := cartridge_romhbank_set s.rr_bank s
        let s := cartridge_romlbank_set s.rr_bank s
        { s with allow_bank := value &&& 2, no_freeze := value &&& 4, reu_mapping := 0 }
      else
        if s.write_once = 0 then
          let s := { s with rr_bank := ((value >>> 3) &&& 3) ||| ((value >>> 5) &&& 4) }
          let s := cartridge_romhbank_set s.rr_bank s
          let s := cartridge_romlbank_set s.rr_bank s
          let s := { s with allow_bank := value &&& 2, no_freeze := value &&& 4,
                            reu_mapping := value &&& 0x40 }
          let s :=
            if s.rr_clockport_enabled ≠ (value &&& 1) then
              let s := { s with rr_clockport_enabled := value &&& 1 }
              if X.HAVE_TFE then tfe_clockport_changed s else s
            else s
          { s with write_once := 1 }
        else s
    else if clockport_passthrough X s addr then
      s
    else if s.reu_mapping ≠ 0 then
      if s.mem.export_ram ≠ 0 then
        if s.allow_bank ≠ 0 then
          if (s.mem.roml_bank &&& 3) = 0 then
            { s with export_ram0 := poke s.export_ram0 (0x1e00 + (addr &&& 0xff)) value }
          else if (s.mem.roml_bank &&& 3) = 1 then
            { s with export_ram0 := poke s.export_ram0 (0x3e00 + (addr &&& 0xff)) value }
          else if (s.mem.roml_bank &&& 3) = 2 then
            { s with export_ram0 := poke s.export_ram0 (0x5e00 + (addr &&& 0xff)) value }
          else if (s.mem.roml_bank &&& 3) = 3 then
            { s with export_ram0 := poke s.export_ram0 (0x7e00 + (addr &&& 0xff)) value }
          else s
        else { s with export_ram0 := poke s.export_ram0 (0x1e00 + (addr &&& 0xff)) value }
      else s
    else s
  else s

/-- Embeds `retroreplay_io2_read` (lines 340-370). -/
def retroreplay_io2_read (flash040core_read : Nat → Nat) (s : RR) (addr : Nat) : Nat × RR :=
  let s := { s with io2_source_valid := 0 }
  if s.rr_active ≠ 0 then
    if ¬ (s.reu_mapping ≠ 0) then
      let s := { s with io2_source_valid := 1 }
      let rom := flash040core_read
        (s.rom_offset + ((addr ||| 0xdf00) &&& 0x1fff) + (s.mem.roml_bank <<< 13))
      if s.mem.export_ram ≠ 0 then
        if s.allow_bank ≠ 0 then
          if (s.mem.roml_bank &&& 3) = 0 then (s.export_ram0 (0x1f00 + (addr &&& 0xff)), s)
          else if (s.mem.roml_bank &&& 3) = 1 then (s.export_ram0 (0x3f00 + (addr &&& 0xff)), s)
          else if (s.mem.roml_bank &&& 3) = 2 then (s.export_ram0 (0x5f00 + (addr &&& 0xff)), s)
          else if (s.mem.roml_bank &&& 3) = 3 then (s.export_ram0 (0x7f00 + (addr &&& 0xff)), s)
          else (rom, s)
        else (s.export_ram0 (0x1f00 + (addr &&& 0xff)), s)
      else (rom, s)
    else (0, s)
  else (0, s)

/-- Embeds `retroreplay_io2_store` (lines 372-400). -/
def retroreplay_io2_store (s : RR) (addr value : Nat) : RR :=
  if s.rr_active ≠ 0 then
    if ¬ (s.reu_mapping ≠ 0) then
      if s.mem.export_ram ≠ 0 then
        if s.allow_bank ≠ 0 then
          if (s.mem.roml_bank &&& 3) = 0 then
            { s with export_ram0 := poke s.export_ram0 (0x1f00 + (addr &&& 0xff)) value }
          else if (s.mem.roml_bank &&& 3) = 1 then
            { s with export_ram0 := poke s.export_ram0 (0x3f00 + (addr &&& 0xff)) value }
          else if (s.mem.roml_bank &&& 3) = 2 then
            { s with export_ram0 := poke s.export_ram0 (0x5f00 + (addr &&& 0xff)) value }
          else if (s.mem.roml_bank &&& 3) = 3 then
            { s with export_ram0 := poke s.export_ram0 (0x7f00 + (addr &&& 0xff)) value }
          else s
        else { s with export_ram0 := poke s.export_ram0 (0x1f00 + (addr &&& 0xff)) value }
      else s
    else s
  else s

/-- Embeds `retroreplay_roml_read` (lines 404-420), the flash device's read function being
the parameter `flash040core_read`. -/
def retroreplay_roml_read (flash040core_read : Nat → Nat) (s : RR) (addr : Nat) : Nat :=
  let rom := flash040core_read (s.rom_offset + (addr &&& 0x1fff) + (s.mem.roml_bank <<< 13))
  if s.mem.export_ram ≠ 0 then
    if (s.mem.roml_bank &&& 3) = 0 then s.export_ram0 (addr &&& 0x1fff)
    else if (s.mem.roml_bank &&& 3) = 1 then s.export_ram0 ((addr &&& 0x1fff) + 0x2000)
    else if (s.mem.roml_bank &&& 3) = 2 then s.export_ram0 ((addr &&& 0x1fff) + 0x4000)
    else if (s.mem.roml_bank &&& 3) = 3 then s.export_ram0 ((addr &&& 0x1fff) + 0x6000)
    else rom
  else rom

/-- Embeds `retroreplay_roml_store` (lines 422-446). -/
def retroreplay_roml_store (s : RR) (addr value : Nat) : RR :=
  if s.mem.export_ram ≠ 0 then
    if (s.mem.roml_bank &&& 3) = 0 then
      { s with export_ram0 := poke s.export_ram0 (addr &&& 0x1fff) value }
    else if (s.mem.roml_bank &&& 3) = 1 then
      { s with export_ram0 := poke s.export_ram0 ((addr &&& 0x1fff) + 0x2000) value }
    else if (s.mem.roml_bank &&& 3) = 2 then
      { s with export_ram0 := poke s.export_ram0 ((addr &&& 0x1fff) + 0x4000) value }
    else if (s.mem.roml_bank &&& 3) = 3 then
      { s with export_ram0 := poke s.export_ram0 ((addr &&& 0x1fff) + 0x6000) value }
    else s
  else
    if s.rr_hw_flashjumper ≠ 0 then
      flash040core_store (s.rom_offset + (addr &&& 0x1fff) + (s.mem.roml_bank <<< 13)) value s
    else s

/-- Embeds `retroreplay_roml_no_ultimax_store` (lines 448-474): the `int` result and the
new state. -/
def retroreplay_roml_no_ultimax_store (s : RR) (addr value : Nat) : Nat × RR :=
  if s.rr_hw_flashjumper ≠ 0 then
    if s.mem.export_ram ≠ 0 then
      if (s.mem.roml_bank &&& 3) = 0 then
        (1, { s with export_ram0 := poke s.export_ram0 (addr &&& 0x1fff) value })
      else if (s.mem.roml_bank &&& 3) = 1 then
        (1, { s with export_ram0 := poke s.export_ram0 ((addr &&& 0x1fff) + 0x2000) value })
      else if (s.mem.roml_bank &&& 3) = 2 then
        (1, { s with export_ram0 := poke s.export_ram0 ((addr &&& 0x1fff) + 0x4000) value })
      else if (s.mem.roml_bank &&& 3) = 3 then
        (1, { s with export_ram0 := poke s.export_ram0 ((addr &&& 0x1fff) + 0x6000) value })
      else (1, s)
    else
      (0, flash040core_store
        (s.rom_offset + (addr &&& 0x1fff) + (s.mem.roml_bank <<< 13)) value s)
  else (0, s)

/-- Embeds `retroreplay_romh_read` (lines 476-479). -/
def retroreplay_romh_read (flash040core_read : Nat → Nat) (s : RR) (addr : Nat) : Nat :=
  flash040core_read (s.rom_offset + (addr &&& 0x1fff) + (s.mem.roml_bank <<< 13))

/-- Embeds `retroreplay_freeze` (lines 483-491). -/
def retroreplay_freeze (X : Ext) (s : RR) : RR :=
  if ¬ (s.rr_hw_flashjumper ≠ 0) then
    let s := { s with rr_active := 1 }
    cartridge_config_changed X 3 3 (X.CMODE_READ ||| X.CMODE_EXPORT_RAM) s
  else s

/-- Embeds `retroreplay_freeze_allowed` (lines 493-499). -/
def retroreplay_freeze_allowed (s : RR) : Nat :=
  if s.no_freeze ≠ 0 then 0 else 1

/-- Embeds `retroreplay_config_init` (lines 501-519). -/
def retroreplay_config_init (X : Ext) (s : RR) : RR :=
  let s := { s with rr_active := 1, rr_clockport_enabled := 0, write_once := 0,
                    no_freeze := 0, reu_mapping := 0, allow_bank := 0 }
  let s :=
    if s.rr_hw_flashjumper ≠ 0 then cartridge_config_changed X 2 2 X.CMODE_READ s
    else cartridge_config_changed X 0 0 X.CMODE_READ s
  flash040core_reset s

/-- Embeds `retroreplay_reset` (lines 521-536). -/
def retroreplay_reset (X : Ext) (s : RR) : RR :=
  let s := { s with rr_active := 1 }
  let s :=
    if s.rr_hw_flashjumper ≠ 0 then cartridge_config_changed X 2 2 X.CMODE_READ s
    else cartridge_config_changed X 0 0 X.CMODE_READ s
  flash040core_reset s

/-- Embeds `set_rr_flashjumper` (lines 561-566). -/
def set_rr_flashjumper (val : Nat) (s : RR) : RR :=
  { s with rr_hw_flashjumper := val }

/-- Embeds `set_rr_bankjumper` (lines 572-583). -/
def set_rr_bankjumper (val : Nat) (s : RR) : RR :=
  let s := { s with rr_hw_bankjumper := val }
  if s.rr_hw_bankjumper ≠ 0 then { s with rom_offset := 0x0 }
  else { s with rom_offset := 0x10000 }

/-- A concrete choice of the external parameters, used to evaluate the model on
concrete inputs: flag values that are distinct bits, a bank shift of 2, and a
memory controller that takes both bank selectors from the bank field of
`mode_phi2` and the export-RAM flag from bit 3 of `wflag`. -/
def sampleExt : Ext :=
  { CMODE_READ := 0, CMODE_WRITE := 1, CMODE_RELEASE_FREEZE := 2, CMODE_EXPORT_RAM := 8,
    CMODE_BANK_SHIFT := 2, HAVE_TFE := true, tfe_enabled := 0, tfe_as_rr_net := 0,
    config_map := fun _ mode_phi2 wflag _ =>
      { roml_bank := (mode_phi2 >>> 2) &&& 0x3f, romh_bank := (mode_phi2 >>> 2) &&& 0x3f,
        export_ram := (wflag >>> 3) &&& 1 } }

/-- The module state at program start: the initialisers of lines 82-112 (zero for
every variable without one, `rom_offset = 0x10000`), an all-zero memory map and
RAM overlay, and an empty event log. -/
def power_on : RR :=
  { rr_active := 0, rr_clockport_enabled := 0, rr_bank := 0, write_once := 0, allow_bank := 0,
    no_freeze := 0, reu_mapping := 0, rr_hw_flashjumper := 0, rr_hw_bankjumper := 0,
    rr_bios_write := 0, rom_offset := 0x10000, io1_source_valid := 0, io2_source_valid := 0,
    mem := { roml_bank := 0, romh_bank := 0, export_ram := 0 },
    export_ram0 := fun _ => 0, events := [] }

/-- Attach with both jumpers unset. -/
def attached : RR := retroreplay_config_init sampleExt power_on

/-- Attach with the flash jumper set and the bank jumper unset. -/
def attached_flash : RR :=
  retroreplay_config_init sampleExt (set_rr_flashjumper 1 power_on)

/-- Attach with the flash jumper and the bank jumper set. -/
def attached_flash_bank : RR :=
  retroreplay_config_init sampleExt (set_rr_bankjumper 1 (set_rr_flashjumper 1 power_on))

/-- A sequence of I/O-1 window writes, each an (address, value) pair, in order. -/
def io1_stores (X : Ext) (s : RR) (ws : List (Nat × Nat)) : RR :=
  ws.foldl (fun t w => retroreplay_io1_store X t w.1 w.2) s

/-- The operations that act on an attached cartridge. -/
inductive Op where
  | io1_store (addr value : Nat)
  | freeze
  | reset
deriving DecidableEq

/-- One operation applied to the state. -/
def step (X : Ext) (s : RR) : Op → RR
  | Op.io1_store addr value => retroreplay_io1_store X s addr value
  | Op.freeze => retroreplay_freeze X s
  | Op.reset => retroreplay_reset X s

/-- A sequence of operations applied in order. -/
def run (X : Ext) (s : RR) (ops : List Op) : RR :=
  ops.foldl (step X) s

/-- A write arriving on one of the two I/O windows. -/
inductive IOWrite where
  | io1 (addr value : Nat)
  | io2 (addr value : Nat)
deriving DecidableEq

/-- One I/O-window write applied to the state. -/
def io_write (X : Ext) (s : RR) : IOWrite → RR
  | IOWrite.io1 addr value => retroreplay_io1_store X s addr value
  | IOWrite.io2 addr value => retroreplay_io2_store s addr value

/-- A sequence of I/O-window writes applied in order. -/
def io_writes (X : Ext) (s : RR) (ws : List IOWrite) : RR :=
  ws.foldl (io_write X) s

/-- Whether a write arriving in state `s` is an R1 write that takes effect: the
guards of `retroreplay_io1_store` on the way to the assignments of lines 287-288 and
295-296 (cartridge active, offset 1, and flash jumper set or write-once lock not yet
engaged). -/
def r1_takes_effect (s : RR) : IOWrite → Bool
  | IOWrite.io1 addr _ =>
    decide (s.rr_active ≠ 0) && decide (addr &&& 0xff = 1) &&
      (decide (s.rr_hw_flashjumper ≠ 0) || decide (s.write_once = 0))
  | IOWrite.io2 _ _ => false

/-- The value carried by a write. -/
def IOWrite.value : IOWrite → Nat
  | IOWrite.io1 _ value => value
  | IOWrite.io2 _ value => value

/-- The value of the most recent R1 write of `ws` that took effect when the writes
are applied in order from state `s`; `prev` when none did. -/
def last_effective_r1 (X : Ext) : RR → List IOWrite → Option Nat → Option Nat
  | _, [], prev => prev
  | s, w :: ws, prev =>
    last_effective_r1 X (io_write X s w) ws (if r1_takes_effect s w then some w.value else prev)

/-! ## Image codec: files, buffers and the load/save functions -/

/-- Contents of a file: its length and its bytes (byte `i` at index `i < len`). -/
structure File where
  len : Nat
  byte : Nat → Nat

/-- A `FILE *` opened for reading: the file and the read position. -/
structure Stream where
  file : File
  pos : Nat

/-- Outcomes of the host operations the codec relies on: whether the file access
inside `util_file_load` succeeds, whether `c64export_add` accepts the cartridge,
whether `fopen` for writing succeeds, and whether the `k`-th `fwrite` of a save
(counted from 0) writes all its bytes. -/
structure Host where
  util_file_load_ok : Bool
  c64export_add_ok : Bool
  fopen_write_ok : Bool
  fwrite_ok : Nat → Bool

/-- Constants of the container format that come from headers outside the sources:
the `CRT_HEADER` and `CHIP_HEADER` signature strings (as character codes, without
the terminating NUL) and the cartridge type number `CARTRIDGE_RETRO_REPLAY`. -/
structure CrtConst where
  CRT_HEADER : List Nat
  CHIP_HEADER : List Nat
  CARTRIDGE_RETRO_REPLAY : Nat

/-- The image attributes and registration handles kept by the module (lines 110-112
and 147-148); a list item is `true` once registered. -/
structure Codec where
  retroreplay_filename : Option String
  retroreplay_filetype : Nat
  retroreplay_filesize : Nat
  retroreplay_io1_list_item : Bool
  retroreplay_io2_list_item : Bool
deriving DecidableEq

/-- Embeds `CARTRIDGE_FILETYPE_BIN` (line 116). -/
def CARTRIDGE_FILETYPE_BIN : Nat := 1

/-- Embeds `CARTRIDGE_FILETYPE_CRT` (line 117). -/
def CARTRIDGE_FILETYPE_CRT : Nat := 2

/-- Embeds `STRING_RETRO_REPLAY` (line 114), the characters of "Retro Replay". -/
def STRING_RETRO_REPLAY : List Nat :=
  [0x52, 0x65, 0x74, 0x72, 0x6f, 0x20, 0x52, 0x65, 0x70, 0x6c, 0x61, 0x79]

/-- C library `memcpy(&dst[d], &src[s], n)`. -/
def memcpy (dst : Nat → Nat) (d : Nat) (src : Nat → Nat) (s n : Nat) : Nat → Nat :=
  fun j => if d ≤ j ∧ j < d + n then src (s + (j - d)) else dst j

/-- C library `strcpy(&dst[d], str)`: the characters followed by a NUL. -/
def strcpy (dst : Nat → Nat) (d : Nat) (str : List Nat) : Nat → Nat :=
  fun j =>
    if d ≤ j ∧ j < d + str.length then str.getD (j - d) 0
    else if j = d + str.length then 0
    else dst j

/-- C library `fread(&buf[off], size, 1, fd)`: when `size` bytes remain they are
copied, the position advances and the result is 1; otherwise (short read) the bytes
that remain are copied, the position moves to the end and the result is 0. -/
def fread (buf : Nat → Nat) (off size : Nat) (fd : Stream) : Nat × (Nat → Nat) × Stream :=
  if fd.pos + size ≤ fd.file.len then
    (1, memcpy buf off fd.file.byte fd.pos size, { fd with pos := fd.pos + size })
  else
    (0, memcpy buf off fd.file.byte fd.pos (fd.file.len - fd.pos),
      { fd with pos := max fd.pos fd.file.len })

/-- C library `fwrite(&src[off], 1, n, fd)` appending to the file written so far:
when the write succeeds the `n` bytes are appended and the result is `n`; when it
fails nothing is appended and the result is 0. -/
def fwrite (ok : Bool) (src : Nat → Nat) (off n : Nat) (out : File) : Nat × File :=
  if ok then (n, { len := out.len + n, byte := memcpy out.byte out.len src off n })
  else (0, out)

/-- Modelled from the spec: `util_file_load(name, dest, size, flags)` is not among the
sources; it loads the first `size` bytes of the file verbatim (no header) to
`dest[0 .. size-1]` and returns 0, or returns -1 with `dest` untouched when the file
access fails or the file is shorter than `size`. -/
def util_file_load (H : Host) (file : File) (dest : Nat → Nat) (size : Nat) :
    Int × (Nat → Nat) :=
  if H.util_file_load_ok = true ∧ size ≤ file.len then (0, memcpy dest 0 file.byte 0 size)
  else (-1, dest)

/-- Embeds `retroreplay_common_attach` (lines 653-663); `c64export_add` and
`c64io_register` are external, the first may refuse the cartridge. -/
def retroreplay_common_attach (H : Host) (c : Codec) : Int × Codec :=
  if ¬ (H.c64export_add_ok = true) then (-1, c)
  else (0, { c with retroreplay_io1_list_item := true, retroreplay_io2_list_item := true })

/-- Embeds `retroreplay_bin_attach` (lines 665-702): `file` is the file found under
`filename` (its length is what `util_file_length` returns; the code opens it without
checking the result, so the file is taken to exist), `rawcart` the destination
buffer. The result is the return value, the buffer and the attributes. -/
def retroreplay_bin_attach (H : Host) (filename : String) (file : File)
    (rawcart : Nat → Nat) (c : Codec) : Int × (Nat → Nat) × Codec :=
  let c := { c with retroreplay_filetype := 0, retroreplay_filesize := 0,
                    retroreplay_filename := none }
  let len := file.len
  let finish := fun (rawcart : Nat → Nat) =>
    let c := { c with retroreplay_filetype := CARTRIDGE_FILETYPE_BIN,
                      retroreplay_filesize := len,
                      retroreplay_filename := some filename }
    ((retroreplay_common_attach H c).1, rawcart, (retroreplay_common_attach H c).2)
  if len = 0x8000 then
    let r := util_file_load H file rawcart 0x8000
    if r.1 < 0 then (-1, r.2, c) else finish r.2
  else if len = 0x10000 then
    let r := util_file_load H file rawcart 0x10000
    if r.1 < 0 then (-1, r.2, c) else finish r.2
  else if len = 0x20000 then
    let r := util_file_load H file rawcart 0x20000
    if r.1 < 0 then (-1, r.2, c) else finish r.2
  else (-1, rawcart, c)

/-- Embeds `retroreplay_config_setup` (lines 538-553) on the module state and the
flash image. Modelled from the spec: `flash040core_init` is not among the sources;
it makes `roml_banks`, the in-memory image that the save functions write out, the
data of the flash device, so the two `memcpy` calls fill `roml_banks`. -/
def retroreplay_config_setup (X : Ext) (s : RR) (rawcart roml_banks : Nat → Nat) :
    RR × (Nat → Nat) :=
  let s :=
    if s.rr_hw_flashjumper ≠ 0 then cartridge_config_changed X 2 2 X.CMODE_READ s
    else cartridge_config_changed X 0 0 X.CMODE_READ s
  let flash_data := roml_banks
  let flash_data := memcpy flash_data 0 rawcart 0x10000 0x10000
  let flash_data := memcpy flash_data 0x10000 rawcart 0 0x10000
  (s, flash_data)

/-- Embeds `retroreplay_save_bin` (lines 704-731): the return value and the file
written (`none` when no file was opened), the file being what was handed to `fwrite`
(the success path returns without `fclose`). -/
def retroreplay_save_bin (H : Host) (c : Codec) (roml_banks : Nat → Nat) : Int × Option File :=
  if c.retroreplay_filename = none then (-1, none)
  else if ¬ (H.fopen_write_ok = true) then (-1, none)
  else
    let fd : File := { len := 0, byte := fun _ => 0 }
    if c.retroreplay_filesize = 0x20000 then
      let w := fwrite (H.fwrite_ok 0) roml_banks 0 c.retroreplay_filesize fd
      if w.1 ≠ c.retroreplay_filesize then (-1, some w.2) else (0, some w.2)
    else
      let w := fwrite (H.fwrite_ok 0) roml_banks 0x10000 c.retroreplay_filesize fd
      if w.1 ≠ c.retroreplay_filesize then (-1, some w.2) else (0, some w.2)

/-- The loop of `retroreplay_crt_attach` (lines 745-757) with `n` iterations left:
whether all of them succeeded, the buffer and the stream. `chipheader` is the local
header buffer. -/
def crt_attach_chunks : Nat → (Nat → Nat) → (Nat → Nat) → Stream →
    Bool × (Nat → Nat) × Stream
  | 0, _, rawcart, fd => (true, rawcart, fd)
  | n + 1, chipheader, rawcart, fd =>
    let hdr := fread chipheader 0 0x10 fd
    if hdr.1 < 1 then (false, rawcart, hdr.2.2)
    else if hdr.2.1 0xb > 7 then (false, rawcart, hdr.2.2)
    else
      let body := fread rawcart (hdr.2.1 0xb <<< 13) 0x2000 hdr.2.2
      if body.1 < 1 then (false, body.2.1, body.2.2)
      else crt_attach_chunks n hdr.2.1 body.2.1 body.2.2

/-- Embeds `retroreplay_crt_attach` (lines 736-764): `fd` is the container file,
positioned behind its preamble by the caller, `rawcart` the destination buffer. The
result is the return value, the buffer, the stream and the attributes. The local
`chipheader` starts out zeroed here; `fread` overwrites it before it is looked at. -/
def retroreplay_crt_attach (H : Host) (fd : Stream) (rawcart : Nat → Nat) (filename : String)
    (c : Codec) : Int × (Nat → Nat) × Stream × Codec :=
  let c := { c with retroreplay_filetype := 0, retroreplay_filesize := 0,
                    retroreplay_filename := none }
  let loop := crt_attach_chunks 8 (fun _ => 0) rawcart fd
  if loop.1 = false then (-1, loop.2.1, loop.2.2, c)
  else
    let c := { c with retroreplay_filetype := CARTRIDGE_FILETYPE_CRT,
                      retroreplay_filesize := 0x10000,
                      retroreplay_filename := some filename }
    ((retroreplay_common_attach H c).1, loop.2.1, loop.2.2, (retroreplay_common_attach H c).2)

/-- The loop of `retroreplay_save_crt` (lines 809-822) with `n` iterations left, `i`
the loop counter, `data` the offset of the `data` pointer into `roml_banks`: whether
every write succeeded, and the file written so far. The header write of chunk `i` is
write number `1 + 2 * i` of the save, its payload write number `2 + 2 * i`. -/
def save_crt_chunks (H : Host) (roml_banks : Nat → Nat) :
    Nat → Nat → (Nat → Nat) → Nat → File → Bool × File
  | 0, _, _, _, fd => (true, fd)
  | n + 1, i, chipheader, data, fd =>
    let chipheader := poke chipheader 0x0c 0x80
    let hdr := fwrite (H.fwrite_ok (1 + 2 * i)) chipheader 0 0x10 fd
    if hdr.1 ≠ 0x10 then (false, hdr.2)
    else
      let body := fwrite (H.fwrite_ok (2 + 2 * i)) roml_banks data 0x2000 hdr.2
      if body.1 ≠ 0x2000 then (false, body.2)
      else save_crt_chunks H roml_banks n (i + 1) chipheader (data + 0x2000) body.2

/-- The 0x40-byte preamble built by `retroreplay_save_crt` (lines 788-797). -/
def save_crt_header (K : CrtConst) : Nat → Nat :=
  let header : Nat → Nat := fun _ => 0
  let header := strcpy header 0 K.CRT_HEADER
  let header := poke header 0x13 0x40
  let header := poke header 0x14 0x01
  let header := poke header 0x17 K.CARTRIDGE_RETRO_REPLAY
  let header := poke header 0x18 0x01
  strcpy header 0x20 STRING_RETRO_REPLAY

/-- The chunk header as `retroreplay_save_crt` sets it up before the loop (lines 789
and 803-807). -/
def save_crt_chipheader (K : CrtConst) : Nat → Nat :=
  let chipheader : Nat → Nat := fun _ => 0
  let chipheader := strcpy chipheader 0 K.CHIP_HEADER
  let chipheader := poke chipheader 0x06 0x20
  let chipheader := poke chipheader 0x07 0x10
  let chipheader := poke chipheader 0x09 0x02
  poke chipheader 0x0e 0x20

/-- Embeds `retroreplay_save_crt` (lines 769-825): the return value and the file
written (`none` when no file was opened). -/
def retroreplay_save_crt (H : Host) (K : CrtConst) (c : Codec) (roml_banks : Nat → Nat) :
    Int × Option File :=
  if c.retroreplay_filename = none then (-1, none)
  else if ¬ (H.fopen_write_ok = true) then (-1, none)
  else
    let fd : File := { len := 0, byte := fun _ => 0 }
    let data := 0x10000
    let pre := fwrite (H.fwrite_ok 0) (save_crt_header K) 0 0x40 fd
    if pre.1 ≠ 0x40 then (-1, some pre.2)
    else
      let loop := save_crt_chunks H roml_banks 8 0 (save_crt_chipheader K) data pre.2
      if loop.1 = false then (-1, some loop.2)
      else (0, some loop.2)

/-- Host operations that all succeed. -/
def hostOk : Host :=
  { util_file_load_ok := true, c64export_add_ok := true, fopen_write_ok := true,
    fwrite_ok := fun _ => true }

/-- A concrete choice of the container constants, used to evaluate the model on
concrete inputs: the signatures "C64 CARTRIDGE" padded with three blanks and "CHIP",
and cartridge type 36. -/
def sampleCrt : CrtConst :=
  { CRT_HEADER := [0x43, 0x36, 0x34, 0x20, 0x43, 0x41, 0x52, 0x54, 0x52, 0x49, 0x44, 0x47,
      0x45, 0x20, 0x20, 0x20],
    CHIP_HEADER := [0x43, 0x48, 0x49, 0x50],
    CARTRIDGE_RETRO_REPLAY := 36 }

/-- Image attributes at program start (lines 110-112 and 147-148). -/
def codec_init : Codec :=
  { retroreplay_filename := none, retroreplay_filetype := 0, retroreplay_filesize := 0,
    retroreplay_io1_list_item := false, retroreplay_io2_list_item := false }

/-- The destination-bank byte (header offset 0x0B) of the `k`-th chunk behind the
read position of a container stream, a chunk being a 0x10-byte header followed by a
0x2000-byte payload. -/
def chunk_bank (fd : Stream) (k : Nat) : Nat :=
  fd.file.byte (fd.pos + k * 0x2010 + 0xb)

/-- Byte `j` of the payload of the `k`-th chunk behind the read position. -/
def chunk_payload (fd : Stream) (k j : Nat) : Nat :=
  fd.file.byte (fd.pos + k * 0x2010 + 0x10 + j)

/-- Load a raw binary file, install it into the flash image and save it again, with
nothing touching the flash image in between: the results of
`retroreplay_bin_attach` and `retroreplay_save_bin` and the file saved. -/
def bin_load_install_save (H : Host) (X : Ext) (s : RR) (filename : String) (file : File)
    (rawcart roml_banks : Nat → Nat) (c : Codec) : Int × Int × Option File :=
  let a := retroreplay_bin_attach H filename file rawcart c
  let f := retroreplay_config_setup X s a.2.1 roml_banks
  let w := retroreplay_save_bin H a.2.2 f.2
  (a.1, w.1, w.2)

/-- A 0x10000-byte file whose byte `i` is `i % 251`. -/
def file64 : File := { len := 0x10000, byte := fun i => i % 251 }

/-- A 0x20000-byte file whose first byte is 1 and whose other bytes are 0. -/
def file128 : File := { len := 0x20000, byte := fun i => if i = 0 then 1 else 0 }

/-- A container body of 8 chunks: chunk `k` carries bank `7 - k` and a payload filled
with the byte `k + 1`. -/
def crt_good : File :=
  { len := 8 * 0x2010,
    byte := fun i => if i % 0x2010 = 0xb then 7 - i / 0x2010
                     else if i % 0x2010 < 0x10 then 0 else i / 0x2010 + 1 }

/-- A container body whose first chunk carries bank 0 and a payload of ones and
whose second chunk carries bank 8. -/
def crt_bad_second : File :=
  { len := 8 * 0x2010,
    byte := fun i => if i = 0x2010 + 0xb then 8
                     else if i < 0x10 then 0 else if i < 0x2010 then 1 else 0 }

/-- Image attributes left behind by an earlier container attach and detach. -/
def codec_after_crt : Codec :=
  { codec_init with retroreplay_filetype := CARTRIDGE_FILETYPE_CRT,
                    retroreplay_filesize := 0x10000 }

/-- Load a container, install the buffer into the flash image and save the image as
a container again, with nothing touching the flash image in between: the results of
`retroreplay_crt_attach` and `retroreplay_save_crt` and the file saved. -/
def crt_load_install_save (H : Host) (K : CrtConst) (X : Ext) (s : RR) (filename : String)
    (fd : Stream) (rawcart roml_banks : Nat → Nat) (c : Codec) : Int × Int × Option File :=
  let a := retroreplay_crt_attach H fd rawcart filename c
  let f := retroreplay_config_setup X s a.2.1 roml_banks
  let w := retroreplay_save_crt H K a.2.2.2 f.2
  (a.1, w.1, w.2)

/-- The container saved by `crt_load_install_save` from the well-formed container
`crt_good`, the buffers zeroed beforehand and every host operation succeeding (an
empty file stands in if nothing was saved). -/
def crt_good_saved : File :=
  ((crt_load_install_save hostOk sampleCrt sampleExt power_on "rr.crt"
    { file := crt_good, pos := 0 } (fun _ => 0) (fun _ => 0) codec_init).2.2).getD
    { len := 0, byte := fun _ => 0 }

/-- The state after attach (both jumpers unset) and an R0 write of 0x20, which
requests export RAM: with the sample memory controller export RAM is on. -/
def attached_ram : RR := retroreplay_io1_store sampleExt attached 0xde00 0x20

/-- The state `attached_ram` after a ROM-window write of 0xAA to address 0x8000, which
lands in byte 0 of the RAM overlay. -/
def attached_ram_written : RR := retroreplay_roml_store attached_ram 0x8000 0xAA

/-- The state after attach in flash mode and an R0 write of 0x20: export RAM on with
the flash jumper set. -/
def attached_flash_ram : RR := retroreplay_io1_store sampleExt attached_flash 0xde00 0x20

/-- The state after attach and an R1 write of 0x4A (bank 1, `allow_bank` and
`reu_mapping` set) followed by the notification that switches export RAM on, as the
sample memory controller reacts to it. -/
def attached_reu_ram : RR :=
  cartridge_config_changed sampleExt 0 (1 <<< 2) 8
    (retroreplay_io1_store sampleExt attached 0xde01 0x4A)

/-- The state after attach and an R1 write of 0x0A (bank 1, `allow_bank` set,
`reu_mapping` clear) followed by the notification that switches export RAM on. -/
def attached_bank1_ram : RR :=
  cartridge_config_changed sampleExt 0 (1 <<< 2) 8
    (retroreplay_io1_store sampleExt attached 0xde01 0x0A)

/-- Host operations of which the file access succeeds and `c64export_add` refuses
the cartridge. -/
def hostRefusing : Host :=
  { util_file_load_ok := true, c64export_add_ok := false, fopen_write_ok := true,
    fwrite_ok := fun _ => true }

/-- The state reached from attach by a sequence of operations, the jumpers having
been set to `fj` (flash) and `bj` (bank) in the state `s00` before the attach. -/
def attach_run (X : Ext) (fj bj : Nat) (s00 : RR) (ops : List Op) : RR :=
  run X (retroreplay_config_init X (set_rr_bankjumper bj (set_rr_flashjumper fj s00))) ops

/-- The state an earlier session leaves behind: attached with both jumpers set, then
an R1 write of 0x98, which selects bank 15. -/
def stale_bank15 : RR :=
  attach_run sampleExt 1 1 power_on [Op.io1_store 0xde01 0x98]

/-- The cartridge attached again after `stale_bank15`, now with the flash jumper set
and the bank jumper unset, before any register write. -/
def reattached_stale : RR := attach_run sampleExt 1 0 stale_bank15 []

/-! ## Arithmetic of the bit fields -/

theorem shiftRight_and (a b i : Nat) : (a &&& b) >>> i = (a >>> i) &&& (b >>> i) := by
  apply Nat.eq_of_testBit_eq
  intro j
  simp [Nat.testBit_shiftRight, Nat.testBit_and]

theorem and_and_lit (v a b c : Nat) (h : a &&& b = c) : (v &&& a) &&& b = v &&& c := by
  rw [Nat.and_assoc, h]

theorem and_mod16 (b m : Nat) (hm : 15 &&& m = m) : b &&& m = (b % 16) &&& m := by
  have h : b % 16 = b &&& 15 := (Nat.and_pow_two_sub_one_eq_mod b 4).symm
  rw [h, Nat.and_assoc, hm]

theorem testBit_mod16 (b k : Nat) (hk : k < 4) : b.testBit k = (b % 16).testBit k := by
  have h : (16 : Nat) = 2 ^ 4 := by norm_num
  rw [h, Nat.testBit_mod_two_pow]
  simp [hk]

/-- The byte assembled by the register read (line 174), bit by bit. -/
theorem register_byte_bits (b ab reu fj : Nat) (hab : ab = 0 ∨ ab = 2)
    (hreu : reu = 0 ∨ reu = 0x40) (hfj : fj ≤ 1) (r : Nat)
    (hr : r = (((b &&& 3) <<< 3) ||| ((b &&& 4) <<< 5) ||| ((b &&& 8) <<< 2) ||| ab ||| reu
      ||| fj) % 256) :
    r.testBit 0 = decide (fj ≠ 0) ∧ r.testBit 1 = decide (ab ≠ 0) ∧ r.testBit 2 = false ∧
    r.testBit 3 = b.testBit 0 ∧ r.testBit 4 = b.testBit 1 ∧ r.testBit 5 = b.testBit 3 ∧
    r.testBit 6 = decide (reu ≠ 0) ∧ r.testBit 7 = b.testBit 2 := by
  subst hr
  rw [and_mod16 b 3 (by decide), and_mod16 b 4 (by decide), and_mod16 b 8 (by decide),
    testBit_mod16 b 0 (by decide), testBit_mod16 b 1 (by decide),
    testBit_mod16 b 2 (by decide), testBit_mod16 b 3 (by decide)]
  have hc : b % 16 < 16 := Nat.mod_lt _ (by decide)
  generalize b % 16 = c at hc ⊢
  have hfj' : fj = 0 ∨ fj = 1 := by omega
  rcases hab with rfl | rfl <;> rcases hreu with rfl | rfl <;> rcases hfj' with rfl | rfl <;>
    interval_cases c <;> decide

/-- Clearing the low three bits of a value keeps every field the R0 decode reads
from bits 3-7 and zeroes the fields read from bits 0-2. -/
theorem mask_f8 (v : Nat) :
    ((v &&& 0xF8) >>> 3) &&& 3 = (v >>> 3) &&& 3 ∧
    ((v &&& 0xF8) >>> 5) &&& 4 = (v >>> 5) &&& 4 ∧
    (v &&& 0xF8) &&& 0x40 = v &&& 0x40 ∧ (v &&& 0xF8) &&& 0x20 = v &&& 0x20 ∧
    (v &&& 0xF8) &&& 3 = 0 ∧ (v &&& 0xF8) &&& 4 = 0 := by
  refine ⟨?_, ?_, ?_, ?_, ?_, ?_⟩
  · rw [shiftRight_and]; exact and_and_lit _ _ _ _ (by decide)
  · rw [shiftRight_and]; exact and_and_lit _ _ _ _ (by decide)
  · exact and_and_lit _ _ _ _ (by decide)
  · exact and_and_lit _ _ _ _ (by decide)
  · rw [and_and_lit v 0xF8 3 0 (by decide)]; simp
  · rw [and_and_lit v 0xF8 4 0 (by decide)]; simp

/-- Clearing the low two bits of a value keeps bit 2 as well. -/
theorem mask_fc (v : Nat) :
    ((v &&& 0xFC) >>> 3) &&& 3 = (v >>> 3) &&& 3 ∧
    ((v &&& 0xFC) >>> 5) &&& 4 = (v >>> 5) &&& 4 ∧
    (v &&& 0xFC) &&& 0x40 = v &&& 0x40 ∧ (v &&& 0xFC) &&& 0x20 = v &&& 0x20 ∧
    (v &&& 0xFC) &&& 3 = 0 ∧ (v &&& 0xFC) &&& 4 = v &&& 4 := by
  refine ⟨?_, ?_, ?_, ?_, ?_, ?_⟩
  · rw [shiftRight_and]; exact and_and_lit _ _ _ _ (by decide)
  · rw [shiftRight_and]; exact and_and_lit _ _ _ _ (by decide)
  · exact and_and_lit _ _ _ _ (by decide)
  · exact and_and_lit _ _ _ _ (by decide)
  · rw [and_and_lit v 0xFC 3 0 (by decide)]; simp
  · exact and_and_lit _ _ _ _ (by decide)

/-- The three bank bits taken from bits 3, 4 and 7 of a written value stay below 8. -/
theorem bank3_lt (v : Nat) : ((v >>> 3) &&& 3) ||| ((v >>> 5) &&& 4) < 8 := by
  have h1 : (v >>> 3) &&& 3 ≤ 3 := Nat.and_le_right
  have h2 : (v >>> 5) &&& 4 ≤ 4 := Nat.and_le_right
  exact Nat.or_lt_two_pow (n := 3) (by omega) (by omega)

/-- With the extra inverted bit the bank stays below 16. -/
theorem bank4_lt (v : Nat) :
    ((v >>> 3) &&& 3) ||| ((v >>> 5) &&& 4) ||| (((v >>> 2) &&& 8) ^^^ 8) < 16 := by
  have h1 := bank3_lt v
  have h2 : (v >>> 2) &&& 8 ≤ 8 := Nat.and_le_right
  have h3 : ((v >>> 2) &&& 8) ^^^ 8 < 2 ^ 4 := Nat.xor_lt_two_pow (by omega) (by decide)
  exact Nat.or_lt_two_pow (n := 4) (by omega) h3

/-! ## Frame lemmas for the I/O-1 write handler -/

/-- A write reaching an inactive cartridge does nothing. -/
theorem io1_store_inactive (X : Ext) (s : RR) (addr v : Nat) (h : s.rr_active = 0) :
    retroreplay_io1_store X s addr v = s := by
  simp [retroreplay_io1_store, h]

theorem io1_stores_inactive (X : Ext) (ws : List (Nat × Nat)) (s : RR) (h : s.rr_active = 0) :
    io1_stores X s ws = s := by
  induction ws with
  | nil => rfl
  | cons w ws ih =>
    simp only [io1_stores, List.foldl_cons] at ih ⊢
    rw [io1_store_inactive X s w.1 w.2 h]
    exact ih

/-- A flash-mode R1 write keeps the active flag, the jumpers and the lock. -/
theorem r1_flash_frame (X : Ext) (s : RR) (a v : Nat) (hfj : s.rr_hw_flashjumper ≠ 0)
    (ha : a &&& 0xff = 1) :
    (retroreplay_io1_store X s a v).rr_active = s.rr_active ∧
    (retroreplay_io1_store X s a v).rr_hw_flashjumper = s.rr_hw_flashjumper ∧
    (retroreplay_io1_store X s a v).rr_hw_bankjumper = s.rr_hw_bankjumper ∧
    (retroreplay_io1_store X s a v).write_once = s.write_once := by
  by_cases hact : s.rr_active = 0
  · rw [io1_store_inactive X s a v hact]
    exact ⟨rfl, rfl, rfl, rfl⟩
  · simp [retroreplay_io1_store, cartridge_romhbank_set, cartridge_romlbank_set, hact, hfj, ha]
    split_ifs <;> simp

theorem r1_flash_frames (X : Ext) (ws : List (Nat × Nat)) (s : RR)
    (hfj : s.rr_hw_flashjumper ≠ 0) (hws : ∀ w ∈ ws, w.1 &&& 0xff = 1) :
    (io1_stores X s ws).rr_active = s.rr_active ∧
    (io1_stores X s ws).rr_hw_flashjumper = s.rr_hw_flashjumper ∧
    (io1_stores X s ws).rr_hw_bankjumper = s.rr_hw_bankjumper ∧
    (io1_stores X s ws).write_once = s.write_once := by
  induction ws generalizing s with
  | nil => exact ⟨rfl, rfl, rfl, rfl⟩
  | cons w ws ih =>
    have hw : w.1 &&& 0xff = 1 := hws w (List.mem_cons_self _ _)
    obtain ⟨f1, f2, f3, f4⟩ := r1_flash_frame X s w.1 w.2 hfj hw
    have := ih (retroreplay_io1_store X s w.1 w.2) (by rw [f2]; exact hfj)
      (fun u hu => hws u (List.mem_cons_of_mem _ hu))
    simp only [io1_stores, List.foldl_cons] at this ⊢
    rw [f1, f2, f3, f4] at this
    exact this

/-- With the flash jumper unset and the lock engaged, an R1 write does nothing. -/
theorem r1_locked (X : Ext) (s : RR) (a v : Nat) (hfj : s.rr_hw_flashjumper = 0)
    (hlock : s.write_once ≠ 0) (ha : a &&& 0xff = 1) :
    retroreplay_io1_store X s a v = s := by
  by_cases hact : s.rr_active = 0
  · exact io1_store_inactive X s a v hact
  · simp [retroreplay_io1_store, hact, hfj, hlock, ha]

theorem r1_locked_all (X : Ext) (ws : List (Nat × Nat)) (s : RR)
    (hfj : s.rr_hw_flashjumper = 0) (hlock : s.write_once ≠ 0)
    (hws : ∀ w ∈ ws, w.1 &&& 0xff = 1) :
    io1_stores X s ws = s := by
  induction ws with
  | nil => rfl
  | cons w ws ih =>
    simp only [io1_stores, List.foldl_cons] at ih ⊢
    rw [r1_locked X s w.1 w.2 hfj hlock (hws w (List.mem_cons_self _ _))]
    exact ih (fun u hu => hws u (List.mem_cons_of_mem _ hu))

/-- What an I/O-1 write can do to the jumpers (nothing) and to the bank: leave it,
set it to the three decoded bits, or, with both jumpers set, to the four-bit value. -/
theorem io1_store_bank (X : Ext) (s : RR) (addr v : Nat) :
    (retroreplay_io1_store X s addr v).rr_hw_flashjumper = s.rr_hw_flashjumper ∧
    (retroreplay_io1_store X s addr v).rr_hw_bankjumper = s.rr_hw_bankjumper ∧
    ((retroreplay_io1_store X s addr v).rr_bank = s.rr_bank ∨
      (retroreplay_io1_store X s addr v).rr_bank = ((v >>> 3) &&& 3) ||| ((v >>> 5) &&& 4) ∨
      (s.rr_hw_flashjumper ≠ 0 ∧ s.rr_hw_bankjumper ≠ 0 ∧
        (retroreplay_io1_store X s addr v).rr_bank
          = ((v >>> 3) &&& 3) ||| ((v >>> 5) &&& 4) ||| (((v >>> 2) &&& 8) ^^^ 8))) := by
  by_cases hact : s.rr_active = 0
  · rw [io1_store_inactive X s addr v hact]
    exact ⟨rfl, rfl, Or.inl rfl⟩
  by_cases h0 : addr &&& 0xff = 0
  · simp [retroreplay_io1_store, cartridge_config_changed, hact, h0]
    split_ifs <;> simp
  have h0' : ¬ (addr &&& 255 = 0) := h0
  by_cases h1 : addr &&& 0xff = 1
  · by_cases hfj : s.rr_hw_flashjumper = 0
    · by_cases hwo : s.write_once = 0
      · simp [retroreplay_io1_store, cartridge_romhbank_set, cartridge_romlbank_set,
          tfe_clockport_changed, hact, h1, hfj, hwo]
        split_ifs <;> simp
      · simp [retroreplay_io1_store, hact, h1, hfj, hwo]
    · by_cases hbj : s.rr_hw_bankjumper = 0
      · simp [retroreplay_io1_store, cartridge_romhbank_set, cartridge_romlbank_set,
          hact, h1, hfj, hbj]
      · simp [retroreplay_io1_store, cartridge_romhbank_set, cartridge_romlbank_set,
          hact, h1, hfj, hbj]
  · have h1' : ¬ (addr &&& 255 = 1) := h1
    simp only [retroreplay_io1_store, hact, h0', h1', ne_eq, not_false_eq_true, if_true, if_false]
    split_ifs <;> exact ⟨rfl, rfl, Or.inl rfl⟩

/-- No operation changes the jumper settings. -/
theorem step_jumpers (X : Ext) (s : RR) (op : Op) :
    (step X s op).rr_hw_flashjumper = s.rr_hw_flashjumper ∧
    (step X s op).rr_hw_bankjumper = s.rr_hw_bankjumper := by
  cases op with
  | io1_store addr value =>
    exact ⟨(io1_store_bank X s addr value).1, (io1_store_bank X s addr value).2.1⟩
  | freeze =>
    simp only [step, retroreplay_freeze, cartridge_config_changed]
    split_ifs <;> exact ⟨rfl, rfl⟩
  | reset =>
    simp only [step, retroreplay_reset, cartridge_config_changed, flash040core_reset]
    split_ifs <;> exact ⟨rfl, rfl⟩

/-- One operation keeps the bank below 16, and below 8 unless both jumpers are set. -/
theorem step_bank (X : Ext) (s : RR) (op : Op) :
    (s.rr_bank < 16 → (step X s op).rr_bank < 16) ∧
    ((s.rr_hw_flashjumper = 0 ∨ s.rr_hw_bankjumper = 0) → s.rr_bank < 8 →
      (step X s op).rr_bank < 8) := by
  cases op with
  | io1_store addr value =>
    have h3 := bank3_lt value
    have h4 := bank4_lt value
    obtain ⟨_, _, hb⟩ := io1_store_bank X s addr value
    simp only [step]
    constructor
    · intro h
      rcases hb with hb | hb | ⟨_, _, hb⟩ <;> rw [hb] <;> omega
    · intro hj h
      rcases hb with hb | hb | ⟨hf, hbj, _⟩
      · rw [hb]; exact h
      · rw [hb]; exact h3
      · rcases hj with hj | hj
        · exact absurd hj hf
        · exact absurd hj hbj
  | freeze =>
    simp only [step, retroreplay_freeze, cartridge_config_changed]
    split_ifs <;> exact ⟨fun h => h, fun _ h => h⟩
  | reset =>
    simp only [step, retroreplay_reset, cartridge_config_changed, flash040core_reset]
    split_ifs <;> exact ⟨fun h => h, fun _ h => h⟩

theorem run_bank (X : Ext) (ops : List Op) (s : RR) :
    (s.rr_bank < 16 → (run X s ops).rr_bank < 16) ∧
    ((s.rr_hw_flashjumper = 0 ∨ s.rr_hw_bankjumper = 0) → s.rr_bank < 8 →
      (run X s ops).rr_bank < 8) := by
  induction ops generalizing s with
  | nil => exact ⟨fun h => h, fun _ h => h⟩
  | cons op ops ih =>
    obtain ⟨j1, j2⟩ := step_jumpers X s op
    obtain ⟨b1, b2⟩ := step_bank X s op
    obtain ⟨r1, r2⟩ := ih (step X s op)
    simp only [run, List.foldl_cons] at r1 r2 ⊢
    exact ⟨fun h => r1 (b1 h), fun hj h => r2 (by rw [j1, j2]; exact hj) (b2 hj h)⟩

/-! ## Bank/address translation -/

/-- C1: with export RAM off, `retroreplay_roml_read` reads the flash device at
`rom_offset + bank * 0x2000 + offset`, where `bank` is the ROM-low bank selector and
`offset = addr & 0x1fff`, whatever the flash read function is; and for a fixed
`rom_offset` the address determines `(bank, offset)`: if two reads (taken with the
identity as read function, so that the value returned is the address used) use the
same address, they have the same bank and the same offset. -/
theorem C1_roml_read_flash_addr (rd : Nat → Nat) (s : RR) (addr bank offset : Nat)
    (hram : s.mem.export_ram = 0) (hbank : s.mem.roml_bank = bank) (_hb : bank ≤ 7)
    (_ho : offset ≤ 0x1FFF) (haddr : addr &&& 0x1fff = offset)
    (_hrom : s.rom_offset = 0 ∨ s.rom_offset = 0x10000) :
    retroreplay_roml_read rd s addr = rd (s.rom_offset + bank * 0x2000 + offset) ∧
    (∀ (t : RR) (addr2 : Nat), t.mem.export_ram = 0 → t.mem.roml_bank ≤ 7 →
      t.rom_offset = s.rom_offset →
      retroreplay_roml_read id t addr2 = retroreplay_roml_read id s addr →
      t.mem.roml_bank = bank ∧ addr2 &&& 0x1fff = offset) := by
  have key : ∀ (f : Nat → Nat) (u : RR) (a : Nat), u.mem.export_ram = 0 →
      retroreplay_roml_read f u a
        = f (u.rom_offset + u.mem.roml_bank * 0x2000 + (a &&& 0x1fff)) := by
    intro f u a hu
    simp only [retroreplay_roml_read, hu, Nat.shiftLeft_eq]
    simp
    congr 1
    omega
  refine ⟨?_, ?_⟩
  · rw [key rd s addr hram, hbank, haddr]
  · intro t addr2 ht _ hto heq
    rw [key id t addr2 ht, key id s addr hram, hto, hbank, haddr] at heq
    have h2 : addr2 &&& 0x1fff ≤ 0x1fff := Nat.and_le_right
    have h3 : offset ≤ 0x1fff := by rw [← haddr]; exact Nat.and_le_right
    simp only [id] at heq
    omega

/-- C1 at bank 5, offset 0x123 of the upper physical bank. -/
theorem C1_roml_read_flash_addr_witness :
    (retroreplay_io1_store sampleExt attached 0xde01 0x88).mem.export_ram = 0 ∧
    (retroreplay_io1_store sampleExt attached 0xde01 0x88).mem.roml_bank = 5 ∧
    (5 : Nat) ≤ 7 ∧ (0x123 : Nat) ≤ 0x1FFF ∧ 0x8123 &&& 0x1fff = 0x123 ∧
    ((retroreplay_io1_store sampleExt attached 0xde01 0x88).rom_offset = 0 ∨
      (retroreplay_io1_store sampleExt attached 0xde01 0x88).rom_offset = 0x10000) ∧
    retroreplay_roml_read id (retroreplay_io1_store sampleExt attached 0xde01 0x88) 0x8123
      = 0x10000 + 5 * 0x2000 + 0x123 :=
  ⟨by decide, by decide, by decide, by decide, by decide, by decide,
    (C1_roml_read_flash_addr id (retroreplay_io1_store sampleExt attached 0xde01 0x88)
      0x8123 5 0x123 (by decide) (by decide) (by decide) (by decide) (by decide)
      (by decide)).1⟩

/-! ## Register file -/

/-- C2 (as amended): for every register state in which the flags hold the values
the code stores in them (`allow_bank` 0 or 2, `reu_mapping` 0 or 0x40, flash jumper
0 or 1), a read of control-window offset 0 or 1 returns, when the cartridge is
active, a byte with bit 0 = flash jumper, bit 1 = `allow_bank`, bit 2 = 0,
bits 3-4 = bits 0-1 of the ROM-low bank selector, bit 5 = bank bit 3,
bit 6 = `reu_mapping` and bit 7 = bank bit 2, marks the read valid and changes
nothing else; when the cartridge is inactive it returns 0 with the read marked
invalid. -/
theorem C2_io1_read_register (X : Ext) (rd : Nat → Nat) (s : RR) (addr : Nat)
    (haddr : addr &&& 0xff = 0 ∨ addr &&& 0xff = 1)
    (hab : s.allow_bank = 0 ∨ s.allow_bank = 2)
    (hreu : s.reu_mapping = 0 ∨ s.reu_mapping = 0x40)
    (hfj : s.rr_hw_flashjumper ≤ 1) :
    (s.rr_active ≠ 0 →
      (retroreplay_io1_read X rd s addr).2 = { s with io1_source_valid := 1 } ∧
      (retroreplay_io1_read X rd s addr).1 < 256 ∧
      (retroreplay_io1_read X rd s addr).1.testBit 0 = decide (s.rr_hw_flashjumper ≠ 0) ∧
      (retroreplay_io1_read X rd s addr).1.testBit 1 = decide (s.allow_bank ≠ 0) ∧
      (retroreplay_io1_read X rd s addr).1.testBit 2 = false ∧
      (retroreplay_io1_read X rd s addr).1.testBit 3 = s.mem.roml_bank.testBit 0 ∧
      (retroreplay_io1_read X rd s addr).1.testBit 4 = s.mem.roml_bank.testBit 1 ∧
      (retroreplay_io1_read X rd s addr).1.testBit 5 = s.mem.roml_bank.testBit 3 ∧
      (retroreplay_io1_read X rd s addr).1.testBit 6 = decide (s.reu_mapping ≠ 0) ∧
      (retroreplay_io1_read X rd s addr).1.testBit 7 = s.mem.roml_bank.testBit 2) ∧
    (s.rr_active = 0 →
      retroreplay_io1_read X rd s addr = (0, { s with io1_source_valid := 0 })) := by
  constructor
  · intro hact
    have hval : (retroreplay_io1_read X rd s addr).1 =
        (((s.mem.roml_bank &&& 3) <<< 3) ||| ((s.mem.roml_bank &&& 4) <<< 5)
          ||| ((s.mem.roml_bank &&& 8) <<< 2) ||| s.allow_bank ||| s.reu_mapping
          ||| s.rr_hw_flashjumper) % 256 := by
      simp [retroreplay_io1_read, hact, haddr]
    refine ⟨?_, ?_, register_byte_bits _ _ _ _ hab hreu hfj _ hval⟩
    · simp [retroreplay_io1_read, hact, haddr]
    · rw [hval]
      exact Nat.mod_lt _ (by decide)
  · intro hact
    simp [retroreplay_io1_read, hact]

/-- C2 at the state reached by attaching and writing 0xCA to R1 (bank 5,
`allow_bank` and `reu_mapping` set): bit 7 of the byte read is bank bit 2. -/
theorem C2_io1_read_register_witness :
    (0xde00 &&& 0xff = 0 ∨ 0xde00 &&& 0xff = 1) ∧
    ((retroreplay_io1_store sampleExt attached 0xde01 0xCA).allow_bank = 0 ∨
      (retroreplay_io1_store sampleExt attached 0xde01 0xCA).allow_bank = 2) ∧
    ((retroreplay_io1_store sampleExt attached 0xde01 0xCA).reu_mapping = 0 ∨
      (retroreplay_io1_store sampleExt attached 0xde01 0xCA).reu_mapping = 0x40) ∧
    (retroreplay_io1_store sampleExt attached 0xde01 0xCA).rr_hw_flashjumper ≤ 1 ∧
    (retroreplay_io1_store sampleExt attached 0xde01 0xCA).rr_active ≠ 0 ∧
    (retroreplay_io1_read sampleExt id
        (retroreplay_io1_store sampleExt attached 0xde01 0xCA) 0xde00).1.testBit 7
      = (retroreplay_io1_store sampleExt attached 0xde01 0xCA).mem.roml_bank.testBit 2 :=
  ⟨by decide, by decide, by decide, by decide, by decide,
    ((C2_io1_read_register sampleExt id (retroreplay_io1_store sampleExt attached 0xde01 0xCA)
      0xde00 (by decide) (by decide) (by decide) (by decide)).1 (by decide)).2.2.2.2.2.2.2.2.2⟩

/-- C2 as stated fails: after attach and an R1 write of 0x80 both the bank and the
ROM-low bank selector are 4 (bank bit 2 set, bit 3 clear), and the byte read at
offset 0 is 0x80, so bit 5 is clear although bank bit 2 is set, and bit 7 is set
although bank bit 3 is clear. -/
theorem C2_counterexample :
    (retroreplay_io1_store sampleExt attached 0xde01 0x80).rr_active = 1 ∧
    (retroreplay_io1_store sampleExt attached 0xde01 0x80).rr_bank = 4 ∧
    (retroreplay_io1_store sampleExt attached 0xde01 0x80).mem.roml_bank = 4 ∧
    (retroreplay_io1_read sampleExt id
      (retroreplay_io1_store sampleExt attached 0xde01 0x80) 0xde00).1 = 0x80 ∧
    (retroreplay_io1_read sampleExt id
      (retroreplay_io1_store sampleExt attached 0xde01 0x80) 0xde00).1.testBit 5 = false ∧
    Nat.testBit 4 2 = true ∧
    (retroreplay_io1_read sampleExt id
      (retroreplay_io1_store sampleExt attached 0xde01 0x80) 0xde00).1.testBit 7 = true ∧
    Nat.testBit 4 3 = false := by
  decide

/-- C3: for every value `v` written to R0 while the cartridge is active and the
flash jumper is unset, `retroreplay_io1_store` sets the bank to
`((v>>3)&3) | ((v>>5)&4)` and appends exactly one map-change notification, with
first argument 0, second argument `(v & 3) | (bank << CMODE_BANK_SHIFT)` and mode
`CMODE_WRITE`, or-ed with `CMODE_RELEASE_FREEZE` iff bit 6 of `v` is set and with
`CMODE_EXPORT_RAM` iff bit 5 of `v` is set. -/
theorem C3_io1_store_r0 (X : Ext) (s : RR) (addr v : Nat) (hact : s.rr_active ≠ 0)
    (hfj : s.rr_hw_flashjumper = 0) (haddr : addr &&& 0xff = 0) :
    (retroreplay_io1_store X s addr v).rr_bank = ((v >>> 3) &&& 3) ||| ((v >>> 5) &&& 4) ∧
    (retroreplay_io1_store X s addr v).events = s.events ++
      [Event.config_changed 0
        ((v &&& 3) ||| ((retroreplay_io1_store X s addr v).rr_bank <<< X.CMODE_BANK_SHIFT))
        (X.CMODE_WRITE ||| (if v &&& 0x40 ≠ 0 then X.CMODE_RELEASE_FREEZE else 0)
          ||| (if v &&& 0x20 ≠ 0 then X.CMODE_EXPORT_RAM else 0))] := by
  simp [retroreplay_io1_store, cartridge_config_changed, hact, hfj, haddr]
  split_ifs <;> simp

/-- C3 at `v = 0xEB` after attach: bank 5, GAME/EXROM bits 3, release-freeze and
export-RAM both requested. -/
theorem C3_io1_store_r0_witness :
    attached.rr_active ≠ 0 ∧ attached.rr_hw_flashjumper = 0 ∧ 0xde00 &&& 0xff = 0 ∧
    (retroreplay_io1_store sampleExt attached 0xde00 0xEB).rr_bank
      = ((0xEB >>> 3) &&& 3) ||| ((0xEB >>> 5) &&& 4) :=
  ⟨by decide, by decide, by decide,
    (C3_io1_store_r0 sampleExt attached 0xde00 0xEB (by decide) (by decide) (by decide)).1⟩

/-- C4 (as amended): with the flash jumper set and the cartridge active, writing to
R0 a value `v` whose low two bits are 01 or 11 gives the same state and the same
notification as writing `v` with its low three bits cleared (`v & 0xF8`): the whole
value is coerced to 0 after the bank and the mode have been taken from it. Compared
with writing `v & 0xFC` everything agrees except the active flag, which the write of
`v` leaves as it was; so the two writes agree entirely when bit 2 of `v` is clear. -/
theorem C4_r0_flash_masking (X : Ext) (s : RR) (addr v : Nat) (hact : s.rr_active ≠ 0)
    (hfj : s.rr_hw_flashjumper ≠ 0) (haddr : addr &&& 0xff = 0)
    (hlow : v &&& 3 = 1 ∨ v &&& 3 = 3) :
    retroreplay_io1_store X s addr v = retroreplay_io1_store X s addr (v &&& 0xF8) ∧
    retroreplay_io1_store X s addr v =
      { retroreplay_io1_store X s addr (v &&& 0xFC) with rr_active := s.rr_active } ∧
    (v &&& 4 = 0 →
      retroreplay_io1_store X s addr v = retroreplay_io1_store X s addr (v &&& 0xFC)) := by
  obtain ⟨a1, a2, a3, a4, a5, a6⟩ := mask_f8 v
  obtain ⟨b1, b2, b3, b4, b5, b6⟩ := mask_fc v
  refine ⟨?_, ?_, ?_⟩
  · rcases hlow with h | h <;>
      simp [retroreplay_io1_store, cartridge_config_changed, hact, hfj, haddr, h,
        a1, a2, a3, a4, a5, a6]
  · rcases hlow with h | h <;>
      simp [retroreplay_io1_store, cartridge_config_changed, hact, hfj, haddr, h,
        b1, b2, b3, b4, b5, b6] <;> split_ifs <;> simp
  · intro h4
    rcases hlow with h | h <;>
      simp [retroreplay_io1_store, cartridge_config_changed, hact, hfj, haddr, h,
        b1, b2, b3, b4, b5, b6, h4]

/-- C4 at `v = 0x4D` (low bits 01, bit 2 set) in flash mode. -/
theorem C4_r0_flash_masking_witness :
    attached_flash.rr_active ≠ 0 ∧ attached_flash.rr_hw_flashjumper ≠ 0 ∧
    0xde00 &&& 0xff = 0 ∧ (0x4D &&& 3 = 1 ∨ 0x4D &&& 3 = 3) ∧
    retroreplay_io1_store sampleExt attached_flash 0xde00 0x4D
      = retroreplay_io1_store sampleExt attached_flash 0xde00 (0x4D &&& 0xF8) :=
  ⟨by decide, by decide, by decide, by decide,
    (C4_r0_flash_masking sampleExt attached_flash 0xde00 0x4D (by decide) (by decide)
      (by decide) (by decide)).1⟩

/-- C4 as stated fails: in flash mode writing 7 to R0 leaves the cartridge active,
while writing `7 & 0xFC = 4` deactivates it. -/
theorem C4_counterexample :
    attached_flash.rr_active = 1 ∧ attached_flash.rr_hw_flashjumper = 1 ∧
    7 &&& 3 = 3 ∧ 7 &&& 0xFC = 4 ∧
    (retroreplay_io1_store sampleExt attached_flash 0xde00 7).rr_active = 1 ∧
    (retroreplay_io1_store sampleExt attached_flash 0xde00 (7 &&& 0xFC)).rr_active = 0 := by
  decide

/-- C5 (as amended): an R0 write with bit 2 set while the cartridge is active makes
the cartridge inactive, unless the flash jumper is set and the low two bits of the
value are 01 or 11 (the value is then coerced to 0 before bit 2 is tested). Once
inactive, every sequence of writes to the I/O-1 window (R0 and R1 included) leaves
the whole state unchanged and emits no notification; `retroreplay_reset` and
`retroreplay_config_init` make the cartridge active again, and so does
`retroreplay_freeze` when the flash jumper is unset. -/
theorem C5_r0_disable (X : Ext) (s : RR) (addr v : Nat) (hact : s.rr_active ≠ 0)
    (haddr : addr &&& 0xff = 0) (hbit2 : v &&& 4 ≠ 0)
    (hquirk : s.rr_hw_flashjumper = 0 ∨ (v &&& 3 ≠ 1 ∧ v &&& 3 ≠ 3)) :
    (retroreplay_io1_store X s addr v).rr_active = 0 ∧
    (∀ ws : List (Nat × Nat),
      io1_stores X (retroreplay_io1_store X s addr v) ws = retroreplay_io1_store X s addr v) ∧
    (retroreplay_reset X (retroreplay_io1_store X s addr v)).rr_active = 1 ∧
    (retroreplay_config_init X (retroreplay_io1_store X s addr v)).rr_active = 1 ∧
    (s.rr_hw_flashjumper = 0 →
      (retroreplay_freeze X (retroreplay_io1_store X s addr v)).rr_active = 1) := by
  have h0 : (retroreplay_io1_store X s addr v).rr_active = 0 := by
    rcases hquirk with h | ⟨h1, h3⟩
    · simp [retroreplay_io1_store, cartridge_config_changed, hact, haddr, h, hbit2]
    · by_cases hj : s.rr_hw_flashjumper = 0
      · simp [retroreplay_io1_store, cartridge_config_changed, hact, haddr, hj, hbit2]
      · simp [retroreplay_io1_store, cartridge_config_changed, hact, haddr, hj, hbit2, h1, h3]
  have hj : (retroreplay_io1_store X s addr v).rr_hw_flashjumper = s.rr_hw_flashjumper :=
    (io1_store_bank X s addr v).1
  refine ⟨h0, fun ws => io1_stores_inactive X ws _ h0, ?_, ?_, ?_⟩
  · generalize retroreplay_io1_store X s addr v = t
    simp only [retroreplay_reset, cartridge_config_changed, flash040core_reset]
    split_ifs <;> rfl
  · generalize retroreplay_io1_store X s addr v = t
    simp only [retroreplay_config_init, cartridge_config_changed, flash040core_reset]
    split_ifs <;> rfl
  · intro hfj
    rw [← hj] at hfj
    generalize retroreplay_io1_store X s addr v = t at hfj
    simp [retroreplay_freeze, cartridge_config_changed, hfj]

/-- C5 at `v = 4` after attach with the flash jumper unset. -/
theorem C5_r0_disable_witness :
    attached.rr_active ≠ 0 ∧ 0xde00 &&& 0xff = 0 ∧ 4 &&& 4 ≠ 0 ∧
    (attached.rr_hw_flashjumper = 0 ∨ (4 &&& 3 ≠ 1 ∧ 4 &&& 3 ≠ 3)) ∧
    (retroreplay_io1_store sampleExt attached 0xde00 4).rr_active = 0 :=
  ⟨by decide, by decide, by decide, by decide,
    (C5_r0_disable sampleExt attached 0xde00 4 (by decide) (by decide) (by decide)
      (by decide)).1⟩

/-- C5 as stated fails with the flash jumper set: writing 5 (bit 2 set, low bits
01) to R0 leaves the cartridge active, and a following R1 write of 0x08 still takes
effect (the bank goes from 0 to 1). -/
theorem C5_counterexample :
    attached_flash.rr_active = 1 ∧ 5 &&& 4 ≠ 0 ∧
    (retroreplay_io1_store sampleExt attached_flash 0xde00 5).rr_active = 1 ∧
    (retroreplay_io1_store sampleExt attached_flash 0xde00 5).rr_bank = 0 ∧
    (retroreplay_io1_store sampleExt
      (retroreplay_io1_store sampleExt attached_flash 0xde00 5) 0xde01 0x08).rr_bank = 1 := by
  decide

/-- C6: with the flash jumper unset, after `retroreplay_config_init` and two
successive writes `v1`, `v2` to R1, the second write changes nothing, and the bank,
`allow_bank`, `no_freeze` and `reu_mapping` are the values computed from `v1`. -/
theorem C6_r1_write_once (X : Ext) (s0 : RR) (a1 a2 v1 v2 : Nat)
    (hfj : s0.rr_hw_flashjumper = 0) (ha1 : a1 &&& 0xff = 1) (ha2 : a2 &&& 0xff = 1) :
    retroreplay_io1_store X (retroreplay_io1_store X (retroreplay_config_init X s0) a1 v1) a2 v2
      = retroreplay_io1_store X (retroreplay_config_init X s0) a1 v1 ∧
    (retroreplay_io1_store X (retroreplay_io1_store X (retroreplay_config_init X s0) a1 v1)
      a2 v2).rr_bank = ((v1 >>> 3) &&& 3) ||| ((v1 >>> 5) &&& 4) ∧
    (retroreplay_io1_store X (retroreplay_io1_store X (retroreplay_config_init X s0) a1 v1)
      a2 v2).allow_bank = v1 &&& 2 ∧
    (retroreplay_io1_store X (retroreplay_io1_store X (retroreplay_config_init X s0) a1 v1)
      a2 v2).no_freeze = v1 &&& 4 ∧
    (retroreplay_io1_store X (retroreplay_io1_store X (retroreplay_config_init X s0) a1 v1)
      a2 v2).reu_mapping = v1 &&& 0x40 := by
  have hinit : (retroreplay_config_init X s0).rr_active = 1 ∧
      (retroreplay_config_init X s0).rr_hw_flashjumper = 0 ∧
      (retroreplay_config_init X s0).write_once = 0 := by
    simp [retroreplay_config_init, cartridge_config_changed, flash040core_reset, hfj]
  obtain ⟨i1, i2, i3⟩ := hinit
  generalize retroreplay_config_init X s0 = s at i1 i2 i3 ⊢
  have hfirst : (retroreplay_io1_store X s a1 v1).rr_active = 1 ∧
      (retroreplay_io1_store X s a1 v1).rr_hw_flashjumper = 0 ∧
      (retroreplay_io1_store X s a1 v1).write_once = 1 ∧
      (retroreplay_io1_store X s a1 v1).rr_bank = ((v1 >>> 3) &&& 3) ||| ((v1 >>> 5) &&& 4) ∧
      (retroreplay_io1_store X s a1 v1).allow_bank = v1 &&& 2 ∧
      (retroreplay_io1_store X s a1 v1).no_freeze = v1 &&& 4 ∧
      (retroreplay_io1_store X s a1 v1).reu_mapping = v1 &&& 0x40 := by
    simp [retroreplay_io1_store, cartridge_romhbank_set, cartridge_romlbank_set,
      tfe_clockport_changed, i1, i2, i3, ha1]
    split_ifs <;> simp [i1, i2]
  obtain ⟨f1, f2, f3, f4, f5, f6, f7⟩ := hfirst
  have hsecond : retroreplay_io1_store X (retroreplay_io1_store X s a1 v1) a2 v2
      = retroreplay_io1_store X s a1 v1 := by
    generalize retroreplay_io1_store X s a1 v1 = t at f1 f2 f3
    simp [retroreplay_io1_store, f1, f2, f3, ha2]
  rw [hsecond]
  exact ⟨rfl, f4, f5, f6, f7⟩

/-- C6 at `v1 = 0xCA`, `v2 = 0x14` from program start: the bank stays 5. -/
theorem C6_r1_write_once_witness :
    power_on.rr_hw_flashjumper = 0 ∧ 0xde01 &&& 0xff = 1 ∧
    (retroreplay_io1_store sampleExt
      (retroreplay_io1_store sampleExt (retroreplay_config_init sampleExt power_on) 0xde01 0xCA)
      0xde01 0x14).rr_bank = ((0xCA >>> 3) &&& 3) ||| ((0xCA >>> 5) &&& 4) :=
  ⟨by decide, by decide,
    (C6_r1_write_once sampleExt power_on 0xde01 0xde01 0xCA 0x14 (by decide) (by decide)
      (by decide)).2.1⟩

/-- C7: with the flash jumper set and the bank jumper unset, an R1 write of `v`
to an active cartridge takes effect after any number of earlier R1 writes `ws`:
the bank `((v>>3)&3) | ((v>>5)&4)` is stored and applied to the ROM-low and the
ROM-high bank selector, `allow_bank = v & 2`, `no_freeze = v & 4`,
`reu_mapping = 0`, and the write-once flag is what it was before all the writes. -/
theorem C7_r1_flash_mode (X : Ext) (s : RR) (ws : List (Nat × Nat)) (a v : Nat)
    (hact : s.rr_active ≠ 0) (hfj : s.rr_hw_flashjumper ≠ 0) (hbj : s.rr_hw_bankjumper = 0)
    (hws : ∀ w ∈ ws, w.1 &&& 0xff = 1) (ha : a &&& 0xff = 1) :
    (retroreplay_io1_store X (io1_stores X s ws) a v).rr_bank
      = ((v >>> 3) &&& 3) ||| ((v >>> 5) &&& 4) ∧
    (retroreplay_io1_store X (io1_stores X s ws) a v).mem.roml_bank
      = ((v >>> 3) &&& 3) ||| ((v >>> 5) &&& 4) ∧
    (retroreplay_io1_store X (io1_stores X s ws) a v).mem.romh_bank
      = ((v >>> 3) &&& 3) ||| ((v >>> 5) &&& 4) ∧
    (retroreplay_io1_store X (io1_stores X s ws) a v).allow_bank = v &&& 2 ∧
    (retroreplay_io1_store X (io1_stores X s ws) a v).no_freeze = v &&& 4 ∧
    (retroreplay_io1_store X (io1_stores X s ws) a v).reu_mapping = 0 ∧
    (retroreplay_io1_store X (io1_stores X s ws) a v).write_once = s.write_once := by
  obtain ⟨f1, f2, f3, f4⟩ := r1_flash_frames X ws s hfj hws
  rw [← f4]
  generalize io1_stores X s ws = t at f1 f2 f3 ⊢
  have hact' : t.rr_active ≠ 0 := by rw [f1]; exact hact
  have hfj' : t.rr_hw_flashjumper ≠ 0 := by rw [f2]; exact hfj
  have hbj' : t.rr_hw_bankjumper = 0 := by rw [f3]; exact hbj
  simp [retroreplay_io1_store, cartridge_romhbank_set, cartridge_romlbank_set, hact', hfj',
    hbj', ha]

/-- C7 at `v = 0x9E` after two earlier R1 writes in flash mode. -/
theorem C7_r1_flash_mode_witness :
    attached_flash.rr_active ≠ 0 ∧ attached_flash.rr_hw_flashjumper ≠ 0 ∧
    attached_flash.rr_hw_bankjumper = 0 ∧
    (∀ w ∈ [((0xde01 : Nat), (0x08 : Nat)), (0xde01, 0xFF)], w.1 &&& 0xff = 1) ∧
    0xde01 &&& 0xff = 1 ∧
    (retroreplay_io1_store sampleExt
      (io1_stores sampleExt attached_flash [(0xde01, 0x08), (0xde01, 0xFF)]) 0xde01 0x9E).rr_bank
      = ((0x9E >>> 3) &&& 3) ||| ((0x9E >>> 5) &&& 4) :=
  ⟨by decide, by decide, by decide, by decide, by decide,
    (C7_r1_flash_mode sampleExt attached_flash [(0xde01, 0x08), (0xde01, 0xFF)] 0xde01 0x9E
      (by decide) (by decide) (by decide) (by decide) (by decide)).1⟩

/-- C8 (as amended): with the flash jumper set, an R1 write of `v` to an active
cartridge gives a bank whose bits 0-2 are `((v>>3)&3) | ((v>>5)&4)`; with the bank
jumper set, bit 3 of the bank is the inverse of bit 5 of `v`; with the bank jumper
unset, bit 3 of the bank is 0. -/
theorem C8_r1_bank_jumper_bit (X : Ext) (s : RR) (a v : Nat) (hact : s.rr_active ≠ 0)
    (hfj : s.rr_hw_flashjumper ≠ 0) (ha : a &&& 0xff = 1) :
    (s.rr_hw_bankjumper ≠ 0 →
      (retroreplay_io1_store X s a v).rr_bank.testBit 3 = !(v.testBit 5) ∧
      (retroreplay_io1_store X s a v).rr_bank &&& 7 = ((v >>> 3) &&& 3) ||| ((v >>> 5) &&& 4)) ∧
    (s.rr_hw_bankjumper = 0 →
      (retroreplay_io1_store X s a v).rr_bank.testBit 3 = false ∧
      (retroreplay_io1_store X s a v).rr_bank = ((v >>> 3) &&& 3) ||| ((v >>> 5) &&& 4)) := by
  have hlt := bank3_lt v
  have hbit : (v >>> 2) &&& 8 = (v.testBit 5).toNat * 8 := by
    have := Nat.and_two_pow (v >>> 2) 3
    simpa [Nat.testBit_shiftRight] using this
  constructor
  · intro hbj
    have hb : (retroreplay_io1_store X s a v).rr_bank
        = ((v >>> 3) &&& 3) ||| ((v >>> 5) &&& 4) ||| (((v >>> 2) &&& 8) ^^^ 8) := by
      simp [retroreplay_io1_store, cartridge_romhbank_set, cartridge_romlbank_set, hact, hfj,
        hbj, ha]
    rw [hb, hbit]
    generalize ((v >>> 3) &&& 3) ||| ((v >>> 5) &&& 4) = c at hlt
    cases v.testBit 5 <;> interval_cases c <;> decide
  · intro hbj
    have hb : (retroreplay_io1_store X s a v).rr_bank
        = ((v >>> 3) &&& 3) ||| ((v >>> 5) &&& 4) := by
      simp [retroreplay_io1_store, cartridge_romhbank_set, cartridge_romlbank_set, hact, hfj,
        hbj, ha]
    rw [hb]
    exact ⟨Nat.testBit_lt_two_pow (i := 3) hlt, rfl⟩

/-- C8 at `v = 0x24` (bits 2 and 5 set) with both jumpers set: bit 3 of the bank
is clear, the inverse of bit 5. -/
theorem C8_r1_bank_jumper_bit_witness :
    attached_flash_bank.rr_active ≠ 0 ∧ attached_flash_bank.rr_hw_flashjumper ≠ 0 ∧
    0xde01 &&& 0xff = 1 ∧ attached_flash_bank.rr_hw_bankjumper ≠ 0 ∧
    (retroreplay_io1_store sampleExt attached_flash_bank 0xde01 0x24).rr_bank.testBit 3
      = !(Nat.testBit 0x24 5) :=
  ⟨by decide, by decide, by decide, by decide,
    ((C8_r1_bank_jumper_bit sampleExt attached_flash_bank 0xde01 0x24 (by decide) (by decide)
      (by decide)).1 (by decide)).1⟩

/-- C8 as stated fails: with both jumpers set, writing 4 (bit 2 set, bit 5 clear)
to R1 gives bank 8, whose bit 3 is set although the inverse of bit 2 of the value
is 0. -/
theorem C8_counterexample :
    attached_flash_bank.rr_active = 1 ∧ attached_flash_bank.rr_hw_flashjumper = 1 ∧
    attached_flash_bank.rr_hw_bankjumper = 1 ∧
    (retroreplay_io1_store sampleExt attached_flash_bank 0xde01 4).rr_bank = 8 ∧
    (retroreplay_io1_store sampleExt attached_flash_bank 0xde01 4).rr_bank.testBit 3 = true ∧
    (!(Nat.testBit 4 2)) = false := by
  decide

/-- C9 (as amended): with the flash jumper unset and the write-once lock engaged,
every sequence of R1 writes leaves the state unchanged; after
`retroreplay_config_init` the next R1 write takes effect again (bank, `allow_bank`,
`no_freeze`, `reu_mapping` and the clockport flag are taken from the value and the
lock engages anew); `retroreplay_reset` leaves the lock engaged, so an R1 write
following a reset is still ignored. -/
theorem C9_lock_cleared_by_attach_only (X : Ext) (s : RR) (ws : List (Nat × Nat)) (a v : Nat)
    (hfj : s.rr_hw_flashjumper = 0) (hlock : s.write_once ≠ 0)
    (hws : ∀ w ∈ ws, w.1 &&& 0xff = 1) (ha : a &&& 0xff = 1) :
    io1_stores X s ws = s ∧
    ((retroreplay_io1_store X (retroreplay_config_init X s) a v).rr_bank
        = ((v >>> 3) &&& 3) ||| ((v >>> 5) &&& 4) ∧
      (retroreplay_io1_store X (retroreplay_config_init X s) a v).allow_bank = v &&& 2 ∧
      (retroreplay_io1_store X (retroreplay_config_init X s) a v).no_freeze = v &&& 4 ∧
      (retroreplay_io1_store X (retroreplay_config_init X s) a v).reu_mapping = v &&& 0x40 ∧
      (retroreplay_io1_store X (retroreplay_config_init X s) a v).rr_clockport_enabled = v &&& 1 ∧
      (retroreplay_io1_store X (retroreplay_config_init X s) a v).write_once = 1) ∧
    (retroreplay_reset X s).write_once = s.write_once ∧
    retroreplay_io1_store X (retroreplay_reset X s) a v = retroreplay_reset X s := by
  refine ⟨r1_locked_all X ws s hfj hlock hws, ?_, ?_, ?_⟩
  · have hinit : (retroreplay_config_init X s).rr_active = 1 ∧
        (retroreplay_config_init X s).rr_hw_flashjumper = 0 ∧
        (retroreplay_config_init X s).write_once = 0 ∧
        (retroreplay_config_init X s).rr_clockport_enabled = 0 := by
      simp [retroreplay_config_init, cartridge_config_changed, flash040core_reset, hfj]
    obtain ⟨i1, i2, i3, i4⟩ := hinit
    generalize retroreplay_config_init X s = t at i1 i2 i3 i4 ⊢
    simp [retroreplay_io1_store, cartridge_romhbank_set, cartridge_romlbank_set,
      tfe_clockport_changed, i1, i2, i3, i4, ha]
    split_ifs <;> simp_all
  · simp [retroreplay_reset, cartridge_config_changed, flash040core_reset, hfj]
  · apply r1_locked X _ a v _ _ ha
    · simp [retroreplay_reset, cartridge_config_changed, flash040core_reset, hfj]
    · simpa [retroreplay_reset, cartridge_config_changed, flash040core_reset, hfj] using hlock

/-- C9 at the state locked by an R1 write of 0x80 after attach: after a new
`retroreplay_config_init` an R1 write of 0x08 sets the bank to 1. -/
theorem C9_lock_cleared_by_attach_only_witness :
    (retroreplay_io1_store sampleExt attached 0xde01 0x80).rr_hw_flashjumper = 0 ∧
    (retroreplay_io1_store sampleExt attached 0xde01 0x80).write_once ≠ 0 ∧
    (∀ w ∈ [((0xde01 : Nat), (0x08 : Nat))], w.1 &&& 0xff = 1) ∧ 0xde01 &&& 0xff = 1 ∧
    (retroreplay_io1_store sampleExt
      (retroreplay_config_init sampleExt (retroreplay_io1_store sampleExt attached 0xde01 0x80))
      0xde01 0x08).rr_bank = ((0x08 >>> 3) &&& 3) ||| ((0x08 >>> 5) &&& 4) :=
  ⟨by decide, by decide, by decide, by decide,
    (C9_lock_cleared_by_attach_only sampleExt
      (retroreplay_io1_store sampleExt attached 0xde01 0x80) [(0xde01, 0x08)] 0xde01 0x08
      (by decide) (by decide) (by decide) (by decide)).2.1.1⟩

/-- C9 as stated fails for `retroreplay_reset`: after attach, an R1 write of 0x80
(bank 4, lock engaged) and a reset, the lock is still engaged and an R1 write of
0x08, which would select bank 1, leaves the bank at 4. -/
theorem C9_counterexample :
    attached.rr_hw_flashjumper = 0 ∧
    (retroreplay_io1_store sampleExt attached 0xde01 0x80).rr_bank = 4 ∧
    (retroreplay_reset sampleExt
      (retroreplay_io1_store sampleExt attached 0xde01 0x80)).write_once = 1 ∧
    ((0x08 >>> 3) &&& 3) ||| ((0x08 >>> 5) &&& 4) = 1 ∧
    (retroreplay_io1_store sampleExt
      (retroreplay_reset sampleExt (retroreplay_io1_store sampleExt attached 0xde01 0x80))
      0xde01 0x08).rr_bank = 4 := by
  decide

/-- C10 (as amended): with the bank in 0..7 before attach (it is 0 at program
start), in every state reached from `retroreplay_config_init` by any sequence of
I/O-1 writes, freezes and resets the bank `rr_bank` lies in 0..15, and it lies in
0..7 whenever the flash jumper or the bank jumper is unset. -/
theorem C10_bank_range (X : Ext) (s0 : RR) (ops : List Op) (h0 : s0.rr_bank ≤ 7) :
    (run X (retroreplay_config_init X s0) ops).rr_bank ≤ 15 ∧
    ((s0.rr_hw_flashjumper = 0 ∨ s0.rr_hw_bankjumper = 0) →
      (run X (retroreplay_config_init X s0) ops).rr_bank ≤ 7) := by
  have hi : (retroreplay_config_init X s0).rr_bank = s0.rr_bank ∧
      (retroreplay_config_init X s0).rr_hw_flashjumper = s0.rr_hw_flashjumper ∧
      (retroreplay_config_init X s0).rr_hw_bankjumper = s0.rr_hw_bankjumper := by
    simp only [retroreplay_config_init, cartridge_config_changed, flash040core_reset]
    split_ifs <;> exact ⟨rfl, rfl, rfl⟩
  obtain ⟨i1, i2, i3⟩ := hi
  obtain ⟨r1, r2⟩ := run_bank X ops (retroreplay_config_init X s0)
  rw [i1, i2, i3] at r2
  rw [i1] at r1
  exact ⟨Nat.lt_succ_iff.mp (r1 (by omega)), fun hj => Nat.lt_succ_iff.mp (r2 hj (by omega))⟩

/-- C10 from program start with both jumpers set, over an R0 write, an R1 write, a
freeze and a reset. -/
theorem C10_bank_range_witness :
    (set_rr_bankjumper 1 (set_rr_flashjumper 1 power_on)).rr_bank ≤ 7 ∧
    (run sampleExt
      (retroreplay_config_init sampleExt (set_rr_bankjumper 1 (set_rr_flashjumper 1 power_on)))
      [Op.io1_store 0xde00 0x98, Op.io1_store 0xde01 0x00, Op.freeze, Op.reset]).rr_bank ≤ 15 :=
  ⟨by decide,
    (C10_bank_range sampleExt (set_rr_bankjumper 1 (set_rr_flashjumper 1 power_on))
      [Op.io1_store 0xde00 0x98, Op.io1_store 0xde01 0x00, Op.freeze, Op.reset]
      (by decide)).1⟩

/-- C10 as stated fails with both jumpers set: from program start, attach and one
R1 write of 0 give bank 8. -/
theorem C10_counterexample :
    (set_rr_bankjumper 1 (set_rr_flashjumper 1 power_on)).rr_bank = 0 ∧
    (run sampleExt
      (retroreplay_config_init sampleExt (set_rr_bankjumper 1 (set_rr_flashjumper 1 power_on)))
      [Op.io1_store 0xde01 0]).rr_bank = 8 ∧
    ¬ ((run sampleExt
      (retroreplay_config_init sampleExt (set_rr_bankjumper 1 (set_rr_flashjumper 1 power_on)))
      [Op.io1_store 0xde01 0]).rr_bank ≤ 7) := by
  decide

/-! ## Freeze, attach and reset -/

/-- C11: `retroreplay_freeze` returns the state unchanged, event log included, when
the flash jumper is set; when the flash jumper is unset it sets `rr_active` to 1 and
appends exactly one map-change notification, `(3, 3, CMODE_READ | CMODE_EXPORT_RAM)`,
to which the external memory map reacts; every other field of the module state is
left as it was. -/
theorem C11_freeze (X : Ext) (s : RR) :
    (s.rr_hw_flashjumper ≠ 0 → retroreplay_freeze X s = s) ∧
    (s.rr_hw_flashjumper = 0 →
      retroreplay_freeze X s =
        { s with
          rr_active := 1
          mem := X.config_map 3 3 (X.CMODE_READ ||| X.CMODE_EXPORT_RAM) s.mem
          events := s.events ++
            [Event.config_changed 3 3 (X.CMODE_READ ||| X.CMODE_EXPORT_RAM)] }) := by
  constructor
  · intro h
    simp [retroreplay_freeze, h]
  · intro h
    simp [retroreplay_freeze, cartridge_config_changed, h]

/-- C11 after attach without the flash jumper (one notification more) and with it
(nothing changes). -/
theorem C11_freeze_witness :
    retroreplay_freeze sampleExt attached_flash = attached_flash ∧
    (retroreplay_freeze sampleExt attached).rr_active = 1 ∧
    (retroreplay_freeze sampleExt attached).events
      = attached.events ++ [Event.config_changed 3 3 8] :=
  ⟨(C11_freeze sampleExt attached_flash).1 (by decide), by decide, by decide⟩

/-! ### Tracking the R1 write that took effect -/

/-- An I/O-2 write leaves `no_freeze`, the lock and the flash jumper alone. -/
theorem io2_store_frame (s : RR) (addr v : Nat) :
    (retroreplay_io2_store s addr v).no_freeze = s.no_freeze ∧
    (retroreplay_io2_store s addr v).write_once = s.write_once ∧
    (retroreplay_io2_store s addr v).rr_hw_flashjumper = s.rr_hw_flashjumper := by
  simp only [retroreplay_io2_store]
  split_ifs <;> exact ⟨rfl, rfl, rfl⟩

/-- What one I/O-window write does to `no_freeze`, the lock and the flash jumper,
according to whether it is an R1 write that takes effect. -/
theorem io_write_effect (X : Ext) (s : RR) (w : IOWrite) :
    (io_write X s w).rr_hw_flashjumper = s.rr_hw_flashjumper ∧
    (r1_takes_effect s w = true →
      (io_write X s w).no_freeze = w.value &&& 4 ∧
      (s.rr_hw_flashjumper = 0 → (io_write X s w).write_once = 1)) ∧
    (r1_takes_effect s w = false →
      (io_write X s w).no_freeze = s.no_freeze ∧
      (io_write X s w).write_once = s.write_once) := by
  cases w with
  | io2 addr v =>
    obtain ⟨h1, h2, h3⟩ := io2_store_frame s addr v
    simp [io_write, r1_takes_effect, h1, h2, h3]
  | io1 addr v =>
    refine ⟨(io1_store_bank X s addr v).1, ?_, ?_⟩
    · intro h
      simp only [r1_takes_effect, Bool.and_eq_true, Bool.or_eq_true, decide_eq_true_eq] at h
      obtain ⟨⟨hact, h1⟩, hmode⟩ := h
      by_cases hfj : s.rr_hw_flashjumper = 0
      · have hwo : s.write_once = 0 := by
          rcases hmode with h | h
          · exact absurd hfj h
          · exact h
        simp [io_write, IOWrite.value, retroreplay_io1_store, cartridge_romhbank_set,
          cartridge_romlbank_set, tfe_clockport_changed, hact, h1, hfj, hwo]
        split_ifs <;> simp
      · simp [io_write, IOWrite.value, retroreplay_io1_store, cartridge_romhbank_set,
          cartridge_romlbank_set, hact, h1, hfj]
    · intro h
      simp only [io_write]
      by_cases hact : s.rr_active = 0
      · rw [io1_store_inactive X s addr v hact]
        exact ⟨rfl, rfl⟩
      by_cases h0 : addr &&& 0xff = 0
      · simp [retroreplay_io1_store, cartridge_config_changed, hact, h0]
        split_ifs <;> simp
      have h0' : ¬ (addr &&& 255 = 0) := h0
      by_cases h1 : addr &&& 0xff = 1
      · have hlock : s.rr_hw_flashjumper = 0 ∧ s.write_once ≠ 0 := by
          simpa [r1_takes_effect, hact, h1] using h
        rw [r1_locked X s addr v hlock.1 hlock.2 h1]
        exact ⟨rfl, rfl⟩
      · have h1' : ¬ (addr &&& 255 = 1) := h1
        simp only [retroreplay_io1_store, hact, h0', h1', ne_eq, not_false_eq_true, if_true,
          if_false]
        split_ifs <;> exact ⟨rfl, rfl⟩

/-- Along any sequence of I/O-window writes `no_freeze` is bit 2 of the most recent
R1 write that took effect, and with the flash jumper unset the lock is engaged once
such a write exists. -/
theorem tracked_no_freeze (X : Ext) (ws : List IOWrite) (s : RR) (prev : Option Nat)
    (hnf : s.no_freeze = match prev with | none => 0 | some v => v &&& 4)
    (hlock : s.rr_hw_flashjumper = 0 → prev ≠ none → s.write_once ≠ 0) :
    (io_writes X s ws).no_freeze =
        (match last_effective_r1 X s ws prev with | none => 0 | some v => v &&& 4) ∧
    (s.rr_hw_flashjumper = 0 → last_effective_r1 X s ws prev ≠ none →
      (io_writes X s ws).write_once ≠ 0) ∧
    (io_writes X s ws).rr_hw_flashjumper = s.rr_hw_flashjumper := by
  induction ws generalizing s prev with
  | nil => exact ⟨hnf, hlock, rfl⟩
  | cons w ws ih =>
    obtain ⟨hj, heff, hnot⟩ := io_write_effect X s w
    simp only [io_writes, List.foldl_cons, last_effective_r1]
    cases h : r1_takes_effect s w with
    | true =>
      obtain ⟨e1, e2⟩ := heff h
      have := ih (io_write X s w) (some w.value) (by simpa using e1)
        (by intro hf _; rw [hj] at hf; rw [e2 hf]; decide)
      simp only [io_writes, hj] at this
      simpa using this
    | false =>
      obtain ⟨e1, e2⟩ := hnot h
      have := ih (io_write X s w) prev (by rw [e1]; exact hnf)
        (by intro hf hp; rw [hj] at hf; rw [e2]; exact hlock hf hp)
      simp only [io_writes, hj] at this
      simpa using this

theorem last_effective_r1_append (X : Ext) (ws ws2 : List IOWrite) (s : RR)
    (prev : Option Nat) :
    last_effective_r1 X s (ws ++ ws2) prev
      = last_effective_r1 X (io_writes X s ws) ws2 (last_effective_r1 X s ws prev) := by
  induction ws generalizing s prev with
  | nil => rfl
  | cons w ws ih =>
    simp only [List.cons_append, last_effective_r1, io_writes, List.foldl_cons]
    exact ih _ _

/-- With the flash jumper unset and the lock engaged no further R1 write takes
effect. -/
theorem last_effective_r1_locked (X : Ext) (ws : List IOWrite) (s : RR) (prev : Option Nat)
    (hfj : s.rr_hw_flashjumper = 0) (hlock : s.write_once ≠ 0) :
    last_effective_r1 X s ws prev = prev := by
  induction ws generalizing s with
  | nil => rfl
  | cons w ws ih =>
    have hno : r1_takes_effect s w = false := by
      cases w with
      | io1 addr v => simp [r1_takes_effect, hfj, hlock]
      | io2 addr v => rfl
    obtain ⟨hj, _, hnot⟩ := io_write_effect X s w
    obtain ⟨_, e2⟩ := hnot hno
    simp only [last_effective_r1, hno]
    exact ih (io_write X s w) (by rw [hj]; exact hfj) (by rw [e2]; exact hlock)

/-- C12: after `retroreplay_config_init` and any sequence of I/O-window writes,
`retroreplay_freeze_allowed` returns 0 exactly when the most recent R1 write that
took effect had bit 2 set, and 1 when no R1 write has taken effect; its result is
always 0 or 1. An R1 write takes effect when it reaches an active cartridge and
either the flash jumper is set or the write-once lock is not yet engaged: with the
flash jumper unset no write takes effect after the first that did, with the flash
jumper set every R1 write reaching an active cartridge does. -/
theorem C12_freeze_allowed (X : Ext) (s0 : RR) (ws : List IOWrite) :
    (last_effective_r1 X (retroreplay_config_init X s0) ws none = none →
      retroreplay_freeze_allowed (io_writes X (retroreplay_config_init X s0) ws) = 1) ∧
    (∀ v, last_effective_r1 X (retroreplay_config_init X s0) ws none = some v →
      (retroreplay_freeze_allowed (io_writes X (retroreplay_config_init X s0) ws) = 0
        ↔ v &&& 4 ≠ 0)) ∧
    (retroreplay_freeze_allowed (io_writes X (retroreplay_config_init X s0) ws) = 0 ∨
      retroreplay_freeze_allowed (io_writes X (retroreplay_config_init X s0) ws) = 1) ∧
    (s0.rr_hw_flashjumper = 0 →
      last_effective_r1 X (retroreplay_config_init X s0) ws none ≠ none →
      ∀ ws2, last_effective_r1 X (retroreplay_config_init X s0) (ws ++ ws2) none
        = last_effective_r1 X (retroreplay_config_init X s0) ws none) ∧
    (∀ (s : RR) (addr v : Nat), s.rr_hw_flashjumper ≠ 0 → s.rr_active ≠ 0 →
      addr &&& 0xff = 1 → r1_takes_effect s (IOWrite.io1 addr v) = true) := by
  have hinit : (retroreplay_config_init X s0).no_freeze = 0 := by
    simp only [retroreplay_config_init, cartridge_config_changed, flash040core_reset]
    split_ifs <;> rfl
  have hjinit : (retroreplay_config_init X s0).rr_hw_flashjumper = s0.rr_hw_flashjumper := by
    simp only [retroreplay_config_init, cartridge_config_changed, flash040core_reset]
    split_ifs <;> rfl
  obtain ⟨hnf, hwo, hj⟩ := tracked_no_freeze X ws (retroreplay_config_init X s0) none
    (by simpa using hinit) (fun _ h => absurd rfl h)
  refine ⟨?_, ?_, ?_, ?_, ?_⟩
  · intro hg
    rw [hg] at hnf
    simp [retroreplay_freeze_allowed, hnf]
  · intro v hg
    rw [hg] at hnf
    simp only [retroreplay_freeze_allowed, hnf]
    split_ifs with h
    · simpa using h
    · simp only [ne_eq, not_not] at h
      simp [h]
  · simp only [retroreplay_freeze_allowed]
    split_ifs
    · exact Or.inl rfl
    · exact Or.inr rfl
  · intro hfj hg ws2
    rw [last_effective_r1_append]
    apply last_effective_r1_locked
    · rw [hj, hjinit]; exact hfj
    · exact hwo (by rw [hjinit]; exact hfj) hg
  · intro s addr v hfj hact ha
    simp [r1_takes_effect, hfj, hact, ha]

/-- C12 after attach, an R1 write of 0x04 that takes effect and an R1 write of 0x00
that does not (the lock is engaged): freezing is not allowed. -/
theorem C12_freeze_allowed_witness :
    last_effective_r1 sampleExt (retroreplay_config_init sampleExt power_on)
      [IOWrite.io1 0xde01 0x04, IOWrite.io1 0xde01 0x00] none = some 0x04 ∧
    retroreplay_freeze_allowed (io_writes sampleExt (retroreplay_config_init sampleExt power_on)
      [IOWrite.io1 0xde01 0x04, IOWrite.io1 0xde01 0x00]) = 0 :=
  ⟨by decide,
    ((C12_freeze_allowed sampleExt power_on
      [IOWrite.io1 0xde01 0x04, IOWrite.io1 0xde01 0x00]).2.1 0x04 (by decide)).mpr (by decide)⟩

/-- C13: `retroreplay_config_init` sets `rr_active` to 1 and clears
`rr_clockport_enabled`, `write_once`, `no_freeze`, `reu_mapping` and `allow_bank`;
it appends exactly one map-change notification, `(2, 2, CMODE_READ)` when the flash
jumper is set and `(0, 0, CMODE_READ)` otherwise, followed by the reset of the flash
device; every other field of the module state is left as it was. -/
theorem C13_config_init (X : Ext) (s : RR) :
    (s.rr_hw_flashjumper ≠ 0 →
      retroreplay_config_init X s =
        { s with
          rr_active := 1, rr_clockport_enabled := 0, write_once := 0, no_freeze := 0,
          reu_mapping := 0, allow_bank := 0
          mem := X.config_map 2 2 X.CMODE_READ s.mem
          events := s.events ++ [Event.config_changed 2 2 X.CMODE_READ, Event.flash_reset] }) ∧
    (s.rr_hw_flashjumper = 0 →
      retroreplay_config_init X s =
        { s with
          rr_active := 1, rr_clockport_enabled := 0, write_once := 0, no_freeze := 0,
          reu_mapping := 0, allow_bank := 0
          mem := X.config_map 0 0 X.CMODE_READ s.mem
          events := s.events ++ [Event.config_changed 0 0 X.CMODE_READ, Event.flash_reset] }) := by
  constructor
  · intro h
    simp [retroreplay_config_init, cartridge_config_changed, flash040core_reset, h]
  · intro h
    simp [retroreplay_config_init, cartridge_config_changed, flash040core_reset, h]

/-- C14: `retroreplay_reset` sets `rr_active` to 1, appends exactly one map-change
notification, `(2, 2, CMODE_READ)` when the flash jumper is set and
`(0, 0, CMODE_READ)` otherwise, followed by the reset of the flash device, and leaves
every other field of the module state as it was; in particular the bank,
`allow_bank`, `reu_mapping` and `no_freeze` are unchanged. -/
theorem C14_reset (X : Ext) (s : RR) :
    (s.rr_hw_flashjumper ≠ 0 →
      retroreplay_reset X s =
        { s with
          rr_active := 1
          mem := X.config_map 2 2 X.CMODE_READ s.mem
          events := s.events ++ [Event.config_changed 2 2 X.CMODE_READ, Event.flash_reset] }) ∧
    (s.rr_hw_flashjumper = 0 →
      retroreplay_reset X s =
        { s with
          rr_active := 1
          mem := X.config_map 0 0 X.CMODE_READ s.mem
          events := s.events ++ [Event.config_changed 0 0 X.CMODE_READ, Event.flash_reset] }) ∧
    (retroreplay_reset X s).rr_bank = s.rr_bank ∧
    (retroreplay_reset X s).allow_bank = s.allow_bank ∧
    (retroreplay_reset X s).reu_mapping = s.reu_mapping ∧
    (retroreplay_reset X s).no_freeze = s.no_freeze := by
  refine ⟨?_, ?_, ?_⟩
  · intro h
    simp [retroreplay_reset, cartridge_config_changed, flash040core_reset, h]
  · intro h
    simp [retroreplay_reset, cartridge_config_changed, flash040core_reset, h]
  · simp only [retroreplay_reset, cartridge_config_changed, flash040core_reset]
    split_ifs <;> exact ⟨rfl, rfl, rfl, rfl⟩

/-- C13 from program start without the flash jumper. -/
theorem C13_config_init_witness :
    power_on.rr_hw_flashjumper = 0 ∧
    (retroreplay_config_init sampleExt power_on).events
      = [Event.config_changed 0 0 0, Event.flash_reset] ∧
    (retroreplay_config_init sampleExt power_on).rr_active = 1 :=
  ⟨by decide,
    by rw [(C13_config_init sampleExt power_on).2 (by decide)]; decide,
    by rw [(C13_config_init sampleExt power_on).2 (by decide)]⟩

/-- C14 after attach in flash mode and an R1 write of 0x9E: the bank, `allow_bank`
and `no_freeze` set by the write survive the reset. -/
theorem C14_reset_witness :
    (retroreplay_io1_store sampleExt attached_flash 0xde01 0x9E).rr_bank = 7 ∧
    (retroreplay_reset sampleExt
      (retroreplay_io1_store sampleExt attached_flash 0xde01 0x9E)).rr_bank
      = (retroreplay_io1_store sampleExt attached_flash 0xde01 0x9E).rr_bank ∧
    (retroreplay_reset sampleExt
      (retroreplay_io1_store sampleExt attached_flash 0xde01 0x9E)).no_freeze
      = (retroreplay_io1_store sampleExt attached_flash 0xde01 0x9E).no_freeze :=
  ⟨by decide,
    (C14_reset sampleExt (retroreplay_io1_store sampleExt attached_flash 0xde01 0x9E)).2.2.1,
    (C14_reset sampleExt
      (retroreplay_io1_store sampleExt attached_flash 0xde01 0x9E)).2.2.2.2.2⟩

/-! ## The container load loop -/

theorem crt_step_short_header (n : Nat) (ch rawcart : Nat → Nat) (fd : Stream)
    (h : ¬ (fd.pos + 0x10 ≤ fd.file.len)) :
    (crt_attach_chunks (n + 1) ch rawcart fd).1 = false ∧
    (crt_attach_chunks (n + 1) ch rawcart fd).2.1 = rawcart := by
  simp [crt_attach_chunks, fread, h]

theorem crt_step_bad_bank (n : Nat) (ch rawcart : Nat → Nat) (fd : Stream)
    (h : fd.pos + 0x10 ≤ fd.file.len) (hb : 7 < chunk_bank fd 0) :
    (crt_attach_chunks (n + 1) ch rawcart fd).1 = false ∧
    (crt_attach_chunks (n + 1) ch rawcart fd).2.1 = rawcart := by
  have hb' : 7 < fd.file.byte (fd.pos + 11) := by simpa [chunk_bank] using hb
  simp [crt_attach_chunks, fread, h, memcpy, hb']

theorem crt_step_short_body (n : Nat) (ch rawcart : Nat → Nat) (fd : Stream)
    (h : fd.pos + 0x10 ≤ fd.file.len) (hb : chunk_bank fd 0 ≤ 7)
    (h2 : ¬ (fd.pos + 0x2010 ≤ fd.file.len)) :
    (crt_attach_chunks (n + 1) ch rawcart fd).1 = false ∧
    (crt_attach_chunks (n + 1) ch rawcart fd).2.1 =
      memcpy rawcart (chunk_bank fd 0 <<< 13) fd.file.byte (fd.pos + 0x10)
        (fd.file.len - (fd.pos + 0x10)) := by
  have hb' : ¬ (7 < fd.file.byte (fd.pos + 11)) := by simpa [chunk_bank] using hb
  have h3 : ¬ (fd.pos + 16 + 8192 ≤ fd.file.len) := by omega
  simp [crt_attach_chunks, fread, h, memcpy, hb', h3, chunk_bank]

theorem crt_step_ok (n : Nat) (ch rawcart : Nat → Nat) (fd : Stream)
    (hb : chunk_bank fd 0 ≤ 7) (h2 : fd.pos + 0x2010 ≤ fd.file.len) :
    crt_attach_chunks (n + 1) ch rawcart fd =
      crt_attach_chunks n (memcpy ch 0 fd.file.byte fd.pos 0x10)
        (memcpy rawcart (chunk_bank fd 0 <<< 13) fd.file.byte (fd.pos + 0x10) 0x2000)
        { fd with pos := fd.pos + 0x2010 } := by
  have h : fd.pos + 16 ≤ fd.file.len := by omega
  have hb' : ¬ (7 < fd.file.byte (fd.pos + 11)) := by simpa [chunk_bank] using hb
  have h3 : fd.pos + 16 + 8192 ≤ fd.file.len := by omega
  simp [crt_attach_chunks, fread, h, memcpy, hb', h3, chunk_bank, Nat.add_assoc]

theorem chunk_bank_shift (fd : Stream) (k : Nat) :
    chunk_bank { fd with pos := fd.pos + 0x2010 } k = chunk_bank fd (k + 1) := by
  simp only [chunk_bank]
  congr 1
  omega

theorem chunk_payload_shift (fd : Stream) (k j : Nat) :
    chunk_payload { fd with pos := fd.pos + 0x2010 } k j = chunk_payload fd (k + 1) j := by
  simp only [chunk_payload]
  congr 1
  omega

/-- What the container load loop does over `n` chunks: it succeeds exactly when the
`n` chunks are all there and every destination bank is at most 7; it never writes at
or beyond offset 0x10000; and on success it has consumed exactly `n` chunks, each
chunk whose bank is not reused by a later chunk sits in its bank slot, and every byte
outside the slots of the chunks is untouched. -/
theorem crt_attach_chunks_spec (n : Nat) : ∀ (ch rawcart : Nat → Nat) (fd : Stream),
    fd.pos ≤ fd.file.len →
    ((crt_attach_chunks n ch rawcart fd).1 = true ↔
      fd.pos + n * 0x2010 ≤ fd.file.len ∧ ∀ k < n, chunk_bank fd k ≤ 7) ∧
    (∀ a, 0x10000 ≤ a → (crt_attach_chunks n ch rawcart fd).2.1 a = rawcart a) ∧
    ((crt_attach_chunks n ch rawcart fd).1 = true →
      (crt_attach_chunks n ch rawcart fd).2.2 = { fd with pos := fd.pos + n * 0x2010 } ∧
      (∀ k < n, (∀ k', k < k' → k' < n → chunk_bank fd k' ≠ chunk_bank fd k) →
        ∀ j < 0x2000,
          (crt_attach_chunks n ch rawcart fd).2.1 ((chunk_bank fd k <<< 13) + j)
            = chunk_payload fd k j) ∧
      (∀ a, (∀ k < n, ¬ ((chunk_bank fd k <<< 13) ≤ a ∧ a < (chunk_bank fd k <<< 13) + 0x2000)) →
        (crt_attach_chunks n ch rawcart fd).2.1 a = rawcart a)) := by
  induction n with
  | zero =>
    intro ch rawcart fd hpos
    simp [crt_attach_chunks, hpos]
  | succ n ih =>
    intro ch rawcart fd hpos
    by_cases h1 : fd.pos + 0x10 ≤ fd.file.len
    swap
    · obtain ⟨e1, e2⟩ := crt_step_short_header n ch rawcart fd h1
      rw [e1, e2]
      refine ⟨?_, fun _ _ => rfl, fun h => absurd h (by decide)⟩
      constructor
      · intro h; exact absurd h (by decide)
      · intro ⟨h, _⟩; omega
    by_cases hb : chunk_bank fd 0 ≤ 7
    swap
    · obtain ⟨e1, e2⟩ := crt_step_bad_bank n ch rawcart fd h1 (by omega)
      rw [e1, e2]
      refine ⟨?_, fun _ _ => rfl, fun h => absurd h (by decide)⟩
      constructor
      · intro h; exact absurd h (by decide)
      · intro ⟨_, h⟩; exact absurd (h 0 (Nat.succ_pos n)) hb
    have hslot : chunk_bank fd 0 <<< 13 + 0x2000 ≤ 0x10000 := by
      rw [Nat.shiftLeft_eq]; omega
    by_cases h2 : fd.pos + 0x2010 ≤ fd.file.len
    swap
    · obtain ⟨e1, e2⟩ := crt_step_short_body n ch rawcart fd h1 hb h2
      rw [e1, e2]
      refine ⟨?_, ?_, fun h => absurd h (by decide)⟩
      · constructor
        · intro h; exact absurd h (by decide)
        · intro ⟨h, _⟩; omega
      · intro a ha
        simp only [memcpy]
        rw [if_neg]
        omega
    -- the first chunk is read; the rest is the loop over the remaining chunks
    rw [crt_step_ok n ch rawcart fd hb h2]
    obtain ⟨i1, i2, i3⟩ := ih (memcpy ch 0 fd.file.byte fd.pos 0x10)
      (memcpy rawcart (chunk_bank fd 0 <<< 13) fd.file.byte (fd.pos + 0x10) 0x2000)
      { fd with pos := fd.pos + 0x2010 } h2
    simp only [chunk_bank_shift, chunk_payload_shift] at i1 i2 i3
    have hfirst : ∀ a, ¬ ((chunk_bank fd 0 <<< 13) ≤ a ∧ a < (chunk_bank fd 0 <<< 13) + 0x2000) →
        memcpy rawcart (chunk_bank fd 0 <<< 13) fd.file.byte (fd.pos + 0x10) 0x2000 a
          = rawcart a := by
      intro a ha
      simp only [memcpy]
      rw [if_neg ha]
    refine ⟨?_, ?_, ?_⟩
    · rw [i1]
      constructor
      · intro ⟨hl, hk⟩
        refine ⟨by omega, ?_⟩
        intro k hk'
        cases k with
        | zero => exact hb
        | succ k => exact hk k (by omega)
      · intro ⟨hl, hk⟩
        refine ⟨by omega, ?_⟩
        intro k hk'
        exact hk (k + 1) (by omega)
    · intro a ha
      rw [i2 a ha]
      exact hfirst a (by omega)
    · intro hok
      obtain ⟨p1, p2, p3⟩ := i3 hok
      refine ⟨?_, ?_, ?_⟩
      · rw [p1]
        simp only [Stream.mk.injEq, true_and]
        omega
      · intro k hk hlater j hj
        cases k with
        | zero =>
          -- no later chunk reuses the bank of the first: its slot is left alone
          rw [p3]
          · simp only [memcpy, chunk_payload]
            rw [if_pos (by omega)]
            congr 1
            omega
          · intro k' hk' hin
            have hne := hlater (k' + 1) (by omega) (by omega)
            have hk7 : chunk_bank fd (k' + 1) ≤ 7 := (i1.mp hok).2 k' hk'
            rw [Nat.shiftLeft_eq, Nat.shiftLeft_eq] at hin
            apply hne
            omega
        | succ k =>
          exact p2 k (by omega) (fun k' h1 h2 => hlater (k' + 1) (by omega) (by omega)) j hj
      · intro a ha
        rw [p3 a (fun k hk => ha (k + 1) (by omega))]
        exact hfirst a (ha 0 (Nat.succ_pos n))

/-! ## Image codec -/

/-- The result of `retroreplay_bin_attach` for a file of an accepted size, the file
access and the export registration succeeding. -/
theorem bin_attach_accepted (H : Host) (filename : String) (file : File) (rawcart : Nat → Nat)
    (c : Codec) (hio : H.util_file_load_ok = true) (hexp : H.c64export_add_ok = true)
    (hlen : file.len = 0x8000 ∨ file.len = 0x10000 ∨ file.len = 0x20000) :
    retroreplay_bin_attach H filename file rawcart c =
      (0, memcpy rawcart 0 file.byte 0 file.len,
        { c with retroreplay_filetype := CARTRIDGE_FILETYPE_BIN,
                 retroreplay_filesize := file.len,
                 retroreplay_filename := some filename,
                 retroreplay_io1_list_item := true, retroreplay_io2_list_item := true }) := by
  rcases hlen with h | h | h <;>
    simp [retroreplay_bin_attach, util_file_load, retroreplay_common_attach, hio, hexp, h]

theorem fwrite_fresh (src : Nat → Nat) (off n : Nat) :
    (fwrite true src off n { len := 0, byte := fun _ => 0 }).2.len = n ∧
    ∀ i, i < n → (fwrite true src off n { len := 0, byte := fun _ => 0 }).2.byte i
      = src (off + i) := by
  constructor
  · simp [fwrite]
  · intro i hi
    simp [fwrite, memcpy, hi]

/-- What loading, installing and saving a raw binary file of an accepted size does,
all host operations succeeding: the saved file has the length of the loaded one and
holds the bytes of the flash image from offset 0 (size 0x20000) or from offset
0x10000 (the other sizes). -/
theorem bin_load_install_save_eq (H : Host) (X : Ext) (s : RR) (filename : String)
    (file : File) (rawcart roml_banks : Nat → Nat) (c : Codec)
    (hlen : file.len = 0x8000 ∨ file.len = 0x10000 ∨ file.len = 0x20000)
    (hio : H.util_file_load_ok = true) (hexp : H.c64export_add_ok = true)
    (hopen : H.fopen_write_ok = true) (hw : H.fwrite_ok 0 = true) :
    ∃ out, bin_load_install_save H X s filename file rawcart roml_banks c = (0, 0, some out) ∧
      out.len = file.len ∧
      ∀ i, i < file.len → out.byte i =
        (retroreplay_config_setup X s (memcpy rawcart 0 file.byte 0 file.len) roml_banks).2
          (if file.len = 0x20000 then i else 0x10000 + i) := by
  have e := bin_attach_accepted H filename file rawcart c hio hexp hlen
  by_cases h : file.len = 0x20000
  · refine ⟨(fwrite true (retroreplay_config_setup X s
        (memcpy rawcart 0 file.byte 0 file.len) roml_banks).2 0 file.len
        { len := 0, byte := fun _ => 0 }).2, ?_, ?_, ?_⟩
    · simp [bin_load_install_save, retroreplay_save_bin, e, h, hopen, hw, fwrite]
    · exact (fwrite_fresh _ _ _).1
    · intro i hi
      rw [(fwrite_fresh _ _ _).2 i hi, if_pos h, Nat.zero_add]
  · refine ⟨(fwrite true (retroreplay_config_setup X s
        (memcpy rawcart 0 file.byte 0 file.len) roml_banks).2 0x10000 file.len
        { len := 0, byte := fun _ => 0 }).2, ?_, ?_, ?_⟩
    · simp [bin_load_install_save, retroreplay_save_bin, e, h, hopen, hw, fwrite]
    · exact (fwrite_fresh _ _ _).1
    · intro i hi
      rw [(fwrite_fresh _ _ _).2 i hi, if_neg h]

/-- The flash image after installation: the two 0x10000-byte halves of the buffer,
exchanged. -/
theorem config_setup_image (X : Ext) (s : RR) (rawcart roml_banks : Nat → Nat) (i : Nat)
    (hi : i < 0x10000) :
    (retroreplay_config_setup X s rawcart roml_banks).2 i = rawcart (0x10000 + i) ∧
    (retroreplay_config_setup X s rawcart roml_banks).2 (0x10000 + i) = rawcart i := by
  constructor
  · simp only [retroreplay_config_setup, memcpy]
    rw [if_neg (by omega), if_pos (by omega)]
    exact congrArg _ (by omega)
  · simp only [retroreplay_config_setup, memcpy]
    rw [if_pos (by omega)]
    exact congrArg _ (by omega)

/-- C15 (as amended): with the file access of `util_file_load` succeeding,
`retroreplay_bin_attach` of a file of length `n` fails (returns -1) if and only if
`n` is none of 0x8000, 0x10000, 0x20000 or `c64export_add` refuses the cartridge, and
returns 0 otherwise. Whenever `n` is one of the three sizes, also when the cartridge
is then refused, bytes `0 .. n-1` of the buffer are the file's bytes, the rest of the
buffer is untouched, the recorded size is `n`, the recorded format is raw binary and
the recorded name is the file's name. On a rejected size the buffer is unchanged. -/
theorem C15_bin_attach (H : Host) (filename : String) (file : File) (rawcart : Nat → Nat)
    (c : Codec) (hio : H.util_file_load_ok = true) :
    ((retroreplay_bin_attach H filename file rawcart c).1 = -1 ↔
      (¬ (file.len = 0x8000 ∨ file.len = 0x10000 ∨ file.len = 0x20000) ∨
        H.c64export_add_ok = false)) ∧
    ((retroreplay_bin_attach H filename file rawcart c).1 = 0 ↔
      ((file.len = 0x8000 ∨ file.len = 0x10000 ∨ file.len = 0x20000) ∧
        H.c64export_add_ok = true)) ∧
    ((file.len = 0x8000 ∨ file.len = 0x10000 ∨ file.len = 0x20000) →
      (∀ i, i < file.len → (retroreplay_bin_attach H filename file rawcart c).2.1 i
        = file.byte i) ∧
      (∀ i, file.len ≤ i → (retroreplay_bin_attach H filename file rawcart c).2.1 i
        = rawcart i) ∧
      (retroreplay_bin_attach H filename file rawcart c).2.2.retroreplay_filesize = file.len ∧
      (retroreplay_bin_attach H filename file rawcart c).2.2.retroreplay_filetype
        = CARTRIDGE_FILETYPE_BIN ∧
      (retroreplay_bin_attach H filename file rawcart c).2.2.retroreplay_filename
        = some filename) ∧
    (¬ (file.len = 0x8000 ∨ file.len = 0x10000 ∨ file.len = 0x20000) →
      (retroreplay_bin_attach H filename file rawcart c).2.1 = rawcart) := by
  by_cases hlen : file.len = 0x8000 ∨ file.len = 0x10000 ∨ file.len = 0x20000
  · have hbytes : (∀ i, i < file.len → memcpy rawcart 0 file.byte 0 file.len i = file.byte i) ∧
        (∀ i, file.len ≤ i → memcpy rawcart 0 file.byte 0 file.len i = rawcart i) := by
      constructor
      · intro i hi
        simp only [memcpy]
        rw [if_pos (by omega)]
        exact congrArg _ (by omega)
      · intro i hi
        simp only [memcpy]
        rw [if_neg (by omega)]
    by_cases hexp : H.c64export_add_ok = true
    · rw [bin_attach_accepted H filename file rawcart c hio hexp hlen]
      refine ⟨⟨fun h => by simp at h, fun h => ?_⟩, ⟨fun _ => ⟨hlen, hexp⟩, fun _ => rfl⟩,
        fun _ => ⟨hbytes.1, hbytes.2, rfl, rfl, rfl⟩, fun h => absurd hlen h⟩
      rcases h with h | h
      · exact absurd hlen h
      · rw [hexp] at h
        exact absurd h (by decide)
    · have hexp' : H.c64export_add_ok = false := by simpa using hexp
      have e : retroreplay_bin_attach H filename file rawcart c =
          (-1, memcpy rawcart 0 file.byte 0 file.len,
            { c with retroreplay_filetype := CARTRIDGE_FILETYPE_BIN,
                     retroreplay_filesize := file.len,
                     retroreplay_filename := some filename }) := by
        rcases hlen with h | h | h <;>
          simp [retroreplay_bin_attach, util_file_load, retroreplay_common_attach, hio,
            hexp', h]
      rw [e]
      exact ⟨⟨fun _ => Or.inr hexp', fun _ => rfl⟩,
        ⟨fun h => by simp at h, fun h => absurd h.2 hexp⟩,
        fun _ => ⟨hbytes.1, hbytes.2, rfl, rfl, rfl⟩, fun h => absurd hlen h⟩
  · have h1 : ¬ (file.len = 32768) := fun h => hlen (Or.inl h)
    have h2 : ¬ (file.len = 65536) := fun h => hlen (Or.inr (Or.inl h))
    have h3 : ¬ (file.len = 131072) := fun h => hlen (Or.inr (Or.inr h))
    have e : retroreplay_bin_attach H filename file rawcart c =
        (-1, rawcart, { c with retroreplay_filetype := 0, retroreplay_filesize := 0,
                               retroreplay_filename := none }) := by
      simp [retroreplay_bin_attach, h1, h2, h3]
    rw [e]
    exact ⟨⟨fun _ => Or.inl hlen, fun _ => rfl⟩, ⟨fun h => by simp at h, fun h => absurd h.1 hlen⟩,
      fun h => absurd h hlen, fun _ => rfl⟩

/-- C15 at a 0x10000-byte file, every host operation succeeding: the load returns 0. -/
theorem C15_bin_attach_witness :
    hostOk.util_file_load_ok = true ∧
    (retroreplay_bin_attach hostOk "rr.bin" file64 (fun _ => 0) codec_init).1 = 0 :=
  ⟨by decide,
    (C15_bin_attach hostOk "rr.bin" file64 (fun _ => 0) codec_init (by decide)).2.1.mpr
      ⟨by decide, by decide⟩⟩

/-- C15 as stated fails: the file access succeeds and the file has the accepted
length 0x10000, yet with `c64export_add` refusing the cartridge the load returns -1,
after byte 1 of the file has been copied into the buffer and the size recorded. -/
theorem C15_counterexample :
    hostRefusing.util_file_load_ok = true ∧ file64.len = 0x10000 ∧
    (retroreplay_bin_attach hostRefusing "rr.bin" file64 (fun _ => 0) codec_init).1 = -1 ∧
    file64.byte 1 = 1 ∧
    (retroreplay_bin_attach hostRefusing "rr.bin" file64 (fun _ => 0) codec_init).2.1 1 = 1 ∧
    (retroreplay_bin_attach hostRefusing "rr.bin" file64 (fun _ => 0)
      codec_init).2.2.retroreplay_filesize = 0x10000 := by
  decide

/-- C16: for every 0x10000-byte raw binary file, loading it, installing it into the
flash image and saving it, all host operations succeeding and nothing writing to the
flash image in between, writes a file of 0x10000 bytes whose byte `i` is byte `i` of
the original file, taken from offset `0x10000 + i` of the flash image. -/
theorem C16_bin_roundtrip_64k (H : Host) (X : Ext) (s : RR) (filename : String)
    (file : File) (rawcart roml_banks : Nat → Nat) (c : Codec)
    (hlen : file.len = 0x10000)
    (hio : H.util_file_load_ok = true) (hexp : H.c64export_add_ok = true)
    (hopen : H.fopen_write_ok = true) (hw : H.fwrite_ok 0 = true) :
    ∃ out, bin_load_install_save H X s filename file rawcart roml_banks c = (0, 0, some out) ∧
      out.len = 0x10000 ∧
      ∀ i, i < 0x10000 →
        out.byte i = file.byte i ∧
        out.byte i = (retroreplay_config_setup X s
          (retroreplay_bin_attach H filename file rawcart c).2.1 roml_banks).2 (0x10000 + i) := by
  obtain ⟨out, h1, h2, h3⟩ := bin_load_install_save_eq H X s filename file rawcart roml_banks c
    (Or.inr (Or.inl hlen)) hio hexp hopen hw
  have e := bin_attach_accepted H filename file rawcart c hio hexp (Or.inr (Or.inl hlen))
  refine ⟨out, h1, by rw [h2, hlen], ?_⟩
  intro i hi
  have h4 := h3 i (by rw [hlen]; exact hi)
  rw [if_neg (by rw [hlen]; decide)] at h4
  rw [e]
  refine ⟨?_, h4⟩
  rw [h4, (config_setup_image X s _ roml_banks i hi).2]
  simp only [memcpy]
  rw [if_pos (by omega)]
  exact congrArg _ (by omega)

/-- C16 at the 0x10000-byte file whose byte `i` is `i % 251`, the buffers zeroed
beforehand. -/
theorem C16_bin_roundtrip_64k_witness :
    file64.len = 0x10000 ∧ hostOk.util_file_load_ok = true ∧ hostOk.c64export_add_ok = true ∧
    hostOk.fopen_write_ok = true ∧ hostOk.fwrite_ok 0 = true ∧
    ∃ out, bin_load_install_save hostOk sampleExt power_on "rr.bin" file64 (fun _ => 0)
        (fun _ => 0) codec_init = (0, 0, some out) ∧
      out.len = 0x10000 ∧
      ∀ i, i < 0x10000 →
        out.byte i = file64.byte i ∧
        out.byte i = (retroreplay_config_setup sampleExt power_on
          (retroreplay_bin_attach hostOk "rr.bin" file64 (fun _ => 0) codec_init).2.1
          (fun _ => 0)).2 (0x10000 + i) :=
  ⟨by decide, by decide, by decide, by decide, by decide,
    C16_bin_roundtrip_64k hostOk sampleExt power_on "rr.bin" file64 (fun _ => 0) (fun _ => 0)
      codec_init (by decide) (by decide) (by decide) (by decide) (by decide)⟩

/-- What the 0x20000-byte round trip does: the saved file holds the two 0x10000-byte
halves of the loaded file in exchanged order. -/
theorem bin_roundtrip_128k_halves_exchanged (H : Host) (X : Ext) (s : RR) (filename : String)
    (file : File) (rawcart roml_banks : Nat → Nat) (c : Codec)
    (hlen : file.len = 0x20000)
    (hio : H.util_file_load_ok = true) (hexp : H.c64export_add_ok = true)
    (hopen : H.fopen_write_ok = true) (hw : H.fwrite_ok 0 = true) :
    ∃ out, bin_load_install_save H X s filename file rawcart roml_banks c = (0, 0, some out) ∧
      out.len = 0x20000 ∧
      ∀ i, i < 0x10000 →
        out.byte i = file.byte (0x10000 + i) ∧ out.byte (0x10000 + i) = file.byte i := by
  obtain ⟨out, h1, h2, h3⟩ := bin_load_install_save_eq H X s filename file rawcart roml_banks c
    (Or.inr (Or.inr hlen)) hio hexp hopen hw
  refine ⟨out, h1, by rw [h2, hlen], ?_⟩
  intro i hi
  have h4 := h3 i (by rw [hlen]; omega)
  have h5 := h3 (0x10000 + i) (by rw [hlen]; omega)
  rw [if_pos hlen] at h4 h5
  obtain ⟨g1, g2⟩ := config_setup_image X s (memcpy rawcart 0 file.byte 0 file.len) roml_banks i hi
  rw [h4, h5, g1, g2]
  simp only [memcpy]
  rw [if_pos (by omega), if_pos (by omega)]
  constructor
  · exact congrArg _ (by omega)
  · exact congrArg _ (by omega)

/-- C17 fails on the code: loading the 0x20000-byte file whose first byte is 1 and
whose other bytes are 0, installing it and saving it writes a file of 0x20000 bytes
whose byte 0 is 0 and whose byte 0x10000 is 1, while the original has 1 at byte 0
and 0 at byte 0x10000. -/
theorem C17_bin_roundtrip_128k_exchanges_halves :
    file128.len = 0x20000 ∧ file128.byte 0 = 1 ∧ file128.byte 0x10000 = 0 ∧
    (bin_load_install_save hostOk sampleExt power_on "rr.bin" file128 (fun _ => 0)
      (fun _ => 0) codec_init).1 = 0 ∧
    (bin_load_install_save hostOk sampleExt power_on "rr.bin" file128 (fun _ => 0)
      (fun _ => 0) codec_init).2.1 = 0 ∧
    (bin_load_install_save hostOk sampleExt power_on "rr.bin" file128 (fun _ => 0)
      (fun _ => 0) codec_init).2.2.map (fun out => (out.len, out.byte 0, out.byte 0x10000))
      = some (0x20000, 0, 1) := by
  decide

/-- The container load loop fails exactly when some read is short or some bank byte
exceeds 7; the buffer beyond offset 0x10000 is never written. -/
theorem crt_attach_loop_fails (ch rawcart : Nat → Nat) (fd : Stream) :
    ((crt_attach_chunks 8 ch rawcart fd).1 = false ↔
      (fd.file.len < fd.pos + 8 * 0x2010 ∨ ∃ k, k < 8 ∧ 7 < chunk_bank fd k)) ∧
    (∀ a, 0x10000 ≤ a → (crt_attach_chunks 8 ch rawcart fd).2.1 a = rawcart a) := by
  by_cases hpos : fd.pos ≤ fd.file.len
  · obtain ⟨h1, h2, _⟩ := crt_attach_chunks_spec 8 ch rawcart fd hpos
    refine ⟨?_, h2⟩
    rw [← Bool.not_eq_true, h1]
    constructor
    · intro h
      by_cases hl : fd.file.len < fd.pos + 8 * 0x2010
      · exact Or.inl hl
      · right
        by_contra hne
        apply h
        refine ⟨by omega, fun k hk => ?_⟩
        by_contra hk7
        exact hne ⟨k, hk, by omega⟩
    · intro h ⟨hl, hk⟩
      rcases h with h | ⟨k, hk8, hk7⟩
      · omega
      · have := hk k hk8
        omega
  · obtain ⟨e1, e2⟩ := crt_step_short_header 7 ch rawcart fd (by omega)
    rw [e1, e2]
    exact ⟨⟨fun _ => Or.inl (by omega), fun _ => rfl⟩, fun _ _ => rfl⟩

/-- C18: `retroreplay_crt_attach` succeeds (returns 0) exactly when 8 chunks of a
0x10-byte header and a 0x2000-byte payload can be read, every header byte 0x0B is at
most 7 and the cartridge is accepted by `c64export_add`; if a read is short or some
chunk has a header byte 0x0B above 7 it returns -1. No byte of the buffer at or
beyond offset 0x10000 is ever written. On success exactly 8 chunks have been
consumed, the recorded format is container, the recorded size is 0x10000, and every
chunk with bank `b` that is not followed by another chunk with the same bank sits at
offsets `(b << 13) .. (b << 13) + 0x1FFF` of the buffer, the bytes outside the slots
of the chunks being untouched. -/
theorem C18_crt_attach (H : Host) (fd : Stream) (rawcart : Nat → Nat) (filename : String)
    (c : Codec) :
    ((retroreplay_crt_attach H fd rawcart filename c).1 = 0 ↔
      fd.pos + 8 * 0x2010 ≤ fd.file.len ∧ (∀ k, k < 8 → chunk_bank fd k ≤ 7) ∧
        H.c64export_add_ok = true) ∧
    ((fd.file.len < fd.pos + 8 * 0x2010 ∨ ∃ k, k < 8 ∧ 7 < chunk_bank fd k) →
      (retroreplay_crt_attach H fd rawcart filename c).1 = -1) ∧
    (∀ a, 0x10000 ≤ a → (retroreplay_crt_attach H fd rawcart filename c).2.1 a = rawcart a) ∧
    ((retroreplay_crt_attach H fd rawcart filename c).1 = 0 →
      (retroreplay_crt_attach H fd rawcart filename c).2.2.1
        = { fd with pos := fd.pos + 8 * 0x2010 } ∧
      (retroreplay_crt_attach H fd rawcart filename c).2.2.2.retroreplay_filetype
        = CARTRIDGE_FILETYPE_CRT ∧
      (retroreplay_crt_attach H fd rawcart filename c).2.2.2.retroreplay_filesize = 0x10000 ∧
      (retroreplay_crt_attach H fd rawcart filename c).2.2.2.retroreplay_filename
        = some filename ∧
      (∀ k, k < 8 → (∀ k', k < k' → k' < 8 → chunk_bank fd k' ≠ chunk_bank fd k) →
        ∀ j, j < 0x2000 →
          (retroreplay_crt_attach H fd rawcart filename c).2.1 ((chunk_bank fd k <<< 13) + j)
            = chunk_payload fd k j) ∧
      (∀ a, (∀ k, k < 8 →
          ¬ ((chunk_bank fd k <<< 13) ≤ a ∧ a < (chunk_bank fd k <<< 13) + 0x2000)) →
        (retroreplay_crt_attach H fd rawcart filename c).2.1 a = rawcart a)) := by
  obtain ⟨hfail, hhigh⟩ := crt_attach_loop_fails (fun _ => 0) rawcart fd
  by_cases hloop : (crt_attach_chunks 8 (fun _ => 0) rawcart fd).1 = false
  · -- the loop fails
    have hbad := hfail.mp hloop
    have e : retroreplay_crt_attach H fd rawcart filename c =
        (-1, (crt_attach_chunks 8 (fun _ => 0) rawcart fd).2.1,
          (crt_attach_chunks 8 (fun _ => 0) rawcart fd).2.2,
          { c with retroreplay_filetype := 0, retroreplay_filesize := 0,
                   retroreplay_filename := none }) := by
      simp [retroreplay_crt_attach, hloop]
    rw [e]
    refine ⟨⟨fun h => by simp at h, ?_⟩, fun _ => rfl, hhigh, fun h => by simp at h⟩
    intro ⟨hl, hk, _⟩
    rcases hbad with h | ⟨k, hk8, hk7⟩
    · omega
    · have := hk k hk8
      omega
  · -- the loop succeeds
    have hok : (crt_attach_chunks 8 (fun _ => 0) rawcart fd).1 = true := by
      simpa using hloop
    have hgood : ¬ (fd.file.len < fd.pos + 8 * 0x2010 ∨ ∃ k, k < 8 ∧ 7 < chunk_bank fd k) :=
      fun h => hloop (hfail.mpr h)
    have hlen : fd.pos + 8 * 0x2010 ≤ fd.file.len := by
      by_contra h
      exact hgood (Or.inl (by omega))
    have hbanks : ∀ k, k < 8 → chunk_bank fd k ≤ 7 := by
      intro k hk
      by_contra h
      exact hgood (Or.inr ⟨k, hk, by omega⟩)
    obtain ⟨_, _, h3⟩ := crt_attach_chunks_spec 8 (fun _ => 0) rawcart fd (by omega)
    obtain ⟨p1, p2, p3⟩ := h3 hok
    by_cases hexp : H.c64export_add_ok = true
    · have e : retroreplay_crt_attach H fd rawcart filename c =
          (0, (crt_attach_chunks 8 (fun _ => 0) rawcart fd).2.1,
            (crt_attach_chunks 8 (fun _ => 0) rawcart fd).2.2,
            { c with retroreplay_filetype := CARTRIDGE_FILETYPE_CRT,
                     retroreplay_filesize := 0x10000,
                     retroreplay_filename := some filename,
                     retroreplay_io1_list_item := true,
                     retroreplay_io2_list_item := true }) := by
        simp [retroreplay_crt_attach, retroreplay_common_attach, hok, hexp]
      rw [e]
      exact ⟨⟨fun _ => ⟨hlen, hbanks, hexp⟩, fun _ => rfl⟩, fun h => absurd h hgood, hhigh,
        fun _ => ⟨p1, rfl, rfl, rfl, p2, p3⟩⟩
    · have e : retroreplay_crt_attach H fd rawcart filename c =
          (-1, (crt_attach_chunks 8 (fun _ => 0) rawcart fd).2.1,
            (crt_attach_chunks 8 (fun _ => 0) rawcart fd).2.2,
            { c with retroreplay_filetype := CARTRIDGE_FILETYPE_CRT,
                     retroreplay_filesize := 0x10000,
                     retroreplay_filename := some filename }) := by
        simp [retroreplay_crt_attach, retroreplay_common_attach, hok, hexp]
      rw [e]
      exact ⟨⟨fun h => by simp at h, fun h => absurd h.2.2 hexp⟩, fun _ => rfl, hhigh,
        fun h => by simp at h⟩

/-- C18 at a well-formed container whose chunk `k` carries bank `7 - k`: the load
succeeds, and the payload of chunk 2 (bytes of value 3) sits in the slot of bank 5. -/
theorem C18_crt_attach_witness :
    (retroreplay_crt_attach hostOk { file := crt_good, pos := 0 } (fun _ => 0) "rr.crt"
      codec_init).1 = 0 ∧
    chunk_bank { file := crt_good, pos := 0 } 2 = 5 ∧
    (retroreplay_crt_attach hostOk { file := crt_good, pos := 0 } (fun _ => 0) "rr.crt"
      codec_init).2.1 ((5 <<< 13) + 0x123) = 3 ∧
    (retroreplay_crt_attach hostOk { file := crt_good, pos := 0 } (fun _ => 0) "rr.crt"
      codec_init).2.2.2.retroreplay_filesize = 0x10000 :=
  ⟨((C18_crt_attach hostOk { file := crt_good, pos := 0 } (fun _ => 0) "rr.crt"
      codec_init).1).mpr ⟨by decide, by decide, by decide⟩,
    by decide, by decide, by decide⟩

/-- C19 (as amended): when `retroreplay_crt_attach` fails through a short read or a
chunk bank index above 7, it returns -1 and leaves the recorded image attributes
cleared (no path, format 0, length 0) whatever they were before; no byte of the
destination buffer at or beyond offset 0x10000 is changed, and when the failure is at
the first chunk header (header cut short or bank index above 7) the whole buffer is
unchanged. -/
theorem C19_crt_attach_failure (H : Host) (fd : Stream) (rawcart : Nat → Nat)
    (filename : String) (c : Codec)
    (hfail : fd.file.len < fd.pos + 8 * 0x2010 ∨ ∃ k, k < 8 ∧ 7 < chunk_bank fd k) :
    (retroreplay_crt_attach H fd rawcart filename c).1 = -1 ∧
    (retroreplay_crt_attach H fd rawcart filename c).2.2.2 =
      { c with retroreplay_filetype := 0, retroreplay_filesize := 0,
               retroreplay_filename := none } ∧
    (∀ a, 0x10000 ≤ a → (retroreplay_crt_attach H fd rawcart filename c).2.1 a = rawcart a) ∧
    ((fd.file.len < fd.pos + 0x10 ∨ 7 < chunk_bank fd 0) →
      (retroreplay_crt_attach H fd rawcart filename c).2.1 = rawcart) := by
  obtain ⟨hiff, hhigh⟩ := crt_attach_loop_fails (fun _ => 0) rawcart fd
  have hloop := hiff.mpr hfail
  have e : retroreplay_crt_attach H fd rawcart filename c =
      (-1, (crt_attach_chunks 8 (fun _ => 0) rawcart fd).2.1,
        (crt_attach_chunks 8 (fun _ => 0) rawcart fd).2.2,
        { c with retroreplay_filetype := 0, retroreplay_filesize := 0,
                 retroreplay_filename := none }) := by
    simp [retroreplay_crt_attach, hloop]
  rw [e]
  refine ⟨rfl, rfl, hhigh, ?_⟩
  intro hfirst
  by_cases h1 : fd.pos + 0x10 ≤ fd.file.len
  · rcases hfirst with h | h
    · omega
    · exact (crt_step_bad_bank 7 (fun _ => 0) rawcart fd h1 h).2
  · exact (crt_step_short_header 7 (fun _ => 0) rawcart fd h1).2

/-- C19 at a container whose second chunk carries bank 8. -/
theorem C19_crt_attach_failure_witness :
    (crt_bad_second.len < 0 + 8 * 0x2010 ∨
      ∃ k, k < 8 ∧ 7 < chunk_bank { file := crt_bad_second, pos := 0 } k) ∧
    (retroreplay_crt_attach hostOk { file := crt_bad_second, pos := 0 } (fun _ => 0) "rr.crt"
      codec_after_crt).1 = -1 :=
  ⟨Or.inr ⟨1, by decide, by decide⟩,
    (C19_crt_attach_failure hostOk { file := crt_bad_second, pos := 0 } (fun _ => 0) "rr.crt"
      codec_after_crt (Or.inr ⟨1, by decide, by decide⟩)).1⟩

/-- C19 as stated fails: with a container whose first chunk (bank 0, payload of
ones) is good and whose second chunk carries bank 8, the load returns -1, yet byte 0
of the zeroed buffer has become 1 and the recorded format and length, 2 and 0x10000
before the call, have become 0. -/
theorem C19_counterexample :
    chunk_bank { file := crt_bad_second, pos := 0 } 1 = 8 ∧
    codec_after_crt.retroreplay_filetype = 2 ∧ codec_after_crt.retroreplay_filesize = 0x10000 ∧
    (retroreplay_crt_attach hostOk { file := crt_bad_second, pos := 0 } (fun _ => 0) "rr.crt"
      codec_after_crt).1 = -1 ∧
    (retroreplay_crt_attach hostOk { file := crt_bad_second, pos := 0 } (fun _ => 0) "rr.crt"
      codec_after_crt).2.1 0 = 1 ∧
    (retroreplay_crt_attach hostOk { file := crt_bad_second, pos := 0 } (fun _ => 0) "rr.crt"
      codec_after_crt).2.2.2.retroreplay_filetype = 0 ∧
    (retroreplay_crt_attach hostOk { file := crt_bad_second, pos := 0 } (fun _ => 0) "rr.crt"
      codec_after_crt).2.2.2.retroreplay_filesize = 0 := by
  decide

/-! ## The container save loop -/

theorem fwrite_ok_eq (src : Nat → Nat) (off n : Nat) (out : File) :
    (fwrite true src off n out).1 = n ∧
    (fwrite true src off n out).2.len = out.len + n ∧
    (∀ a, a < out.len → (fwrite true src off n out).2.byte a = out.byte a) ∧
    (∀ j, j < n → (fwrite true src off n out).2.byte (out.len + j) = src (off + j)) := by
  refine ⟨rfl, rfl, ?_, ?_⟩
  · intro a ha
    simp only [fwrite, if_true, memcpy]
    rw [if_neg (by omega)]
  · intro j hj
    simp only [fwrite, if_true, memcpy]
    rw [if_pos (by omega)]
    exact congrArg _ (by omega)

theorem poke_poke (a : Nat → Nat) (i v : Nat) : poke (poke a i v) i v = poke a i v := by
  funext j
  simp only [poke]
  split_ifs <;> rfl

/-- What the container save loop writes over `n` chunks when every write succeeds:
`n` times a 0x10-byte header followed by 0x2000 bytes of the image, the header being
the same for every chunk (the initial header with byte 0x0C set to 0x80). -/
theorem save_crt_chunks_spec (H : Host) (roml_banks : Nat → Nat) (n : Nat) :
    ∀ (i : Nat) (ch : Nat → Nat) (data : Nat) (fd : File),
    (∀ k, H.fwrite_ok k = true) →
    (save_crt_chunks H roml_banks n i ch data fd).1 = true ∧
    (save_crt_chunks H roml_banks n i ch data fd).2.len = fd.len + n * 0x2010 ∧
    (∀ a, a < fd.len → (save_crt_chunks H roml_banks n i ch data fd).2.byte a = fd.byte a) ∧
    (∀ k, k < n →
      (∀ j, j < 0x10 →
        (save_crt_chunks H roml_banks n i ch data fd).2.byte (fd.len + k * 0x2010 + j)
          = poke ch 0x0c 0x80 j) ∧
      (∀ j, j < 0x2000 →
        (save_crt_chunks H roml_banks n i ch data fd).2.byte (fd.len + k * 0x2010 + 0x10 + j)
          = roml_banks (data + k * 0x2000 + j))) := by
  induction n with
  | zero =>
    intro i ch data fd _
    simp [save_crt_chunks]
  | succ n ih =>
    intro i ch data fd hw
    obtain ⟨a1, a2, a3, a4⟩ := fwrite_ok_eq (poke ch 0x0c 0x80) 0 0x10 fd
    obtain ⟨b1, b2, b3, b4⟩ := fwrite_ok_eq roml_banks data 0x2000
      (fwrite true (poke ch 0x0c 0x80) 0 0x10 fd).2
    have e : save_crt_chunks H roml_banks (n + 1) i ch data fd =
        save_crt_chunks H roml_banks n (i + 1) (poke ch 0x0c 0x80) (data + 0x2000)
          (fwrite true roml_banks data 0x2000
            (fwrite true (poke ch 0x0c 0x80) 0 0x10 fd).2).2 := by
      simp [save_crt_chunks, hw, fwrite]
    rw [e]
    obtain ⟨i1, i2, i3, i4⟩ := ih (i + 1) (poke ch 0x0c 0x80) (data + 0x2000)
      (fwrite true roml_banks data 0x2000 (fwrite true (poke ch 0x0c 0x80) 0 0x10 fd).2).2 hw
    rw [b2, a2] at i2 i3 i4
    rw [poke_poke] at i4
    refine ⟨i1, by rw [i2]; omega, ?_, ?_⟩
    · intro a ha
      rw [i3 a (by omega), b3 a (by omega), a3 a ha]
    · intro k hk
      cases k with
      | zero =>
        constructor
        · intro j hj
          rw [i3 _ (by omega), b3 _ (by rw [a2]; omega)]
          have := a4 j hj
          rw [Nat.zero_add] at this
          simpa using this
        · intro j hj
          rw [i3 _ (by omega)]
          have := b4 j hj
          rw [a2] at this
          simpa [Nat.add_assoc] using this
      | succ k =>
        obtain ⟨g1, g2⟩ := i4 k (by omega)
        constructor
        · intro j hj
          have := g1 j hj
          rw [← this]
          exact congrArg _ (by omega)
        · intro j hj
          have := g2 j hj
          rw [show data + (k + 1) * 0x2000 + j = data + 0x2000 + k * 0x2000 + j by omega, ← this]
          exact congrArg _ (by omega)

/-- What `retroreplay_save_crt` writes when the file opens and every write succeeds:
the 0x40-byte preamble, then 8 chunks; chunk `i` is a 0x10-byte header, the same for
every chunk, followed by the 0x2000 bytes of the image from offset
`0x10000 + i * 0x2000`. -/
theorem save_crt_spec (H : Host) (K : CrtConst) (c : Codec) (roml_banks : Nat → Nat)
    (hname : c.retroreplay_filename ≠ none) (hopen : H.fopen_write_ok = true)
    (hw : ∀ k, H.fwrite_ok k = true) :
    ∃ out, retroreplay_save_crt H K c roml_banks = (0, some out) ∧
      out.len = 0x40 + 8 * 0x2010 ∧
      (∀ j, j < 0x40 → out.byte j = save_crt_header K j) ∧
      (∀ i, i < 8 →
        (∀ j, j < 0x10 →
          out.byte (0x40 + i * 0x2010 + j) = poke (save_crt_chipheader K) 0x0c 0x80 j) ∧
        (∀ j, j < 0x2000 →
          out.byte (0x40 + i * 0x2010 + 0x10 + j) = roml_banks (0x10000 + i * 0x2000 + j))) := by
  obtain ⟨a1, a2, a3, a4⟩ := fwrite_ok_eq (save_crt_header K) 0 0x40
    { len := 0, byte := fun _ => 0 }
  obtain ⟨s1, s2, s3, s4⟩ := save_crt_chunks_spec H roml_banks 8 0 (save_crt_chipheader K)
    0x10000 (fwrite true (save_crt_header K) 0 0x40 { len := 0, byte := fun _ => 0 }).2 hw
  have hlen0 : (fwrite true (save_crt_header K) 0 0x40 { len := 0, byte := fun _ => 0 }).2.len
      = 0x40 := by rw [a2]
  rw [hlen0] at s2 s3 s4
  refine ⟨(save_crt_chunks H roml_banks 8 0 (save_crt_chipheader K) 0x10000
    (fwrite true (save_crt_header K) 0 0x40 { len := 0, byte := fun _ => 0 }).2).2,
    ?_, s2, ?_, s4⟩
  · simp [retroreplay_save_crt, hname, hopen, hw, s1, a1]
  · intro j hj
    rw [s3 j hj]
    have := a4 j hj
    simpa using this

/-- C20 fails on the code: saving the image whose byte `i` is `i % 251` as a
container, every write succeeding, returns 0 and writes 0x40 + 8 * 0x2010 bytes in
which the payload of each chunk is right (byte 5 of chunk 1 is image byte
`0x10000 + 0x2000 + 5`), but the destination-bank byte at header offset 0x0B is 0 in
chunk 0, chunk 1 and chunk 7 alike, where the claim has 0, 1 and 7. -/
theorem C20_save_crt_bank_byte_constant :
    (retroreplay_save_crt hostOk sampleCrt
      { codec_init with retroreplay_filename := some "rr.crt" } (fun i => i % 251)).1 = 0 ∧
    (retroreplay_save_crt hostOk sampleCrt
      { codec_init with retroreplay_filename := some "rr.crt" } (fun i => i % 251)).2.map
      (fun out => (out.len, out.byte (0x40 + 0 * 0x2010 + 0x0b),
        out.byte (0x40 + 1 * 0x2010 + 0x0b), out.byte (0x40 + 7 * 0x2010 + 0x0b),
        out.byte (0x40 + 1 * 0x2010 + 0x10 + 5)))
      = some (0x40 + 8 * 0x2010, 0, 0, 0, (0x10000 + 1 * 0x2000 + 5) % 251) := by
  decide

/-! ## Container round trip and installation -/

/-- The buffer that `retroreplay_crt_attach` hands back is the one its loop leaves,
and a return value of 0 means that the loop ran through all 8 chunks. -/
theorem crt_attach_buffer (H : Host) (fd : Stream) (rawcart : Nat → Nat) (filename : String)
    (c : Codec) :
    (retroreplay_crt_attach H fd rawcart filename c).2.1
      = (crt_attach_chunks 8 (fun _ => 0) rawcart fd).2.1 ∧
    ((retroreplay_crt_attach H fd rawcart filename c).1 = 0 →
      (crt_attach_chunks 8 (fun _ => 0) rawcart fd).1 = true ∧
      fd.pos + 8 * 0x2010 ≤ fd.file.len) := by
  obtain ⟨hfail, _⟩ := crt_attach_loop_fails (fun _ => 0) rawcart fd
  by_cases hloop : (crt_attach_chunks 8 (fun _ => 0) rawcart fd).1 = false
  · have e : retroreplay_crt_attach H fd rawcart filename c =
        (-1, (crt_attach_chunks 8 (fun _ => 0) rawcart fd).2.1,
          (crt_attach_chunks 8 (fun _ => 0) rawcart fd).2.2,
          { c with retroreplay_filetype := 0, retroreplay_filesize := 0,
                   retroreplay_filename := none }) := by
      simp [retroreplay_crt_attach, hloop]
    rw [e]
    exact ⟨rfl, fun h => by simp at h⟩
  · have hok : (crt_attach_chunks 8 (fun _ => 0) rawcart fd).1 = true := by
      simpa using hloop
    have hlen : fd.pos + 8 * 0x2010 ≤ fd.file.len := by
      by_contra h
      exact hloop (hfail.mpr (Or.inl (by omega)))
    refine ⟨?_, fun _ => ⟨hok, hlen⟩⟩
    simp [retroreplay_crt_attach, hok]

/-- C21 fails on the code: the container `crt_good` (chunk `k` carries bank `7 - k`
and a payload of bytes `k + 1`) is loaded, installed and saved, every step
succeeding. The saved file has 8 chunks whose payloads are the original chunks in
ascending bank order (payload of saved chunk 1 is that of the original chunk with
bank 1, bytes of value 7), but the bank byte of saved chunks 1 and 7 is 0; loading
the saved file succeeds and gives an image whose byte 0 is 1 and whose byte 0x2000
is 0, where the image first loaded has 8 and 7. -/
theorem C21_crt_roundtrip_loses_banks :
    (crt_load_install_save hostOk sampleCrt sampleExt power_on "rr.crt"
      { file := crt_good, pos := 0 } (fun _ => 0) (fun _ => 0) codec_init).1 = 0 ∧
    (crt_load_install_save hostOk sampleCrt sampleExt power_on "rr.crt"
      { file := crt_good, pos := 0 } (fun _ => 0) (fun _ => 0) codec_init).2.1 = 0 ∧
    crt_good_saved.len = 0x40 + 8 * 0x2010 ∧
    chunk_bank { file := crt_good, pos := 0 } 6 = 1 ∧
    chunk_payload { file := crt_good, pos := 0 } 6 5 = 7 ∧
    chunk_payload { file := crt_good_saved, pos := 0x40 } 1 5 = 7 ∧
    chunk_bank { file := crt_good_saved, pos := 0x40 } 1 = 0 ∧
    chunk_bank { file := crt_good_saved, pos := 0x40 } 7 = 0 ∧
    (retroreplay_crt_attach hostOk { file := crt_good_saved, pos := 0x40 } (fun _ => 0)
      "rr.crt" codec_init).1 = 0 ∧
    (retroreplay_crt_attach hostOk { file := crt_good, pos := 0 } (fun _ => 0)
      "rr.crt" codec_init).2.1 0 = 8 ∧
    (retroreplay_crt_attach hostOk { file := crt_good_saved, pos := 0x40 } (fun _ => 0)
      "rr.crt" codec_init).2.1 0 = 1 ∧
    (retroreplay_crt_attach hostOk { file := crt_good, pos := 0 } (fun _ => 0)
      "rr.crt" codec_init).2.1 0x2000 = 7 ∧
    (retroreplay_crt_attach hostOk { file := crt_good_saved, pos := 0x40 } (fun _ => 0)
      "rr.crt" codec_init).2.1 0x2000 = 0 := by
  decide

/-- C22 (as amended): after a successful `retroreplay_crt_attach` into the buffer
`rawcart` followed by `retroreplay_config_setup`, for every `i < 0x10000` the flash
byte `0x10000 + i` is byte `i` of the loaded image, and the flash byte `i` is byte
`0x10000 + i` of the buffer, which the load has not written: it is what `rawcart`
held there before the load. Every chunk whose bank `b` is not reused by a later chunk
sits at flash offsets `0x10000 + (b << 13) ..`. -/
theorem C22_crt_install (H : Host) (X : Ext) (s : RR) (fd : Stream)
    (rawcart roml_banks : Nat → Nat) (filename : String) (c : Codec)
    (hok : (retroreplay_crt_attach H fd rawcart filename c).1 = 0) :
    (∀ i, i < 0x10000 →
      (retroreplay_config_setup X s (retroreplay_crt_attach H fd rawcart filename c).2.1
        roml_banks).2 (0x10000 + i)
        = (retroreplay_crt_attach H fd rawcart filename c).2.1 i) ∧
    (∀ i, i < 0x10000 →
      (retroreplay_config_setup X s (retroreplay_crt_attach H fd rawcart filename c).2.1
        roml_banks).2 i = rawcart (0x10000 + i)) ∧
    (∀ k, k < 8 → (∀ k', k < k' → k' < 8 → chunk_bank fd k' ≠ chunk_bank fd k) →
      ∀ j, j < 0x2000 →
        (retroreplay_config_setup X s (retroreplay_crt_attach H fd rawcart filename c).2.1
          roml_banks).2 (0x10000 + ((chunk_bank fd k <<< 13) + j))
          = chunk_payload fd k j) := by
  obtain ⟨hbuf, hsucc⟩ := crt_attach_buffer H fd rawcart filename c
  obtain ⟨hloop, hlen⟩ := hsucc hok
  obtain ⟨_, hhigh⟩ := crt_attach_loop_fails (fun _ => 0) rawcart fd
  obtain ⟨hiff, _, h3⟩ := crt_attach_chunks_spec 8 (fun _ => 0) rawcart fd (by omega)
  obtain ⟨_, p2, _⟩ := h3 hloop
  have hbanks := (hiff.mp hloop).2
  refine ⟨fun i hi => (config_setup_image X s _ roml_banks i hi).2, ?_, ?_⟩
  · intro i hi
    rw [(config_setup_image X s _ roml_banks i hi).1, hbuf]
    exact hhigh (0x10000 + i) (by omega)
  · intro k hk hlast j hj
    have hb := hbanks k hk
    have hlt : (chunk_bank fd k <<< 13) + j < 0x10000 := by
      rw [Nat.shiftLeft_eq]; omega
    rw [(config_setup_image X s _ roml_banks _ hlt).2, hbuf]
    exact p2 k hk hlast j hj

/-- C22 at the container `crt_good` loaded into a buffer of zeros: flash byte 0 is
the zero that the buffer held at offset 0x10000. -/
theorem C22_crt_install_witness :
    (retroreplay_crt_attach hostOk { file := crt_good, pos := 0 } (fun _ => 0) "rr.crt"
      codec_init).1 = 0 ∧
    (retroreplay_config_setup sampleExt power_on
      (retroreplay_crt_attach hostOk { file := crt_good, pos := 0 } (fun _ => 0) "rr.crt"
        codec_init).2.1 (fun _ => 0xFF)).2 0 = (fun _ => 0) (0x10000 + 0) :=
  ⟨by decide,
    (C22_crt_install hostOk sampleExt power_on { file := crt_good, pos := 0 } (fun _ => 0)
      (fun _ => 0xFF) "rr.crt" codec_init (by decide)).2.1 0 (by decide)⟩

/-- C22 as stated fails: with `crt_good` loaded into a buffer of zeros, the load
succeeds, byte 0 of the loaded image is 8 and so is flash byte 0x10000, but flash
byte 0 is 0; bank 0 is no duplicate of bank 1. -/
theorem C22_counterexample :
    (retroreplay_crt_attach hostOk { file := crt_good, pos := 0 } (fun _ => 0) "rr.crt"
      codec_init).1 = 0 ∧
    (retroreplay_crt_attach hostOk { file := crt_good, pos := 0 } (fun _ => 0) "rr.crt"
      codec_init).2.1 0 = 8 ∧
    (retroreplay_config_setup sampleExt power_on
      (retroreplay_crt_attach hostOk { file := crt_good, pos := 0 } (fun _ => 0) "rr.crt"
        codec_init).2.1 (fun _ => 0)).2 (0x10000 + 0) = 8 ∧
    (retroreplay_config_setup sampleExt power_on
      (retroreplay_crt_attach hostOk { file := crt_good, pos := 0 } (fun _ => 0) "rr.crt"
        codec_init).2.1 (fun _ => 0)).2 0 = 0 := by
  decide

/-! ## Window handlers -/

/-- No I/O-1 write touches the RAM overlay while export RAM is off. -/
theorem io1_store_overlay_frame (X : Ext) (s : RR) (addr v : Nat) (h : s.mem.export_ram = 0) :
    (retroreplay_io1_store X s addr v).export_ram0 = s.export_ram0 := by
  by_cases hact : s.rr_active = 0
  · rw [io1_store_inactive X s addr v hact]
  by_cases h0 : addr &&& 0xff = 0
  · simp [retroreplay_io1_store, cartridge_config_changed, hact, h0]
    split_ifs <;> rfl
  have h0' : ¬ (addr &&& 255 = 0) := h0
  by_cases h1 : addr &&& 0xff = 1
  · by_cases hfj : s.rr_hw_flashjumper = 0
    · by_cases hwo : s.write_once = 0
      · simp [retroreplay_io1_store, cartridge_romhbank_set, cartridge_romlbank_set,
          tfe_clockport_changed, hact, h1, hfj, hwo]
        split_ifs <;> rfl
      · simp [retroreplay_io1_store, hact, h1, hfj, hwo]
    · simp [retroreplay_io1_store, cartridge_romhbank_set, cartridge_romlbank_set,
        hact, h1, hfj]
      split_ifs <;> rfl
  · have h1' : ¬ (addr &&& 255 = 1) := h1
    simp only [retroreplay_io1_store, hact, h0', h1', h, ne_eq, not_false_eq_true, if_true,
      if_false, not_true_eq_false]
    split_ifs <;> rfl

/-- C23: in every state with export RAM off, for every address and value, none of
`retroreplay_io1_store`, `retroreplay_io2_store`, `retroreplay_roml_store` and
`retroreplay_roml_no_ultimax_store` changes any byte of the RAM overlay. -/
theorem C23_overlay_written_only_with_export_ram (X : Ext) (s : RR) (addr v : Nat)
    (h : s.mem.export_ram = 0) :
    (retroreplay_io1_store X s addr v).export_ram0 = s.export_ram0 ∧
    (retroreplay_io2_store s addr v).export_ram0 = s.export_ram0 ∧
    (retroreplay_roml_store s addr v).export_ram0 = s.export_ram0 ∧
    (retroreplay_roml_no_ultimax_store s addr v).2.export_ram0 = s.export_ram0 := by
  refine ⟨io1_store_overlay_frame X s addr v h, ?_, ?_, ?_⟩
  · simp only [retroreplay_io2_store, h, ne_eq, not_true_eq_false, if_false]
    split_ifs <;> rfl
  · simp only [retroreplay_roml_store, flash040core_store, h, ne_eq, not_true_eq_false,
      if_false]
    split_ifs <;> rfl
  · simp only [retroreplay_roml_no_ultimax_store, flash040core_store, h, ne_eq,
      not_true_eq_false, if_false]
    split_ifs <;> rfl

/-- C23 at the attached cartridge, whose export RAM is off: a ROM-window store of 0xAA
at 0x8000 and an I/O-2 store at 0xDF10 leave the overlay as it was. -/
theorem C23_overlay_written_only_with_export_ram_witness :
    attached.mem.export_ram = 0 ∧
    (retroreplay_io2_store attached 0xDF10 0xAA).export_ram0 = attached.export_ram0 ∧
    (retroreplay_roml_store attached 0x8000 0xAA).export_ram0 = attached.export_ram0 :=
  ⟨by decide,
    (C23_overlay_written_only_with_export_ram sampleExt attached 0xDF10 0xAA (by decide)).2.1,
    (C23_overlay_written_only_with_export_ram sampleExt attached 0x8000 0xAA (by decide)).2.2.1⟩

/-- C24 (as amended): for every address `retroreplay_romh_read` returns the flash
byte at `rom_offset + (bank << 13) + (addr & 0x1fff)`, `bank` being the ROM-low bank
selector, whether export RAM is on or off; it agrees with `retroreplay_roml_read` in
the same state when export RAM is off. -/
theorem C24_romh_read (rd : Nat → Nat) (s : RR) (addr : Nat) :
    retroreplay_romh_read rd s addr
      = rd (s.rom_offset + (s.mem.roml_bank <<< 13) + (addr &&& 0x1fff)) ∧
    (s.mem.export_ram = 0 → retroreplay_romh_read rd s addr = retroreplay_roml_read rd s addr) := by
  constructor
  · simp only [retroreplay_romh_read]
    exact congrArg _ (by omega)
  · intro h
    simp [retroreplay_romh_read, retroreplay_roml_read, h]

/-- The ROM-low bank selector masked with 3 is one of 0, 1, 2, 3. -/
theorem and3_cases (b : Nat) : b &&& 3 = 0 ∨ b &&& 3 = 1 ∨ b &&& 3 = 2 ∨ b &&& 3 = 3 := by
  have h : b &&& 3 ≤ 3 := Nat.and_le_right
  omega

set_option maxRecDepth 4000 in
/-- The offsets the window handlers derive from addresses of the two I/O windows and
of the last page of the ROM window. -/
theorem window_offsets : ∀ k, k < 256 →
    (0xDE00 + k) &&& 0xff = k ∧ ((0xDE00 + k) ||| 0xde00) &&& 0x1fff = 0x1e00 + k ∧
    (0xDF00 + k) &&& 0xff = k ∧ (0x9F00 + k) &&& 0x1fff = 0x1f00 + k := by
  decide

set_option maxRecDepth 4000 in
/-- The register byte read back after an R1 write of the byte `v` in write-once
mode. -/
theorem feedback_byte : ∀ v, v < 256 →
    ((((((v >>> 3) &&& 3) ||| ((v >>> 5) &&& 4)) &&& 3) <<< 3)
      ||| (((((v >>> 3) &&& 3) ||| ((v >>> 5) &&& 4)) &&& 4) <<< 5)
      ||| (((((v >>> 3) &&& 3) ||| ((v >>> 5) &&& 4)) &&& 8) <<< 2)
      ||| (v &&& 2) ||| (v &&& 0x40) ||| 0) % 256 = v &&& 0xDA := by
  decide

/-- C24 as stated fails: with export RAM on and 0xAA in byte 0 of the RAM overlay,
over a flash device that reads 0x55 everywhere, the ROM-low read at 0x8000 returns
the overlay byte 0xAA while the ROM-high read at 0xE000 returns the flash byte
0x55. -/
theorem C24_counterexample :
    attached_ram_written.mem.export_ram = 1 ∧ attached_ram_written.mem.roml_bank = 0 ∧
    attached_ram_written.export_ram0 (((0 &&& 3) <<< 13) + (0xE000 &&& 0x1fff)) = 0xAA ∧
    retroreplay_roml_read (fun _ => 0x55) attached_ram_written 0x8000 = 0xAA ∧
    retroreplay_romh_read (fun _ => 0x55) attached_ram_written 0xE000 = 0x55 := by
  decide

/-- C25: for every address and value `retroreplay_roml_store` hands the write to the
flash device, at `rom_offset + (bank << 13) + (addr & 0x1fff)` with `bank` the ROM-low
bank selector, if the flash jumper is set and export RAM is off, and hands nothing
to the flash device otherwise; in particular with the flash jumper unset no write
reaches the flash device. -/
theorem C25_roml_store_flash (s : RR) (addr v : Nat) :
    ((s.rr_hw_flashjumper ≠ 0 ∧ s.mem.export_ram = 0) →
      retroreplay_roml_store s addr v =
        { s with events := s.events ++
            [Event.flash_store (s.rom_offset + (s.mem.roml_bank <<< 13) + (addr &&& 0x1fff)) v] }) ∧
    (¬ (s.rr_hw_flashjumper ≠ 0 ∧ s.mem.export_ram = 0) →
      (retroreplay_roml_store s addr v).events = s.events) ∧
    (s.rr_hw_flashjumper = 0 → (retroreplay_roml_store s addr v).events = s.events) := by
  have key : ¬ (s.rr_hw_flashjumper ≠ 0 ∧ s.mem.export_ram = 0) →
      (retroreplay_roml_store s addr v).events = s.events := by
    intro h
    by_cases hram : s.mem.export_ram = 0
    · have hfj : s.rr_hw_flashjumper = 0 := by
        by_contra hne
        exact h ⟨hne, hram⟩
      simp [retroreplay_roml_store, hram, hfj]
    · simp only [retroreplay_roml_store, hram, ne_eq, not_false_eq_true, if_true]
      split_ifs <;> rfl
  refine ⟨?_, key, fun h => key (fun hh => hh.1 h)⟩
  intro ⟨hfj, hram⟩
  have e : s.rom_offset + (addr &&& 0x1fff) + (s.mem.roml_bank <<< 13)
      = s.rom_offset + (s.mem.roml_bank <<< 13) + (addr &&& 0x1fff) := by omega
  simp [retroreplay_roml_store, flash040core_store, hfj, hram, e]

/-- C25 in flash mode with export RAM off: one store reaches the flash device. -/
theorem C25_roml_store_flash_witness :
    attached_flash.rr_hw_flashjumper ≠ 0 ∧ attached_flash.mem.export_ram = 0 ∧
    (retroreplay_roml_store attached_flash 0x8123 0x77).events
      = attached_flash.events ++ [Event.flash_store (0x10000 + 0 + 0x123) 0x77] ∧
    (retroreplay_roml_store attached 0x8123 0x77).events = attached.events :=
  ⟨by decide, by decide, by decide,
    (C25_roml_store_flash attached 0x8123 0x77).2.2 (by decide)⟩

/-- C26 (as amended): `retroreplay_roml_no_ultimax_store` acts only when the flash
jumper is set. With the flash jumper set and export RAM on it stores the value into
the RAM overlay at `((bank & 3) << 13) + (addr & 0x1fff)` and returns 1; with the
flash jumper set and export RAM off it hands the write to the flash device at
`rom_offset + (bank << 13) + (addr & 0x1fff)` and returns 0; with the flash jumper
unset it changes nothing and returns 0. -/
theorem C26_roml_no_ultimax_store (s : RR) (addr v : Nat) :
    (s.rr_hw_flashjumper ≠ 0 → s.mem.export_ram ≠ 0 →
      retroreplay_roml_no_ultimax_store s addr v =
        (1, { s with
          export_ram0 :=
            poke s.export_ram0 (((s.mem.roml_bank &&& 3) <<< 13) + (addr &&& 0x1fff)) v })) ∧
    (s.rr_hw_flashjumper ≠ 0 → s.mem.export_ram = 0 →
      retroreplay_roml_no_ultimax_store s addr v =
        (0, { s with
          events := s.events ++
            [Event.flash_store (s.rom_offset + (s.mem.roml_bank <<< 13) + (addr &&& 0x1fff))
              v] })) ∧
    (s.rr_hw_flashjumper = 0 → retroreplay_roml_no_ultimax_store s addr v = (0, s)) := by
  refine ⟨?_, ?_, ?_⟩
  · intro hfj hram
    rcases and3_cases s.mem.roml_bank with h | h | h | h <;>
      simp [retroreplay_roml_no_ultimax_store, hfj, hram, h, Nat.add_comm]
  · intro hfj hram
    have e : s.rom_offset + (addr &&& 0x1fff) + (s.mem.roml_bank <<< 13)
        = s.rom_offset + (s.mem.roml_bank <<< 13) + (addr &&& 0x1fff) := by omega
    simp [retroreplay_roml_no_ultimax_store, flash040core_store, hfj, hram, e]
  · intro hfj
    simp [retroreplay_roml_no_ultimax_store, hfj]

/-- C26 in flash mode with export RAM on: the value lands in the overlay. -/
theorem C26_roml_no_ultimax_store_witness :
    attached_flash_ram.rr_hw_flashjumper ≠ 0 ∧ attached_flash_ram.mem.export_ram ≠ 0 ∧
    (retroreplay_roml_no_ultimax_store attached_flash_ram 0x8123 0x77).1 = 1 ∧
    (retroreplay_roml_no_ultimax_store attached_flash_ram 0x8123 0x77).2.export_ram0 0x123
      = 0x77 :=
  ⟨by decide, by decide,
    by rw [(C26_roml_no_ultimax_store attached_flash_ram 0x8123 0x77).1 (by decide) (by decide)],
    by decide⟩

/-- C26 as stated fails: with export RAM on and the flash jumper unset the function
returns 0 and leaves the addressed overlay byte at 0 instead of storing 0x77. -/
theorem C26_counterexample :
    attached_ram.rr_hw_flashjumper = 0 ∧ attached_ram.mem.export_ram = 1 ∧
    attached_ram.mem.roml_bank = 0 ∧
    (retroreplay_roml_no_ultimax_store attached_ram 0x8123 0x77).1 = 0 ∧
    (retroreplay_roml_no_ultimax_store attached_ram 0x8123 0x77).2.export_ram0
      (((0 &&& 3) <<< 13) + (0x8123 &&& 0x1fff)) = 0 := by
  decide

/-- C27: for a read of the control window at `0xDE00 + k` with `k` in 2..255, the
cartridge active and no clockport pass-through: when `reu_mapping` is set the read
is marked valid and returns, with export RAM on, the RAM overlay byte at
`(p << 13) + 0x1E00 + k` where `p` is `bank & 3` if `allow_bank` is set and 0
otherwise, and with export RAM off the flash byte at
`rom_offset + (bank << 13) + 0x1E00 + k` (`bank` being the ROM-low bank selector);
when `reu_mapping` is clear the read returns 0 and is marked invalid. -/
theorem C27_io1_read_overlay (X : Ext) (rd : Nat → Nat) (s : RR) (k : Nat)
    (hk2 : 2 ≤ k) (hk : k ≤ 255) (hact : s.rr_active ≠ 0)
    (hcp : clockport_passthrough X s (0xDE00 + k) = false) :
    (s.reu_mapping ≠ 0 → s.mem.export_ram ≠ 0 → s.allow_bank ≠ 0 →
      retroreplay_io1_read X rd s (0xDE00 + k) =
        (s.export_ram0 (((s.mem.roml_bank &&& 3) <<< 13) + 0x1E00 + k),
          { s with io1_source_valid := 1 })) ∧
    (s.reu_mapping ≠ 0 → s.mem.export_ram ≠ 0 → s.allow_bank = 0 →
      retroreplay_io1_read X rd s (0xDE00 + k) =
        (s.export_ram0 (0x1E00 + k), { s with io1_source_valid := 1 })) ∧
    (s.reu_mapping ≠ 0 → s.mem.export_ram = 0 →
      retroreplay_io1_read X rd s (0xDE00 + k) =
        (rd (s.rom_offset + (s.mem.roml_bank <<< 13) + 0x1E00 + k),
          { s with io1_source_valid := 1 })) ∧
    (s.reu_mapping = 0 →
      retroreplay_io1_read X rd s (0xDE00 + k) = (0, { s with io1_source_valid := 0 })) := by
  obtain ⟨o1, o2, _, _⟩ := window_offsets k (by omega)
  have hcp' : ∀ t : RR, t.rr_clockport_enabled = s.rr_clockport_enabled →
      clockport_passthrough X t (0xDE00 + k) = false := by
    intro t ht
    simpa [clockport_passthrough, ht] using hcp
  have hk0 : ¬ (k = 0) := by omega
  have hk1 : ¬ (k = 1) := by omega
  refine ⟨?_, ?_, ?_, ?_⟩
  · intro hreu hram hab
    rcases and3_cases s.mem.roml_bank with h | h | h | h <;>
      simp [retroreplay_io1_read, hact, o1, hk0, hk1, hcp', hreu, hram, hab, h]
  · intro hreu hram hab
    simp [retroreplay_io1_read, hact, o1, hk0, hk1, hcp', hreu, hram, hab]
  · intro hreu hram
    have e : s.rom_offset + (0x1e00 + k) + (s.mem.roml_bank <<< 13)
        = s.rom_offset + (s.mem.roml_bank <<< 13) + 0x1E00 + k := by omega
    simp [retroreplay_io1_read, hact, o1, o2, hk0, hk1, hcp', hreu, hram, e]
  · intro hreu
    simp [retroreplay_io1_read, hact, o1, hk0, hk1, hcp', hreu]

/-- C27 at offset 0x42 in a state with bank 1, `allow_bank` and `reu_mapping` set and
export RAM on: the read returns the overlay byte at `(1 << 13) + 0x1E00 + 0x42`. -/
theorem C27_io1_read_overlay_witness :
    (2 : Nat) ≤ 0x42 ∧ (0x42 : Nat) ≤ 255 ∧ attached_reu_ram.rr_active ≠ 0 ∧
    clockport_passthrough sampleExt attached_reu_ram (0xDE00 + 0x42) = false ∧
    attached_reu_ram.reu_mapping ≠ 0 ∧ attached_reu_ram.mem.export_ram ≠ 0 ∧
    attached_reu_ram.allow_bank ≠ 0 ∧ attached_reu_ram.mem.roml_bank = 1 ∧
    retroreplay_io1_read sampleExt id attached_reu_ram (0xDE00 + 0x42) =
      (attached_reu_ram.export_ram0 (((attached_reu_ram.mem.roml_bank &&& 3) <<< 13)
          + 0x1E00 + 0x42),
        { attached_reu_ram with io1_source_valid := 1 }) :=
  ⟨by decide, by decide, by decide, by decide, by decide, by decide, by decide, by decide,
    (C27_io1_read_overlay sampleExt id attached_reu_ram 0x42 (by decide) (by decide)
      (by decide) (by decide)).1 (by decide) (by decide) (by decide)⟩

/-- C29: with the flash jumper unset, for every byte `v`, after
`retroreplay_config_init` and an R1 write of `v` a read of control-window offset 0 or
1 returns exactly `v & 0xDA` and is marked valid, the ROM-low bank selector being the
bank `((v>>3)&3) | ((v>>5)&4)` that the write has just set. -/
theorem C29_r1_feedback (X : Ext) (rd : Nat → Nat) (s0 : RR) (a1 a2 v : Nat)
    (hfj : s0.rr_hw_flashjumper = 0) (hv : v < 256) (ha1 : a1 &&& 0xff = 1)
    (ha2 : a2 &&& 0xff = 0 ∨ a2 &&& 0xff = 1) :
    (retroreplay_io1_store X (retroreplay_config_init X s0) a1 v).mem.roml_bank
      = ((v >>> 3) &&& 3) ||| ((v >>> 5) &&& 4) ∧
    (retroreplay_io1_read X rd
      (retroreplay_io1_store X (retroreplay_config_init X s0) a1 v) a2).1 = v &&& 0xDA ∧
    (retroreplay_io1_read X rd
      (retroreplay_io1_store X (retroreplay_config_init X s0) a1 v) a2).2.io1_source_valid
      = 1 := by
  have hinit : (retroreplay_config_init X s0).rr_active = 1 ∧
      (retroreplay_config_init X s0).rr_hw_flashjumper = 0 ∧
      (retroreplay_config_init X s0).write_once = 0 := by
    simp [retroreplay_config_init, cartridge_config_changed, flash040core_reset, hfj]
  obtain ⟨i1, i2, i3⟩ := hinit
  generalize retroreplay_config_init X s0 = s at i1 i2 i3 ⊢
  have hst : (retroreplay_io1_store X s a1 v).rr_active = 1 ∧
      (retroreplay_io1_store X s a1 v).rr_hw_flashjumper = 0 ∧
      (retroreplay_io1_store X s a1 v).mem.roml_bank = ((v >>> 3) &&& 3) ||| ((v >>> 5) &&& 4) ∧
      (retroreplay_io1_store X s a1 v).allow_bank = v &&& 2 ∧
      (retroreplay_io1_store X s a1 v).reu_mapping = v &&& 0x40 := by
    simp [retroreplay_io1_store, cartridge_romhbank_set, cartridge_romlbank_set,
      tfe_clockport_changed, i1, i2, i3, ha1]
    split_ifs <;> simp [i1, i2]
  obtain ⟨f1, f2, f3, f4, f5⟩ := hst
  generalize retroreplay_io1_store X s a1 v = t at f1 f2 f3 f4 f5 ⊢
  refine ⟨f3, ?_, ?_⟩
  · have := feedback_byte v hv
    simp only [retroreplay_io1_read, f1, f2, f3, f4, f5, ha2, ne_eq, Nat.succ_ne_zero,
      not_false_eq_true, if_true, one_ne_zero]
    exact this
  · simp [retroreplay_io1_read, f1, ha2]

/-- C29 at `v = 0xFF` from program start: the byte read back is 0xDA. -/
theorem C29_r1_feedback_witness :
    power_on.rr_hw_flashjumper = 0 ∧ (0xFF : Nat) < 256 ∧ 0xde01 &&& 0xff = 1 ∧
    (0xde00 &&& 0xff = 0 ∨ 0xde00 &&& 0xff = 1) ∧
    (retroreplay_io1_read sampleExt id
      (retroreplay_io1_store sampleExt (retroreplay_config_init sampleExt power_on) 0xde01 0xFF)
      0xde00).1 = 0xFF &&& 0xDA :=
  ⟨by decide, by decide, by decide, by decide,
    (C29_r1_feedback sampleExt id power_on 0xde01 0xde00 0xFF (by decide) (by decide)
      (by decide) (by decide)).2.1⟩

/-- C30: with the cartridge active, `reu_mapping` clear and export RAM on, for every
offset `k` in 0..255 and every value `v`, `retroreplay_io2_store` at `0xDF00 + k`
writes the overlay cell `((bank & 3) << 13) + 0x1F00 + k` when `allow_bank` is set
and the cell `0x1F00 + k` of RAM bank 0 when `allow_bank` is clear, whatever the
bank; `retroreplay_roml_read` at `0x9F00 + k` reads the cell
`((bank & 3) << 13) + 0x1F00 + k`; so whenever `allow_bank` is set or `bank & 3 = 0`
the ROM-window read returns the value just written through the I/O-2 window, and so
does `retroreplay_io2_read` at the same address in every case. -/
theorem C30_io2_roml_alias (rd : Nat → Nat) (s : RR) (k v : Nat) (hk : k ≤ 255)
    (hact : s.rr_active ≠ 0) (hreu : s.reu_mapping = 0) (hram : s.mem.export_ram ≠ 0) :
    (s.allow_bank ≠ 0 →
      retroreplay_io2_store s (0xDF00 + k) v =
        { s with
          export_ram0 :=
            poke s.export_ram0 (((s.mem.roml_bank &&& 3) <<< 13) + 0x1F00 + k) v }) ∧
    (s.allow_bank = 0 →
      retroreplay_io2_store s (0xDF00 + k) v =
        { s with export_ram0 := poke s.export_ram0 (0x1F00 + k) v }) ∧
    retroreplay_roml_read rd (retroreplay_io2_store s (0xDF00 + k) v) (0x9F00 + k)
      = (retroreplay_io2_store s (0xDF00 + k) v).export_ram0
          (((s.mem.roml_bank &&& 3) <<< 13) + 0x1F00 + k) ∧
    ((s.allow_bank ≠ 0 ∨ s.mem.roml_bank &&& 3 = 0) →
      retroreplay_roml_read rd (retroreplay_io2_store s (0xDF00 + k) v) (0x9F00 + k) = v) ∧
    (retroreplay_io2_read rd (retroreplay_io2_store s (0xDF00 + k) v) (0xDF00 + k)).1 = v := by
  obtain ⟨_, _, o3, o4⟩ := window_offsets k (by omega)
  have hset : s.allow_bank ≠ 0 →
      retroreplay_io2_store s (0xDF00 + k) v =
        { s with
          export_ram0 :=
            poke s.export_ram0 (((s.mem.roml_bank &&& 3) <<< 13) + 0x1F00 + k) v } := by
    intro hab
    rcases and3_cases s.mem.roml_bank with h | h | h | h <;>
      simp [retroreplay_io2_store, hact, hreu, hram, hab, o3, h]
  have hclear : s.allow_bank = 0 →
      retroreplay_io2_store s (0xDF00 + k) v =
        { s with export_ram0 := poke s.export_ram0 (0x1F00 + k) v } := by
    intro hab
    simp [retroreplay_io2_store, hact, hreu, hram, hab, o3]
  have hread : ∀ t : RR, t.mem = s.mem →
      retroreplay_roml_read rd t (0x9F00 + k)
        = t.export_ram0 (((s.mem.roml_bank &&& 3) <<< 13) + 0x1F00 + k) := by
    intro t ht
    rcases and3_cases s.mem.roml_bank with h | h | h | h <;>
      simp [retroreplay_roml_read, ht, hram, o4, h] <;>
      exact congrArg t.export_ram0 (by omega)
  have hmem : (retroreplay_io2_store s (0xDF00 + k) v).mem = s.mem := by
    by_cases hab : s.allow_bank = 0
    · rw [hclear hab]
    · rw [hset hab]
  refine ⟨hset, hclear, hread _ hmem, ?_, ?_⟩
  · intro h
    rw [hread _ hmem]
    by_cases hab : s.allow_bank = 0
    · have hb : s.mem.roml_bank &&& 3 = 0 := by
        rcases h with h | h
        · exact absurd hab h
        · exact h
      rw [hclear hab, hb]
      simp [poke]
    · rw [hset hab]
      simp [poke]
  · by_cases hab : s.allow_bank = 0
    · rw [hclear hab]
      simp [retroreplay_io2_read, hact, hreu, hram, hab, o3, poke]
    · rw [hset hab]
      rcases and3_cases s.mem.roml_bank with h | h | h | h <;>
        simp [retroreplay_io2_read, hact, hreu, hram, hab, o3, poke, h]

/-- C30 at offset 0x42 in a state with bank 1, `allow_bank` set, `reu_mapping` clear
and export RAM on: the value written through the I/O-2 window is read back through
the ROM window. -/
theorem C30_io2_roml_alias_witness :
    (0x42 : Nat) ≤ 255 ∧ attached_bank1_ram.rr_active ≠ 0 ∧
    attached_bank1_ram.reu_mapping = 0 ∧ attached_bank1_ram.mem.export_ram ≠ 0 ∧
    (attached_bank1_ram.allow_bank ≠ 0 ∨ attached_bank1_ram.mem.roml_bank &&& 3 = 0) ∧
    retroreplay_roml_read id (retroreplay_io2_store attached_bank1_ram (0xDF00 + 0x42) 0x99)
      (0x9F00 + 0x42) = 0x99 :=
  ⟨by decide, by decide, by decide, by decide, Or.inl (by decide),
    (C30_io2_roml_alias id attached_bank1_ram 0x42 0x99 (by decide) (by decide) (by decide)
      (by decide)).2.2.2.1 (Or.inl (by decide))⟩

/-! ## Flash offsets stay inside the image -/

/-- No I/O-1 write changes `rom_offset`. -/
theorem io1_store_rom_offset (X : Ext) (s : RR) (addr v : Nat) :
    (retroreplay_io1_store X s addr v).rom_offset = s.rom_offset := by
  by_cases hact : s.rr_active = 0
  · rw [io1_store_inactive X s addr v hact]
  by_cases h0 : addr &&& 0xff = 0
  · simp [retroreplay_io1_store, cartridge_config_changed, hact, h0]
    split_ifs <;> simp
  have h0' : ¬ (addr &&& 255 = 0) := h0
  by_cases h1 : addr &&& 0xff = 1
  · by_cases hfj : s.rr_hw_flashjumper = 0
    · by_cases hwo : s.write_once = 0
      · simp [retroreplay_io1_store, cartridge_romhbank_set, cartridge_romlbank_set,
          tfe_clockport_changed, hact, h1, hfj, hwo]
        split_ifs <;> simp
      · simp [retroreplay_io1_store, hact, h1, hfj, hwo]
    · by_cases hbj : s.rr_hw_bankjumper = 0
      · simp [retroreplay_io1_store, cartridge_romhbank_set, cartridge_romlbank_set,
          hact, h1, hfj, hbj]
      · simp [retroreplay_io1_store, cartridge_romhbank_set, cartridge_romlbank_set,
          hact, h1, hfj, hbj]
  · have h1' : ¬ (addr &&& 255 = 1) := h1
    simp only [retroreplay_io1_store, hact, h0', h1', ne_eq, not_false_eq_true, if_true, if_false]
    split_ifs <;> rfl

/-- A sequence of operations changes neither jumper nor `rom_offset`. -/
theorem run_frame (X : Ext) (ops : List Op) (s : RR) :
    (run X s ops).rr_hw_flashjumper = s.rr_hw_flashjumper ∧
    (run X s ops).rr_hw_bankjumper = s.rr_hw_bankjumper ∧
    (run X s ops).rom_offset = s.rom_offset := by
  induction ops generalizing s with
  | nil => exact ⟨rfl, rfl, rfl⟩
  | cons op ops ih =>
    obtain ⟨j1, j2⟩ := step_jumpers X s op
    have j3 : (step X s op).rom_offset = s.rom_offset := by
      cases op with
      | io1_store addr value => exact io1_store_rom_offset X s addr value
      | freeze =>
        simp only [step, retroreplay_freeze, cartridge_config_changed]
        split_ifs <;> rfl
      | reset =>
        simp only [step, retroreplay_reset, cartridge_config_changed, flash040core_reset]
        split_ifs <;> rfl
    obtain ⟨r1, r2, r3⟩ := ih (step X s op)
    simp only [run, List.foldl_cons] at r1 r2 r3 ⊢
    exact ⟨r1.trans j1, r2.trans j2, r3.trans j3⟩

/-- What an I/O-1 write can do to the ROM-low bank selector when the memory
controller takes it from the bank field of the notification: leave it, set it to the
three decoded bits, or, with both jumpers set, to the four-bit value. -/
theorem io1_store_roml_bank (X : Ext) (s : RR) (addr v : Nat)
    (hmap : ∀ p g b w mem, g ≤ 3 → b ≤ 7 →
      (X.config_map p (g ||| (b <<< X.CMODE_BANK_SHIFT)) w mem).roml_bank = b) :
    (retroreplay_io1_store X s addr v).mem.roml_bank = s.mem.roml_bank ∨
    (retroreplay_io1_store X s addr v).mem.roml_bank
      = ((v >>> 3) &&& 3) ||| ((v >>> 5) &&& 4) ∨
    (s.rr_hw_flashjumper ≠ 0 ∧ s.rr_hw_bankjumper ≠ 0 ∧
      (retroreplay_io1_store X s addr v).mem.roml_bank
        = ((v >>> 3) &&& 3) ||| ((v >>> 5) &&& 4) ||| (((v >>> 2) &&& 8) ^^^ 8)) := by
  by_cases hact : s.rr_active = 0
  · rw [io1_store_inactive X s addr v hact]
    exact Or.inl rfl
  by_cases h0 : addr &&& 0xff = 0
  · have hb : ((v >>> 3) &&& 3) ||| ((v >>> 5) &&& 4) ≤ 7 := by
      have := bank3_lt v
      omega
    have e : ∃ g w, g ≤ 3 ∧ (retroreplay_io1_store X s addr v).mem
        = X.config_map 0
            (g ||| ((((v >>> 3) &&& 3) ||| ((v >>> 5) &&& 4)) <<< X.CMODE_BANK_SHIFT)) w
            s.mem := by
      simp only [retroreplay_io1_store, cartridge_config_changed, hact, h0, ne_eq,
        not_false_eq_true, if_true]
      split_ifs <;> exact ⟨_, _, Nat.and_le_right, rfl⟩
    obtain ⟨g, w, hg, e⟩ := e
    rw [e]
    exact Or.inr (Or.inl (hmap 0 g _ w s.mem hg hb))
  have h0' : ¬ (addr &&& 255 = 0) := h0
  by_cases h1 : addr &&& 0xff = 1
  · by_cases hfj : s.rr_hw_flashjumper = 0
    · by_cases hwo : s.write_once = 0
      · simp [retroreplay_io1_store, cartridge_romhbank_set, cartridge_romlbank_set,
          tfe_clockport_changed, hact, h1, hfj, hwo]
        split_ifs <;> simp
      · simp [retroreplay_io1_store, hact, h1, hfj, hwo]
    · by_cases hbj : s.rr_hw_bankjumper = 0
      · simp [retroreplay_io1_store, cartridge_romhbank_set, cartridge_romlbank_set,
          hact, h1, hfj, hbj]
      · simp [retroreplay_io1_store, cartridge_romhbank_set, cartridge_romlbank_set,
          hact, h1, hfj, hbj]
  · have h1' : ¬ (addr &&& 255 = 1) := h1
    simp only [retroreplay_io1_store, hact, h0', h1', ne_eq, not_false_eq_true, if_true, if_false]
    split_ifs <;> exact Or.inl rfl

/-- A sequence of operations keeps the ROM-low bank selector below 16, and below 8
unless both jumpers are set, when the memory controller takes it from the bank field
of the notification. -/
theorem run_roml_bank (X : Ext)
    (hmap : ∀ p g b w mem, g ≤ 3 → b ≤ 7 →
      (X.config_map p (g ||| (b <<< X.CMODE_BANK_SHIFT)) w mem).roml_bank = b)
    (ops : List Op) (s : RR) :
    (s.mem.roml_bank < 16 → (run X s ops).mem.roml_bank < 16) ∧
    ((s.rr_hw_flashjumper = 0 ∨ s.rr_hw_bankjumper = 0) → s.mem.roml_bank < 8 →
      (run X s ops).mem.roml_bank < 8) := by
  have hzero : ∀ p g w mem, g ≤ 3 → (X.config_map p g w mem).roml_bank = 0 := by
    intro p g w mem hg
    have := hmap p g 0 w mem hg (by omega)
    simpa using this
  induction ops generalizing s with
  | nil => exact ⟨fun h => h, fun _ h => h⟩
  | cons op ops ih =>
    obtain ⟨j1, j2⟩ := step_jumpers X s op
    have hstep : (s.mem.roml_bank < 16 → (step X s op).mem.roml_bank < 16) ∧
        ((s.rr_hw_flashjumper = 0 ∨ s.rr_hw_bankjumper = 0) → s.mem.roml_bank < 8 →
          (step X s op).mem.roml_bank < 8) := by
      cases op with
      | io1_store addr value =>
        have h3 := bank3_lt value
        have h4 := bank4_lt value
        have hb := io1_store_roml_bank X s addr value hmap
        simp only [step]
        constructor
        · intro h
          rcases hb with hb | hb | ⟨_, _, hb⟩ <;> rw [hb] <;> omega
        · intro hj h
          rcases hb with hb | hb | ⟨hf, hbj, _⟩
          · rw [hb]; exact h
          · rw [hb]; exact h3
          · rcases hj with hj | hj
            · exact absurd hj hf
            · exact absurd hj hbj
      | freeze =>
        simp only [step, retroreplay_freeze, cartridge_config_changed]
        have hz : ∀ w mem, (X.config_map 3 3 w mem).roml_bank = 0 :=
          fun w mem => hzero 3 3 w mem (by omega)
        split_ifs
        · exact ⟨fun h => h, fun _ h => h⟩
        · simp [hz]
      | reset =>
        simp only [step, retroreplay_reset, cartridge_config_changed, flash040core_reset]
        have hz2 : ∀ w mem, (X.config_map 2 2 w mem).roml_bank = 0 :=
          fun w mem => hzero 2 2 w mem (by omega)
        have hz0 : ∀ w mem, (X.config_map 0 0 w mem).roml_bank = 0 :=
          fun w mem => hzero 0 0 w mem (by omega)
        split_ifs <;> simp [hz2, hz0]
    obtain ⟨b1, b2⟩ := hstep
    obtain ⟨r1, r2⟩ := ih (step X s op)
    simp only [run, List.foldl_cons] at r1 r2 ⊢
    exact ⟨fun h => r1 (b1 h), fun hj h => r2 (by rw [j1, j2]; exact hj) (b2 hj h)⟩

/-- The memory controller of `sampleExt` takes the ROM-low bank selector from the
bank field of the notification. -/
theorem sampleExt_bank_field (p g b w : Nat) (mem : MemMap) (hg : g ≤ 3) (hb : b ≤ 7) :
    (sampleExt.config_map p (g ||| (b <<< sampleExt.CMODE_BANK_SHIFT)) w mem).roml_bank = b := by
  simp only [sampleExt]
  interval_cases g <;> interval_cases b <;> rfl

/-- C28 (as amended): let the memory controller set the ROM-low bank selector
`roml_bank` to the bank field of every map-change notification, and let the jumpers
be set to `fj` and `bj` before attach and left alone. Then in every state reached
from `retroreplay_config_init` by any sequence of I/O-1 writes (R0 and R1 writes
among them), freezes and resets, and for every address, the flash offset
`rom_offset + (roml_bank << 13) + (addr & 0x1fff)` that the window handlers compute is
below 0x20000, whatever the state before attach was: it is the offset
`retroreplay_romh_read` reads at, the one `retroreplay_roml_read` reads at when export
RAM is off, and the one `retroreplay_roml_store` hands to the flash device when the
flash jumper is set and export RAM is off. The same expression with the register
field `rr_bank` in place of `roml_bank` is below 0x20000 when the bank before attach
was in 0..7 or, with both jumpers set, in 0..15. -/
theorem C28_flash_offset_in_range (X : Ext) (s00 : RR) (fj bj : Nat) (ops : List Op)
    (addr : Nat)
    (hmap : ∀ p g b w mem, g ≤ 3 → b ≤ 7 →
      (X.config_map p (g ||| (b <<< X.CMODE_BANK_SHIFT)) w mem).roml_bank = b) :
    (attach_run X fj bj s00 ops).rom_offset
      + ((attach_run X fj bj s00 ops).mem.roml_bank <<< 13) + (addr &&& 0x1fff) < 0x20000 ∧
    retroreplay_romh_read id (attach_run X fj bj s00 ops) addr
      = (attach_run X fj bj s00 ops).rom_offset
        + ((attach_run X fj bj s00 ops).mem.roml_bank <<< 13) + (addr &&& 0x1fff) ∧
    ((attach_run X fj bj s00 ops).mem.export_ram = 0 →
      retroreplay_roml_read id (attach_run X fj bj s00 ops) addr
        = (attach_run X fj bj s00 ops).rom_offset
          + ((attach_run X fj bj s00 ops).mem.roml_bank <<< 13) + (addr &&& 0x1fff)) ∧
    (∀ v, (attach_run X fj bj s00 ops).rr_hw_flashjumper ≠ 0 →
      (attach_run X fj bj s00 ops).mem.export_ram = 0 →
      (retroreplay_roml_store (attach_run X fj bj s00 ops) addr v).events
        = (attach_run X fj bj s00 ops).events ++
          [Event.flash_store ((attach_run X fj bj s00 ops).rom_offset
            + ((attach_run X fj bj s00 ops).mem.roml_bank <<< 13) + (addr &&& 0x1fff)) v]) ∧
    ((s00.rr_bank ≤ 7 ∨ (fj ≠ 0 ∧ bj ≠ 0 ∧ s00.rr_bank ≤ 15)) →
      (attach_run X fj bj s00 ops).rom_offset
        + ((attach_run X fj bj s00 ops).rr_bank <<< 13) + (addr &&& 0x1fff) < 0x20000) := by
  have hzero : ∀ p g w mem, g ≤ 3 → (X.config_map p g w mem).roml_bank = 0 := by
    intro p g w mem hg
    have := hmap p g 0 w mem hg (by omega)
    simpa using this
  have hz2 : ∀ w mem, (X.config_map 2 2 w mem).roml_bank = 0 :=
    fun w mem => hzero 2 2 w mem (by omega)
  have hz0 : ∀ w mem, (X.config_map 0 0 w mem).roml_bank = 0 :=
    fun w mem => hzero 0 0 w mem (by omega)
  have hi : (retroreplay_config_init X
        (set_rr_bankjumper bj (set_rr_flashjumper fj s00))).rr_bank = s00.rr_bank ∧
      (retroreplay_config_init X
        (set_rr_bankjumper bj (set_rr_flashjumper fj s00))).rr_hw_flashjumper = fj ∧
      (retroreplay_config_init X
        (set_rr_bankjumper bj (set_rr_flashjumper fj s00))).rr_hw_bankjumper = bj ∧
      (retroreplay_config_init X
        (set_rr_bankjumper bj (set_rr_flashjumper fj s00))).rom_offset
        = (if bj ≠ 0 then 0 else 0x10000) ∧
      (retroreplay_config_init X
        (set_rr_bankjumper bj (set_rr_flashjumper fj s00))).mem.roml_bank = 0 := by
    simp only [retroreplay_config_init, cartridge_config_changed, flash040core_reset,
      set_rr_bankjumper, set_rr_flashjumper]
    split_ifs <;> simp [hz2, hz0]
  obtain ⟨i1, i2, i3, i4, i5⟩ := hi
  simp only [attach_run]
  generalize retroreplay_config_init X (set_rr_bankjumper bj (set_rr_flashjumper fj s00)) = s
    at i1 i2 i3 i4 i5 ⊢
  obtain ⟨f1, _, f3⟩ := run_frame X ops s
  obtain ⟨r1, r2⟩ := run_bank X ops s
  obtain ⟨m1, m2⟩ := run_roml_bank X hmap ops s
  rw [i1] at r1 r2
  rw [i2, i3] at r2 m2
  rw [i5] at m1 m2
  have ha : addr &&& 0x1fff ≤ 0x1fff := Nat.and_le_right
  have hoff : (run X s ops).rom_offset + ((run X s ops).mem.roml_bank <<< 13)
      + (addr &&& 0x1fff) < 0x20000 := by
    rw [f3, i4, Nat.shiftLeft_eq]
    have hb16 := m1 (by omega)
    by_cases hbj : bj = 0
    · have hb := m2 (Or.inr hbj) (by omega)
      simp only [hbj, ne_eq, not_true_eq_false, if_false]
      omega
    · simp only [hbj, ne_eq, not_false_eq_true, if_true]
      omega
  have e : (run X s ops).rom_offset + (addr &&& 0x1fff) + ((run X s ops).mem.roml_bank <<< 13)
      = (run X s ops).rom_offset + ((run X s ops).mem.roml_bank <<< 13) + (addr &&& 0x1fff) := by
    omega
  refine ⟨hoff, ?_, ?_, ?_, ?_⟩
  · simp only [retroreplay_romh_read, id, e]
  · intro hram
    simp only [retroreplay_roml_read, hram, ne_eq, not_true_eq_false, if_false, id, e]
  · intro v hfj hram
    simp [retroreplay_roml_store, flash040core_store, hfj, hram, e]
  · intro h0
    rw [f3, i4, Nat.shiftLeft_eq]
    by_cases hbj : bj = 0
    · have hb : (run X s ops).rr_bank < 8 := by
        refine r2 (Or.inr hbj) ?_
        rcases h0 with h | ⟨_, h, _⟩
        · omega
        · exact absurd hbj h
      simp only [hbj, ne_eq, not_true_eq_false, if_false]
      omega
    · have hb : (run X s ops).rr_bank < 16 := by
        refine r1 ?_
        rcases h0 with h | ⟨_, _, h⟩ <;> omega
      simp only [hbj, ne_eq, not_false_eq_true, if_true]
      omega

/-- C28 from program start with both jumpers set, after an R1 write of 0x98 that
selects bank 15: the ROM-low bank selector is 15, and the ROM-high read at 0xFFFF
reads the last byte of the flash image, offset 0x1FFFF. -/
theorem C28_flash_offset_in_range_witness :
    (∀ p g b w mem, g ≤ 3 → b ≤ 7 →
      (sampleExt.config_map p (g ||| (b <<< sampleExt.CMODE_BANK_SHIFT)) w mem).roml_bank
        = b) ∧
    (attach_run sampleExt 1 1 power_on [Op.io1_store 0xde01 0x98]).mem.roml_bank = 15 ∧
    retroreplay_romh_read id (attach_run sampleExt 1 1 power_on [Op.io1_store 0xde01 0x98])
      0xFFFF = 0x1FFFF ∧
    (attach_run sampleExt 1 1 power_on [Op.io1_store 0xde01 0x98]).rom_offset
      + ((attach_run sampleExt 1 1 power_on [Op.io1_store 0xde01 0x98]).mem.roml_bank <<< 13)
      + (0xFFFF &&& 0x1fff) < 0x20000 :=
  ⟨sampleExt_bank_field, by decide, by decide,
    (C28_flash_offset_in_range sampleExt power_on 1 1 [Op.io1_store 0xde01 0x98] 0xFFFF
      sampleExt_bank_field).1⟩

/-- C28 as stated fails: an earlier session with both jumpers set leaves `rr_bank` at
15; attached again with the bank jumper unset, before any register write, the
cartridge has `rom_offset = 0x10000` and still `rr_bank = 15`, so the expression
`rom_offset + (rr_bank << 13) + (addr & 0x1fff)` is 0x2E000 at address 0x8000, not
below 0x20000. The handlers do not compute it: the ROM-low bank selector is 0 and
`retroreplay_roml_read` reads at 0x10000. -/
theorem C28_counterexample :
    stale_bank15.rr_bank = 15 ∧
    reattached_stale.rr_hw_flashjumper = 1 ∧ reattached_stale.rr_hw_bankjumper = 0 ∧
    reattached_stale.rr_bank = 15 ∧ reattached_stale.rom_offset = 0x10000 ∧
    reattached_stale.rom_offset + (reattached_stale.rr_bank <<< 13) + (0x8000 &&& 0x1fff)
      = 0x2E000 ∧
    ¬ (reattached_stale.rom_offset + (reattached_stale.rr_bank <<< 13) + (0x8000 &&& 0x1fff)
      < 0x20000) ∧
    reattached_stale.mem.roml_bank = 0 ∧ reattached_stale.mem.export_ram = 0 ∧
    retroreplay_roml_read id reattached_stale 0x8000 = 0x10000 := by
  decide

end RetroReplay
